import Mathlib

/-!
A verification development for the decompiler analysis core
(`funcdata_op.cc`, `funcdata_varnode.cc`).  The IR store (varnodes,
p-code operations, basic blocks) is shallowly embedded as explicit
state; the linkage-edit and analysis routines of the source are
transcribed as executable functions over that state, and the
properties the specification asserts about them are proved or refuted
below.
-/

set_option maxRecDepth 100000

namespace GhidraDec

/-- Address-space kinds of the embedding.  `constant` is the constant space
(a constant Varnode's offset is its value), `internal` is the `unique`
temporary space (`IPTR_INTERNAL`), `iop` is the space of annotation varnodes
that encode a pointer to another PcodeOp, `processor` stands for the
ordinary memory/register spaces. -/
inductive SpaceType where
  | constant
  | internal
  | iop
  | processor
deriving DecidableEq

/-- A storage address: an address space together with a byte offset. -/
structure Address where
  space : SpaceType
  offset : Nat
deriving DecidableEq

instance : Inhabited Address := ⟨⟨SpaceType.processor, 0⟩⟩

/-- The p-code opcodes used by the routines under study. -/
inductive OpCode where
  | COPY
  | LOAD
  | STORE
  | BRANCH
  | CBRANCH
  | BRANCHIND
  | CALL
  | CALLIND
  | RETURN
  | INT_EQUAL
  | INT_LESS
  | INT_SLESS
  | INT_LESSEQUAL
  | INT_SLESSEQUAL
  | INT_ADD
  | INT_REM
  | INT_SREM
  | SUBPIECE
  | PIECE
  | MULTIEQUAL
  | INDIRECT
deriving DecidableEq

/-- Modelled from the spec: `PcodeOp::isFlowBreak` (`op.hh` is not in the
repository snapshot).  The branch-flagged ops (BRANCH, CBRANCH, BRANCHIND)
and RETURN end a basic block: "branch appears only as last operation". -/
def OpCode.isFlowBreak : OpCode → Bool
  | OpCode.BRANCH => true
  | OpCode.CBRANCH => true
  | OpCode.BRANCHIND => true
  | OpCode.RETURN => true
  | _ => false

/-- Modelled from the spec: `PcodeOp::isMarker` (`op.hh` missing).  The
marker pseudo-ops are MULTIEQUAL (phi) and INDIRECT (guard). -/
def OpCode.isMarker : OpCode → Bool
  | OpCode.MULTIEQUAL => true
  | OpCode.INDIRECT => true
  | _ => false

/-- An SSA variable.  Cross references (`defOp`, `descend`) are indices into
the owning function's operation table.  The boolean fields are the Varnode
property bits the studied routines read or write; `cover` abstracts the
liveness cover (only cleared, never computed, by the routines here). -/
structure Varnode where
  space : SpaceType
  offset : Nat
  size : Nat
  defOp : Option Nat := none
  descend : List Nat := []
  input : Bool := false
  spacebase : Bool := false
  typelock : Bool := false
  persist : Bool := false
  unaffected : Bool := false
  directwrite : Bool := false
  addrforce : Bool := false
  incidentalcopy : Bool := false
  indirectzero : Bool := false
  returnaddress : Bool := false
  indcreate : Bool := false
  mark : Bool := false
  sym : Option Nat := none
  cover : List Nat := []
deriving DecidableEq

instance : Inhabited Varnode := ⟨{ space := SpaceType.constant, offset := 0, size := 0 }⟩

/-- `Varnode::isConstant`: storage lies in the constant space. -/
def Varnode.isConstant (vn : Varnode) : Bool := vn.space = SpaceType.constant

/-- `Varnode::hasNoDescend`: the reader list is empty. -/
def Varnode.hasNoDescend (vn : Varnode) : Bool := vn.descend.isEmpty

/-- `Varnode::isWritten`: the varnode has a defining operation. -/
def Varnode.isWritten (vn : Varnode) : Bool := vn.defOp.isSome

/-- The storage address of a varnode. -/
def Varnode.getAddr (vn : Varnode) : Address := ⟨vn.space, vn.offset⟩

/-- A parameter trial: a candidate input varnode of a CALL/RETURN together
with the analysis bits the ancestry walk reads and writes. -/
structure ParamTrial where
  addr : Address := default
  size : Nat := 0
  slot : Nat := 0
  checked : Bool := false
  active : Bool := false
  killedbycall : Bool := false
  remformed : Bool := false
  indcreateformed : Bool := false
  condexe : Bool := false
deriving DecidableEq

instance : Inhabited ParamTrial := ⟨{}⟩

/-- Modelled from the spec: the calling-convention model attached to a CALL
(`FuncCallSpecs`, `fspec.cc` not in the repository snapshot): an entry
address, whether input-trial analysis is active, and the trial list. -/
structure FuncCallSpecs where
  entryaddr : Address := default
  inputActive : Bool := false
  trials : List ParamTrial := []
deriving DecidableEq

instance : Inhabited FuncCallSpecs := ⟨{}⟩

/-- A p-code operation.  `inputs` are (possibly null) varnode indices,
`output` an optional varnode index, `parent` the owning basic block (none
when the op is on the dead list).  `order` stands for the sub-address
ordering component of the sequence number.  The boolean fields are the
instance flag bits (the opcode-derived bits such as `branch` or `marker`
are functions of `opc` in this embedding). -/
structure PcodeOp where
  opc : OpCode := OpCode.COPY
  addr : Address := default
  order : Nat := 0
  inputs : List (Option Nat) := []
  output : Option Nat := none
  parent : Option Nat := none
  startbasic : Bool := false
  startmark : Bool := false
  halt : Bool := false
  badinstruction : Bool := false
  unimplemented : Bool := false
  noreturn : Bool := false
  missing : Bool := false
  indirectcreation : Bool := false
deriving DecidableEq

instance : Inhabited PcodeOp := ⟨{}⟩

/-- `PcodeOp::getIn`: the varnode index in an input slot (none when the slot
is out of range or holds a null pointer). -/
def PcodeOp.getIn (p : PcodeOp) (slot : Nat) : Option Nat :=
  (p.inputs.get? slot).bind id

/-- `PcodeOp::numInput`. -/
def PcodeOp.numInput (p : PcodeOp) : Nat := p.inputs.length

/-- `PcodeOp::getSlot`: the first input slot holding the given varnode
(returns `numInput` when the varnode is not an input, mirroring the
past-the-end result of the source's scan). -/
def PcodeOp.getSlot (p : PcodeOp) (vn : Nat) : Nat := p.inputs.indexOf (some vn)

/-- `PcodeOp::isCall`. -/
def PcodeOp.isCall (p : PcodeOp) : Bool :=
  p.opc = OpCode.CALL ∨ p.opc = OpCode.CALLIND

/-- A basic block: its ordered operation list (indices), in-edges and
out-edges (block indices), the dead flag, and its start address. -/
structure BlockBasic where
  oplist : List Nat := []
  inEdges : List Nat := []
  outEdges : List Nat := []
  deadFlag : Bool := false
  start : Address := default
deriving DecidableEq

instance : Inhabited BlockBasic := ⟨{}⟩

/-- Effect record types of the prototype model (`EffectRecord`); modelled
from the spec's calling-convention collaborator. -/
structure EffectRec where
  addr : Address
  size : Nat
  etype : Nat
deriving DecidableEq

/-- The per-function IR store: all varnodes, operations and blocks, the
call-specification table (op index to specs), the allocation counter of the
unique space, and the effect records of the function prototype.  New
varnodes and operations are appended, so an object's index is its creation
index. -/
structure Funcdata where
  vars : List Varnode := []
  ops : List PcodeOp := []
  blocks : List BlockBasic := []
  callspecs : List (Nat × FuncCallSpecs) := []
  uniqbase : Nat := 0
  effects : List EffectRec := []
deriving DecidableEq

instance : Inhabited Funcdata := ⟨{}⟩

/-- Varnode lookup (default varnode when out of range). -/
def Funcdata.vn (fd : Funcdata) (i : Nat) : Varnode := (fd.vars.get? i).getD default

/-- Operation lookup (default op when out of range). -/
def Funcdata.op (fd : Funcdata) (i : Nat) : PcodeOp := (fd.ops.get? i).getD default

/-- Block lookup (default block when out of range). -/
def Funcdata.block (fd : Funcdata) (i : Nat) : BlockBasic := (fd.blocks.get? i).getD default

/-- Update one varnode in place. -/
def Funcdata.updateVn (fd : Funcdata) (i : Nat) (f : Varnode → Varnode) : Funcdata :=
  { fd with vars := fd.vars.set i (f (fd.vn i)) }

/-- Update one operation in place. -/
def Funcdata.updateOp (fd : Funcdata) (i : Nat) (f : PcodeOp → PcodeOp) : Funcdata :=
  { fd with ops := fd.ops.set i (f (fd.op i)) }

/-- Update one block in place. -/
def Funcdata.updateBlock (fd : Funcdata) (i : Nat) (f : BlockBasic → BlockBasic) : Funcdata :=
  { fd with blocks := fd.blocks.set i (f (fd.block i)) }

/-- `Funcdata::getCallSpecs`: the call specification attached to an op. -/
def Funcdata.getCallSpecs (fd : Funcdata) (o : Nat) : FuncCallSpecs :=
  ((fd.callspecs.find? (fun pr => pr.fst = o)).map Prod.snd).getD default

/-- `ParamActive::getTrialForInputVarnode`: the trial whose slot matches the
given input slot. -/
def FuncCallSpecs.trialForSlot (fc : FuncCallSpecs) (j : Nat) : ParamTrial :=
  ((fc.trials.find? (fun t => t.slot = j))).getD default

/-! ### Varnode and operation factories (`funcdata_varnode.cc`) -/

/-- `Funcdata::newConstant`: allocate a varnode in the constant space whose
offset is the constant value.  (The symbol scope and high-variable layers
are external collaborators; with an empty local scope `assignHigh` and the
property query contribute nothing, as modelled throughout.)  Returns the
new varnode's index. -/
def Funcdata.newConstant (fd : Funcdata) (s : Nat) (val : Nat) : Funcdata × Nat :=
  ({ fd with vars := fd.vars ++ [{ space := SpaceType.constant, offset := val, size := s }] },
   fd.vars.length)

/-- `Funcdata::newUnique`: allocate a temporary varnode from the unique
(internal) space at the next free offset. -/
def Funcdata.newUnique (fd : Funcdata) (s : Nat) : Funcdata × Nat :=
  ({ fd with
      vars := fd.vars ++ [{ space := SpaceType.internal, offset := fd.uniqbase, size := s }],
      uniqbase := fd.uniqbase + s },
   fd.vars.length)

/-- `Funcdata::newOp`: create a detached operation with the given number of
(null) input slots at the given address; the opcode is filled in by the
`opSetOpcode` call that follows every creation in the modelled code paths. -/
def Funcdata.newOp (fd : Funcdata) (inputs : Nat) (pc : Address) : Funcdata × Nat :=
  ({ fd with ops := fd.ops ++ [{ addr := pc, inputs := List.replicate inputs none }] },
   fd.ops.length)

/-- `Funcdata::newOp` with a full sequence number (address and order), the
variant used by `cloneOp`. -/
def Funcdata.newOpSeq (fd : Funcdata) (inputs : Nat) (pc : Address) (ord : Nat) :
    Funcdata × Nat :=
  ({ fd with
      ops := fd.ops ++ [{ addr := pc, order := ord, inputs := List.replicate inputs none }] },
   fd.ops.length)

/-- `Funcdata::newUniqueOut`: allocate a unique-space varnode and bind it as
the output of the given op (`vbank.createDefUnique` plus `op->setOutput`). -/
def Funcdata.newUniqueOut (fd : Funcdata) (s : Nat) (o : Nat) : Funcdata × Nat :=
  let pr := fd.newUnique s
  let fd1 := pr.fst.updateVn pr.snd (fun v => { v with defOp := some o })
  (fd1.updateOp o (fun p => { p with output := some pr.snd }), pr.snd)

/-- `Funcdata::cloneVarnode`: a fresh varnode with the same size and storage
address; of the flag bits modelled here only `persist`, `addrforce` and
`incidentalcopy` are in the cloneable set. -/
def Funcdata.cloneVarnode (fd : Funcdata) (i : Nat) : Funcdata × Nat :=
  let vn := fd.vn i
  ({ fd with
      vars := fd.vars ++ [{ space := vn.space, offset := vn.offset, size := vn.size,
                            persist := vn.persist, addrforce := vn.addrforce,
                            incidentalcopy := vn.incidentalcopy }] },
   fd.vars.length)

/-- Modelled from the spec: `Varnode::addDescend` (`varnode.cc` not in the
repository snapshot) — the reader list is insertion-ordered, so the reading
op is appended to it. -/
def Funcdata.addDescend (fd : Funcdata) (v : Nat) (o : Nat) : Funcdata :=
  fd.updateVn v (fun vn => { vn with descend := vn.descend ++ [o] })

/-- Remove the first occurrence of an element from a list, or fail. -/
def eraseFirst : List Nat → Nat → Option (List Nat)
  | [], _ => none
  | x :: xs, o => if x = o then some xs else (eraseFirst xs o).map (fun l => x :: l)

/-- Modelled from the spec: `Varnode::eraseDescend` (`varnode.cc` missing) —
one reader-list entry for the op is removed; a missing entry is the
invariant-violation failure "a reader-list entry cannot be found on unset". -/
def Funcdata.eraseDescend (fd : Funcdata) (v : Nat) (o : Nat) : Except String Funcdata :=
  match eraseFirst (fd.vn v).descend o with
  | none => Except.error "Reader list entry missing on unset"
  | some l => Except.ok (fd.updateVn v (fun vn => { vn with descend := l }))

/-! ### Linkage edits (`funcdata_op.cc`) -/

/-- `Funcdata::opSetOpcode`: change the opcode of an op. -/
def Funcdata.opSetOpcode (fd : Funcdata) (o : Nat) (opc : OpCode) : Funcdata :=
  fd.updateOp o (fun p => { p with opc := opc })

/-- `Funcdata::opSetFlag` restricted to the bits `cloneOp` copies
(`startmark` and `startbasic`). -/
def Funcdata.opSetStartFlags (fd : Funcdata) (o : Nat) (sm sb : Bool) : Funcdata :=
  fd.updateOp o (fun p =>
    { p with startmark := p.startmark || sm, startbasic := p.startbasic || sb })

/-- `Funcdata::opUnsetInput`: unlink the varnode in the given slot from the
op (erase the reader-list entry, then clear the slot). -/
def Funcdata.opUnsetInput (fd : Funcdata) (o : Nat) (slot : Nat) : Except String Funcdata :=
  match (fd.op o).getIn slot with
  | none => Except.ok (fd.updateOp o (fun p => { p with inputs := p.inputs.set slot none }))
  | some v =>
      match fd.eraseDescend v o with
      | Except.error e => Except.error e
      | Except.ok fd1 =>
          Except.ok (fd1.updateOp o (fun p => { p with inputs := p.inputs.set slot none }))

/-- The constant-duplication step of `opSetInput`: a constant that already
has a reader — unless it is a spacebase — is replaced by a fresh constant
of the same size and value carrying the same symbol binding.  Returns the
state and the varnode index actually linked. -/
def Funcdata.opSetInputDup (fd : Funcdata) (v : Nat) : Funcdata × Nat :=
  if (fd.vn v).isConstant ∧ ¬(fd.vn v).hasNoDescend ∧ ¬(fd.vn v).spacebase then
    ((fd.newConstant (fd.vn v).size (fd.vn v).offset).fst.updateVn
       (fd.newConstant (fd.vn v).size (fd.vn v).offset).snd
       (fun c => { c with sym := (fd.vn v).sym }),
     (fd.newConstant (fd.vn v).size (fd.vn v).offset).snd)
  else
    (fd, v)

/-- `Funcdata::opSetInput`: place a varnode in an input slot.  A constant
that already has a reader is duplicated first — unless it is a spacebase
constant — so that constants keep at most one reader. -/
def Funcdata.opSetInput (fd : Funcdata) (o : Nat) (v : Nat) (slot : Nat) :
    Except String Funcdata :=
  if (fd.op o).getIn slot = some v then
    Except.ok fd
  else
    match (if (((fd.opSetInputDup v).fst.op o).getIn slot).isSome then
             (fd.opSetInputDup v).fst.opUnsetInput o slot
           else
             Except.ok (fd.opSetInputDup v).fst) with
    | Except.error e => Except.error e
    | Except.ok fd2 =>
        Except.ok ((fd2.addDescend (fd.opSetInputDup v).snd o).updateOp o
          (fun p => { p with inputs := p.inputs.set slot (some (fd.opSetInputDup v).snd) }))

/-- Modelled from the spec: `VarnodeBank::makeFree` (`varnode.cc` missing) —
"unsetting the output of an op makes the output free but does not destroy
it": the defining op and the non-free property bits are cleared. -/
def Funcdata.makeFree (fd : Funcdata) (v : Nat) : Funcdata :=
  fd.updateVn v (fun vn => { vn with defOp := none, input := false, indcreate := false })

/-- `Funcdata::opUnsetOutput`: detach the op's output varnode, make it free
and clear its cover; the varnode is not destroyed. -/
def Funcdata.opUnsetOutput (fd : Funcdata) (o : Nat) : Funcdata :=
  match (fd.op o).output with
  | none => fd
  | some v =>
      let fd1 := fd.updateOp o (fun p => { p with output := none })
      let fd2 := fd1.makeFree v
      fd2.updateVn v (fun vn => { vn with cover := [] })

/-- `Funcdata::opSetOutput`: bind a varnode as the op's output.  If the
varnode is already the output of another op, that op's output is unset
first (`vbank.setDef` then records the new defining op). -/
def Funcdata.opSetOutput (fd : Funcdata) (o : Nat) (v : Nat) : Funcdata :=
  if (fd.op o).output = some v then fd
  else
    let fd1 := if ((fd.op o).output).isSome then fd.opUnsetOutput o else fd
    let fd2 :=
      match (fd1.vn v).defOp with
      | some od => fd1.opUnsetOutput od
      | none => fd1
    let fd3 := fd2.updateVn v (fun vn => { vn with defOp := some o })
    fd3.updateOp o (fun p => { p with output := some v })

/-- `Funcdata::opMarkHalt` for the `halt` flag: only a RETURN op can carry
the halt-family bits. -/
def Funcdata.opMarkHalt (fd : Funcdata) (o : Nat) : Except String Funcdata :=
  if (fd.op o).opc = OpCode.RETURN then
    Except.ok (fd.updateOp o (fun p => { p with halt := true }))
  else
    Except.error "Only RETURN pcode ops can be marked as halt"

/-! ### Block insertion (`funcdata_op.cc`) -/

/-- `Funcdata::opInsert`: take the op off the dead list (record its parent
block) and splice it into the block's operation list at a position. -/
def Funcdata.opInsert (fd : Funcdata) (o : Nat) (bl : Nat) (pos : Nat) : Funcdata :=
  (fd.updateOp o (fun p => { p with parent := some bl })).updateBlock bl
    (fun b => { b with oplist := b.oplist.insertIdx pos o })

/-- The number of MULTIEQUAL ops at the head of an op-index list (the scan
`opInsertBegin` and `opInsertAfter` perform). -/
def Funcdata.leadPhiCount (fd : Funcdata) : List Nat → Nat
  | [] => 0
  | o :: rest =>
      if (fd.op o).opc = OpCode.MULTIEQUAL then fd.leadPhiCount rest + 1 else 0

/-- `Funcdata::opInsertBegin`: insert as first op of the block, except that
a non-MULTIEQUAL is placed after the block's MULTIEQUALs. -/
def Funcdata.opInsertBegin (fd : Funcdata) (o : Nat) (bl : Nat) : Funcdata :=
  let pos :=
    if (fd.op o).opc = OpCode.MULTIEQUAL then 0
    else fd.leadPhiCount (fd.block bl).oplist
  fd.opInsert o bl pos

/-- `Funcdata::opInsertEnd`: insert as last op of the block, except that the
op is placed before a terminating flow-break op. -/
def Funcdata.opInsertEnd (fd : Funcdata) (o : Nat) (bl : Nat) : Funcdata :=
  let l := (fd.block bl).oplist
  let pos :=
    if l.isEmpty then 0
    else if ((fd.op (l.getLast?.getD 0)).opc).isFlowBreak then l.length - 1
    else l.length
  fd.opInsert o bl pos

/-- The backward scan of `opInsertBefore`: starting from a position, step
back over INDIRECT ops immediately preceding it. -/
def Funcdata.backOverIndirects (fd : Funcdata) (l : List Nat) : Nat → Nat
  | 0 => 0
  | p + 1 =>
      if (fd.op ((l.get? p).getD 0)).opc = OpCode.INDIRECT then fd.backOverIndirects l p
      else p + 1

/-- `Funcdata::opInsertBefore`: insert immediately before the follow op; a
non-INDIRECT op additionally goes ahead of the INDIRECT ops immediately
preceding the follow op. -/
def Funcdata.opInsertBefore (fd : Funcdata) (o : Nat) (follow : Nat) : Funcdata :=
  let bl := (fd.op follow).parent.getD 0
  let l := (fd.block bl).oplist
  let base := l.indexOf follow
  let pos :=
    if (fd.op o).opc = OpCode.INDIRECT then base
    else fd.backOverIndirects l base
  fd.opInsert o bl pos

/-- `Funcdata::opInsertAfter`: insert immediately after the prev op (an
INDIRECT prev is first resolved through its IOP annotation to the op it
shadows); a non-MULTIEQUAL op additionally goes after the MULTIEQUAL ops
immediately following prev. -/
def Funcdata.opInsertAfter (fd : Funcdata) (o : Nat) (prev : Nat) : Funcdata :=
  let prevOp := fd.op prev
  let prev1 :=
    if prevOp.opc = OpCode.INDIRECT then
      match prevOp.getIn 1 with
      | some iv => if (fd.vn iv).space = SpaceType.iop then (fd.vn iv).offset else prev
      | none => prev
    else prev
  let bl := (fd.op prev1).parent.getD 0
  let l := (fd.block bl).oplist
  let base := l.indexOf prev1 + 1
  let pos :=
    if (fd.op o).opc = OpCode.MULTIEQUAL then base
    else base + fd.leadPhiCount (l.drop base)
  fd.opInsert o bl pos

/-! ### The block ordering invariant (spec: phis first, branch last) -/

/-- No MULTIEQUAL occurs in the opcode list. -/
def noPhiL (l : List OpCode) : Bool := l.all (fun c => decide (c ≠ OpCode.MULTIEQUAL))

/-- The MULTIEQUAL (phi) ops of a block all sit at the head of its
operation list: the "phis first" half of the block ordering invariant. -/
def phisFirstL : List OpCode → Bool
  | [] => true
  | c :: rest => if c = OpCode.MULTIEQUAL then phisFirstL rest else noPhiL rest

/-- A flow-break op appears only as the last operation of a block: the
"branch last" half of the block ordering invariant. -/
def branchLastL : List OpCode → Bool
  | [] => true
  | [_] => true
  | c :: rest => (!c.isFlowBreak) && branchLastL rest

/-- The number of MULTIEQUAL opcodes at the head of the list (the
opcode-level counterpart of `Funcdata.leadPhiCount`). -/
def leadPhiCountC : List OpCode → Nat
  | [] => 0
  | c :: rest => if c = OpCode.MULTIEQUAL then leadPhiCountC rest + 1 else 0

/-- The opcodes of a block's operations, in block order. -/
def Funcdata.blockOpcs (fd : Funcdata) (bl : Nat) : List OpCode :=
  (fd.block bl).oplist.map (fun o => (fd.op o).opc)

/-- Concrete store for the C5 counterexample: a block holding a single
COPY op, and a detached MULTIEQUAL op to be inserted. -/
def c5Fd : Funcdata :=
  { vars := [],
    ops := [{ opc := OpCode.COPY, inputs := [] },
            { opc := OpCode.MULTIEQUAL, inputs := [] }],
    blocks := [{ oplist := [0] }] }

/-- Concrete store for the C5 witness: a block already holding a
MULTIEQUAL, a COPY and a terminating BRANCH, and a detached COPY op to be
inserted. -/
def c5WFd : Funcdata :=
  { vars := [],
    ops := [{ opc := OpCode.MULTIEQUAL, inputs := [] },
            { opc := OpCode.COPY, inputs := [] },
            { opc := OpCode.BRANCH, inputs := [] },
            { opc := OpCode.COPY, inputs := [] }],
    blocks := [{ oplist := [0, 1, 2] }] }

/-! ### Input varnodes (`funcdata_varnode.cc::setInputVarnode`) -/

/-- Modelled from the spec: the rank of an address space in the sort order
of the varnode bank (constants before uniques before processor storage;
`AddrSpace` indices in `address.hh`, not in the repository snapshot). -/
def spaceIdx : SpaceType → Nat
  | SpaceType.constant => 0
  | SpaceType.internal => 1
  | SpaceType.iop => 2
  | SpaceType.processor => 3

/-- Modelled from the spec: the strict storage-address order used by the
varnode bank (space rank, then offset). -/
def addrKeyLt (s1 : SpaceType) (o1 : Nat) (s2 : SpaceType) (o2 : Nat) : Bool :=
  decide (spaceIdx s1 < spaceIdx s2 ∨ (spaceIdx s1 = spaceIdx s2 ∧ o1 < o2))

/-- Modelled from the spec: `Varnode::overlap` yielding a non-negative
byte offset — the first storage starts inside the second one. -/
def overlapB (s1 : SpaceType) (o1 : Nat) (s2 : SpaceType) (o2 sz2 : Nat) : Bool :=
  decide (s1 = s2 ∧ o2 ≤ o1 ∧ o1 < o2 + sz2)

/-- Two varnode storages intersect (same space, byte ranges meet). -/
def vnIntersects (a b : Varnode) : Prop :=
  a.space = b.space ∧ a.offset < b.offset + b.size ∧ b.offset < a.offset + a.size

instance (a b : Varnode) : Decidable (vnIntersects a b) :=
  inferInstanceAs (Decidable (a.space = b.space ∧ a.offset < b.offset + b.size ∧
    b.offset < a.offset + a.size))

/-- The scan underlying `inputPredecessor`: the candidate input varnode
with the largest storage key strictly below the end key of varnode `v`. -/
def Funcdata.inputPredBy (fd : Funcdata) (v : Nat) : List Nat → Option Nat → Option Nat
  | [], acc => acc
  | i :: rest, acc =>
      if (fd.vn i).input = true ∧
          addrKeyLt (fd.vn i).space (fd.vn i).offset (fd.vn v).space
            ((fd.vn v).offset + (fd.vn v).size) = true then
        match acc with
        | none => fd.inputPredBy v rest (some i)
        | some j =>
            if addrKeyLt (fd.vn j).space (fd.vn j).offset (fd.vn i).space
                (fd.vn i).offset = true then
              fd.inputPredBy v rest (some i)
            else fd.inputPredBy v rest (some j)
      else fd.inputPredBy v rest acc

/-- Modelled from the spec: the decremented `beginDef(Varnode::input,
vn->getAddr()+vn->getSize())` iterator of `setInputVarnode` — the input
varnode preceding the end of `vn` in storage order, if any. -/
def Funcdata.inputPredecessor (fd : Funcdata) (v : Nat) : Option Nat :=
  fd.inputPredBy v (List.range fd.vars.length) none

/-- Modelled from the spec: `ProtoModel::hasEffect` — the effect type
recorded by the prototype for a storage range (1 = unaffected, 3 = return
address, 4 = unknown). -/
def Funcdata.hasEffectAt (fd : Funcdata) (sp : SpaceType) (off sz : Nat) : Nat :=
  match fd.effects.find? (fun e =>
      decide (e.addr.space = sp) && decide (e.addr.offset ≤ off) &&
      decide (off + sz ≤ e.addr.offset + e.size)) with
  | some e => e.etype
  | none => 4

/-- The marking step of `setInputVarnode`: `vbank.setInput` sets the input
flag, and the effect records of the prototype may add the unaffected and
return-address properties. -/
def Funcdata.markInput (fd : Funcdata) (v : Nat) : Funcdata :=
  fd.updateVn v (fun vn =>
    { vn with
        input := true
        unaffected := vn.unaffected
          || decide (fd.hasEffectAt (fd.vn v).space (fd.vn v).offset (fd.vn v).size = 1)
          || decide (fd.hasEffectAt (fd.vn v).space (fd.vn v).offset (fd.vn v).size = 3)
        returnaddress := vn.returnaddress
          || decide (fd.hasEffectAt (fd.vn v).space (fd.vn v).offset (fd.vn v).size = 3) })

/-- `Funcdata::setInputVarnode`: an already-input varnode is returned as
is; otherwise the input varnode preceding the end of `vn` in storage
order is examined — if it overlaps `vn` it is returned when the storage
address and size agree exactly and the invariant-violation error
"Overlapping input varnodes" is raised otherwise; if there is no overlap
the varnode is marked as an input and returned. -/
def Funcdata.setInputVarnode (fd : Funcdata) (v : Nat) : Except String (Funcdata × Nat) :=
  if (fd.vn v).input = true then Except.ok (fd, v)
  else
    match fd.inputPredecessor v with
    | none => Except.ok (fd.markInput v, v)
    | some j =>
        if overlapB (fd.vn v).space (fd.vn v).offset (fd.vn j).space (fd.vn j).offset
              (fd.vn j).size = true ∨
            overlapB (fd.vn j).space (fd.vn j).offset (fd.vn v).space (fd.vn v).offset
              (fd.vn v).size = true then
          if (fd.vn v).size = (fd.vn j).size ∧ (fd.vn v).space = (fd.vn j).space ∧
              (fd.vn v).offset = (fd.vn j).offset then
            Except.ok (fd, j)
          else Except.error "Overlapping input varnodes"
        else Except.ok (fd.markInput v, v)

/-- Concrete store for the `setInputVarnode` witness: one input varnode
and a second, not yet marked, varnode at the same storage. -/
def c9WFd : Funcdata :=
  { vars := [{ space := SpaceType.processor, offset := 0, size := 4, input := true },
             { space := SpaceType.processor, offset := 0, size := 4 }] }

/-! ### Parameter-trial ancestry (`funcdata_varnode.cc`) -/

/-- `Funcdata::checkCallDoubleUse`: whether tracing the trial varnode into
a second CALL still allows it to be a parameter (same callee with distinct
position, or a not-yet-settled trial of an active input analysis). -/
def Funcdata.checkCallDoubleUse (fd : Funcdata) (opmatch o vnid : Nat)
    (trial : ParamTrial) : Bool :=
  if (fd.op o).getSlot vnid = 0 then false
  else if (fd.op o).opc = (fd.op opmatch).opc ∧
      (((fd.op opmatch).opc = OpCode.CALL ∧
        (fd.getCallSpecs opmatch).entryaddr = (fd.getCallSpecs o).entryaddr) ∨
       ((fd.op opmatch).opc ≠ OpCode.CALL ∧
        (fd.op o).getIn 0 = (fd.op opmatch).getIn 0)) ∧
      ((fd.getCallSpecs o).trialForSlot ((fd.op o).getSlot vnid)).addr = trial.addr ∧
      ((fd.op o).parent ≠ (fd.op opmatch).parent ∨
       (fd.op opmatch).order < (fd.op o).order) then
    true
  else if (fd.getCallSpecs o).inputActive = true ∧
      (((fd.getCallSpecs o).trialForSlot ((fd.op o).getSlot vnid)).checked = false ∨
       ((fd.getCallSpecs o).trialForSlot ((fd.op o).getSlot vnid)).active = false) then
    true
  else false

/-- The reader scan of one varnode inside `onlyOpUse`: walk the reader
list, failing (`none`) on an explicit use (branch, load, store, a call
that is not a legitimate double use, a foreign return), and otherwise
collect unmarked outputs onto the worklist (`setMark` is modelled by the
explicit `marked` list). -/
def Funcdata.useScan (fd : Funcdata) (opmatch : Nat) (trial : ParamTrial) (vnid : Nat) :
    List Nat → List Nat → List Nat → Option (List Nat × List Nat)
  | [], wl, marked => some (wl, marked)
  | o :: rest, wl, marked =>
      if o = opmatch ∧ (fd.op o).getIn trial.slot = some vnid then
        fd.useScan opmatch trial vnid rest wl marked
      else if (fd.op o).opc = OpCode.BRANCH ∨ (fd.op o).opc = OpCode.CBRANCH ∨
          (fd.op o).opc = OpCode.BRANCHIND ∨ (fd.op o).opc = OpCode.LOAD ∨
          (fd.op o).opc = OpCode.STORE then
        none
      else if (fd.op o).opc = OpCode.CALL ∨ (fd.op o).opc = OpCode.CALLIND then
        if fd.checkCallDoubleUse opmatch o vnid trial = true then
          fd.useScan opmatch trial vnid rest wl marked
        else none
      else if (fd.op o).opc = OpCode.RETURN then
        if (fd.op opmatch).opc = OpCode.RETURN ∧
            (fd.op o).getIn trial.slot = some vnid then
          fd.useScan opmatch trial vnid rest wl marked
        else none
      else
        match (fd.op o).output with
        | none => fd.useScan opmatch trial vnid rest wl marked
        | some sv =>
            if (fd.vn sv).persist = true then none
            else if sv ∈ marked then fd.useScan opmatch trial vnid rest wl marked
            else fd.useScan opmatch trial vnid rest (wl ++ [sv]) (sv :: marked)

/-- The worklist loop of `onlyOpUse`; the mark mechanism bounds the number
of processed varnodes by the store size, which the fuel makes explicit. -/
def Funcdata.onlyOpUseLoop (fd : Funcdata) (opmatch : Nat) (trial : ParamTrial) :
    Nat → List Nat → List Nat → Bool
  | _, [], _ => true
  | 0, _ :: _, _ => true
  | fuel + 1, vnid :: rest, marked =>
      match fd.useScan opmatch trial vnid (fd.vn vnid).descend rest marked with
      | none => false
      | some (wl2, marked2) => fd.onlyOpUseLoop opmatch trial fuel wl2 marked2

/-- `Funcdata::onlyOpUse`: does the varnode (and everything written from
it) seem to be used only as the parameter of `opmatch`? -/
def Funcdata.onlyOpUse (fd : Funcdata) (invn opmatch : Nat) (trial : ParamTrial) : Bool :=
  fd.onlyOpUseLoop opmatch trial (fd.vars.length + 1) [invn] [invn]

/-- `Funcdata::ancestorOpUse`: bounded depth-first ancestry walk for a
parameter trial.  The function recurses only with `maxlevel - 1` (through
MULTIEQUAL/INDIRECT inputs, COPY into the unique space, and the least
significant PIECE operand) and answers `false` outright at level 0, so
the recursion depth is bounded by the initial `maxlevel`; the trial is
threaded for the `setRemFormed` side effect of the SUBPIECE case. -/
def Funcdata.ancestorOpUse (fd : Funcdata) : Nat → Nat → Nat → ParamTrial →
    Bool × ParamTrial
  | 0, _, _, trial => (false, trial)
  | maxlevel + 1, invn, op, trial =>
      if (fd.vn invn).isWritten = false then
        if (fd.vn invn).input = false then (false, trial)
        else if (fd.vn invn).typelock = false then (false, trial)
        else (fd.onlyOpUse invn op trial, trial)
      else
        match (fd.vn invn).defOp with
        | none => (false, trial)
        | some d =>
            match (fd.op d).opc with
            | OpCode.INDIRECT =>
                if (fd.op d).indirectcreation = true then (false, trial)
                else
                  (fd.op d).inputs.foldl
                    (fun acc iv => if acc.fst = true then acc
                      else fd.ancestorOpUse maxlevel (iv.getD 0) op acc.snd)
                    (false, trial)
            | OpCode.MULTIEQUAL =>
                (fd.op d).inputs.foldl
                  (fun acc iv => if acc.fst = true then acc
                    else fd.ancestorOpUse maxlevel (iv.getD 0) op acc.snd)
                  (false, trial)
            | OpCode.COPY =>
                if (fd.vn invn).space = SpaceType.internal ∨
                    (fd.vn invn).addrforce = true then
                  fd.ancestorOpUse maxlevel (((fd.op d).getIn 0).getD 0) op trial
                else (fd.onlyOpUse invn op trial, trial)
            | OpCode.PIECE =>
                fd.ancestorOpUse maxlevel (((fd.op d).getIn 1).getD 0) op trial
            | OpCode.SUBPIECE =>
                if (fd.vn (((fd.op d).getIn 1).getD 0)).offset = 0 ∧
                    (fd.vn (((fd.op d).getIn 0).getD 0)).isWritten = true ∧
                    ((fd.op ((fd.vn (((fd.op d).getIn 0).getD 0)).defOp.getD 0)).opc
                        = OpCode.INT_REM ∨
                     (fd.op ((fd.vn (((fd.op d).getIn 0).getD 0)).defOp.getD 0)).opc
                        = OpCode.INT_SREM) then
                  (fd.onlyOpUse invn op { trial with remformed := true },
                   { trial with remformed := true })
                else (fd.onlyOpUse invn op trial, trial)
            | OpCode.CALL => (false, trial)
            | OpCode.CALLIND => (false, trial)
            | _ => (fd.onlyOpUse invn op trial, trial)

/-- Concrete store for C8: a varnode defined by a MULTIEQUAL that reads
the varnode itself in both slots — a data-flow cycle. -/
def c8Fd : Funcdata :=
  { vars := [{ space := SpaceType.processor, offset := 0, size := 4, defOp := some 0,
               descend := [0] }],
    ops := [{ opc := OpCode.MULTIEQUAL, inputs := [some 0, some 0], output := some 0 }] }

/-! ### Cloning (`funcdata_op.cc`) -/

/-- The input-cloning loop of `Funcdata::cloneOp`: clone each source input
varnode and set it into the corresponding slot of the new op (a null input
slot is left empty). -/
def Funcdata.cloneInputs (fd : Funcdata) (o : Nat) :
    List (Option Nat) → Nat → Except String Funcdata
  | [], _ => Except.ok fd
  | none :: rest, slot => Funcdata.cloneInputs fd o rest (slot + 1)
  | some v :: rest, slot =>
      match (fd.cloneVarnode v).fst.opSetInput o (fd.cloneVarnode v).snd slot with
      | Except.error e => Except.error e
      | Except.ok fd1 => Funcdata.cloneInputs fd1 o rest (slot + 1)

/-- The output-cloning step of `Funcdata::cloneOp`: clone the output
varnode, if any, and bind the clone as output of the new op. -/
def Funcdata.cloneOutput (fd : Funcdata) (n : Nat) : Option Nat → Funcdata
  | some ov => (fd.cloneVarnode ov).fst.opSetOutput n (fd.cloneVarnode ov).snd
  | none => fd

/-- The infallible prefix of `Funcdata::cloneOp`: create the detached op at
the given sequence number, copy the opcode and the control-flow flags
(`startmark`, `startbasic`), and clone the output; the new op's index is
`fd.ops.length`. -/
def Funcdata.cloneOpBase (fd : Funcdata) (o : Nat) (seqa : Address) (seqo : Nat) :
    Funcdata × Nat :=
  ((((fd.newOpSeq (fd.op o).numInput seqa seqo).fst.opSetOpcode fd.ops.length
       (fd.op o).opc).opSetStartFlags fd.ops.length (fd.op o).startmark
      (fd.op o).startbasic).cloneOutput fd.ops.length (fd.op o).output,
   fd.ops.length)

/-- `Funcdata::cloneOp`: a new op with the same opcode, the control-flow
flags (`startmark`, `startbasic`), a clone of the output varnode at the
same storage address, clones of the inputs in the same slots, and no block
linkage (the new op stays on the dead list). -/
def Funcdata.cloneOp (fd : Funcdata) (o : Nat) (seqa : Address) (seqo : Nat) :
    Except String (Funcdata × Nat) :=
  match Funcdata.cloneInputs (fd.cloneOpBase o seqa seqo).fst
      (fd.cloneOpBase o seqa seqo).snd (fd.op o).inputs 0 with
  | Except.error e => Except.error e
  | Except.ok fd4 => Except.ok (fd4, (fd.cloneOpBase o seqa seqo).snd)

/-! ### Read replacement (`funcdata_varnode.cc`) -/

/-- The COPY-into-unique builder shared by the marker branches of
`descend2Undef`: create the special constant, a fresh one-input op at the
given address, a unique-space output for it, set its opcode to COPY and
link the constant into slot 0.  Returns the new state, the COPY op's index
and the unique output varnode's index.  The pure prefix (constant, fresh
op, unique output, COPY opcode) is split out as `constCopyCore`. -/
def Funcdata.constCopyCore (fd : Funcdata) (size val : Nat) (addr : Address) : Funcdata :=
  (((fd.newConstant size val).fst.newOp 1 addr).fst.newUniqueOut size
    (fd.newConstant size val).fst.ops.length).fst.opSetOpcode
    (fd.newConstant size val).fst.ops.length OpCode.COPY

def Funcdata.newConstCopy (fd : Funcdata) (size val : Nat) (addr : Address) :
    Except String (Funcdata × Nat × Nat) :=
  match (fd.constCopyCore size val addr).opSetInput
      (fd.newConstant size val).fst.ops.length (fd.newConstant size val).snd 0 with
  | Except.error e => Except.error e
  | Except.ok fd1 =>
      Except.ok (fd1, (fd.newConstant size val).fst.ops.length,
        (((fd.newConstant size val).fst.newOp 1 addr).fst.newUniqueOut size
          (fd.newConstant size val).fst.ops.length).snd)

/-- The body of the reader loop of `Funcdata::descend2Undef`, iterating over
a snapshot of the varnode's reader list (the source advances its iterator
before each mutation, so each original entry is visited once). -/
def Funcdata.descend2UndefLoop (fd : Funcdata) (vnid : Nat) (size : Nat) (res : Bool) :
    List Nat → Except String (Funcdata × Bool)
  | [] => Except.ok (fd, res)
  | o :: rest =>
      if (fd.block ((fd.op o).parent.getD 0)).deadFlag = true then
        fd.descend2UndefLoop vnid size res rest
      else if (fd.op o).opc = OpCode.MULTIEQUAL then
        match fd.newConstCopy size 0xBADDEF
            (fd.block (((fd.block ((fd.op o).parent.getD 0)).inEdges.get?
              ((fd.op o).getSlot vnid)).getD 0)).start with
        | Except.error e => Except.error e
        | Except.ok pr =>
            match (pr.fst.opInsertEnd pr.snd.fst
                (((fd.block ((fd.op o).parent.getD 0)).inEdges.get?
                  ((fd.op o).getSlot vnid)).getD 0)).opSetInput o pr.snd.snd
                ((fd.op o).getSlot vnid) with
            | Except.error e => Except.error e
            | Except.ok fd4 =>
                fd4.descend2UndefLoop vnid size
                  (res || decide ((fd.block ((fd.op o).parent.getD 0)).inEdges.length ≠ 0))
                  rest
      else if (fd.op o).opc = OpCode.INDIRECT then
        match fd.newConstCopy size 0xBADDEF (fd.op o).addr with
        | Except.error e => Except.error e
        | Except.ok pr =>
            match (pr.fst.opInsertBefore pr.snd.fst o).opSetInput o pr.snd.snd
                ((fd.op o).getSlot vnid) with
            | Except.error e => Except.error e
            | Except.ok fd4 =>
                fd4.descend2UndefLoop vnid size
                  (res || decide ((fd.block ((fd.op o).parent.getD 0)).inEdges.length ≠ 0))
                  rest
      else
        match (fd.newConstant size 0xBADDEF).fst.opSetInput o
            (fd.newConstant size 0xBADDEF).snd ((fd.op o).getSlot vnid) with
        | Except.error e => Except.error e
        | Except.ok fd1 =>
            fd1.descend2UndefLoop vnid size
              (res || decide ((fd.block ((fd.op o).parent.getD 0)).inEdges.length ≠ 0))
              rest

/-- `Funcdata::descend2Undef`: rewrite every read of the varnode to read the
special constant `0xBADDEF` instead; MULTIEQUAL and INDIRECT readers get a
COPY of the constant into a unique varnode rather than the constant itself
(inserted at the end of the corresponding predecessor block, respectively
immediately before the INDIRECT). -/
def Funcdata.descend2Undef (fd : Funcdata) (vnid : Nat) : Except String (Funcdata × Bool) :=
  fd.descend2UndefLoop vnid (fd.vn vnid).size false (fd.vn vnid).descend

/-- The COPY builder of `Funcdata::totalReplaceConstant` (creation order of
the source: the op, its COPY opcode, the unique output, then the constant
linked into slot 0).  Returns the new state, the COPY op's index and the
unique output varnode's index.  The pure prefix (fresh op, COPY opcode,
unique output, constant, in the source's creation order) is split out as
`copyConstCore`. -/
def Funcdata.copyConstCore (fd : Funcdata) (size val : Nat) (addr : Address) : Funcdata :=
  ((((fd.newOp 1 addr).fst.opSetOpcode (fd.newOp 1 addr).snd
    OpCode.COPY).newUniqueOut size (fd.newOp 1 addr).snd).fst.newConstant size val).fst

def Funcdata.newCopyConst (fd : Funcdata) (size val : Nat) (addr : Address) :
    Except String (Funcdata × Nat × Nat) :=
  match (fd.copyConstCore size val addr).opSetInput (fd.newOp 1 addr).snd
      ((((fd.newOp 1 addr).fst.opSetOpcode (fd.newOp 1 addr).snd
        OpCode.COPY).newUniqueOut size (fd.newOp 1 addr).snd).fst.newConstant size
        val).snd 0 with
  | Except.error e => Except.error e
  | Except.ok fd1 =>
      Except.ok (fd1, (fd.newOp 1 addr).snd,
        (((fd.newOp 1 addr).fst.opSetOpcode (fd.newOp 1 addr).snd
          OpCode.COPY).newUniqueOut size (fd.newOp 1 addr).snd).snd)

/-- The body of the reader loop of `Funcdata::totalReplaceConstant`: `cop`
holds the one shared COPY op (op index, output varnode index) once a marker
reader has forced its creation. -/
def Funcdata.totalReplaceLoop (fd : Funcdata) (vnid : Nat) (size : Nat) (val : Nat)
    (vdef : Option Nat) (cop : Option (Nat × Nat)) :
    List Nat → Except String Funcdata
  | [] => Except.ok fd
  | o :: rest =>
      if ((fd.op o).opc).isMarker = true then
        match cop with
        | some pr =>
            match fd.opSetInput o pr.snd ((fd.op o).getSlot vnid) with
            | Except.error e => Except.error e
            | Except.ok fd1 => fd1.totalReplaceLoop vnid size val vdef cop rest
        | none =>
            match vdef with
            | some d =>
                match fd.newCopyConst size val (fd.op d).addr with
                | Except.error e => Except.error e
                | Except.ok pr =>
                    match (pr.fst.opInsertAfter pr.snd.fst d).opSetInput o pr.snd.snd
                        ((fd.op o).getSlot vnid) with
                    | Except.error e => Except.error e
                    | Except.ok fd4 =>
                        fd4.totalReplaceLoop vnid size val vdef
                          (some (pr.snd.fst, pr.snd.snd)) rest
            | none =>
                match fd.newCopyConst size val (fd.block 0).start with
                | Except.error e => Except.error e
                | Except.ok pr =>
                    match (pr.fst.opInsertBegin pr.snd.fst 0).opSetInput o pr.snd.snd
                        ((fd.op o).getSlot vnid) with
                    | Except.error e => Except.error e
                    | Except.ok fd4 =>
                        fd4.totalReplaceLoop vnid size val vdef
                          (some (pr.snd.fst, pr.snd.snd)) rest
      else
        match (fd.newConstant size val).fst.opSetInput o (fd.newConstant size val).snd
            ((fd.op o).getSlot vnid) with
        | Except.error e => Except.error e
        | Except.ok fd1 => fd1.totalReplaceLoop vnid size val vdef cop rest

/-- `Funcdata::totalReplaceConstant`: replace every read of the varnode with
the constant value; marker (MULTIEQUAL/INDIRECT) readers share a single
COPY of the constant into a unique varnode, inserted after the varnode's
defining op, or at the beginning of the entry block when it is unwritten. -/
def Funcdata.totalReplaceConstant (fd : Funcdata) (vnid : Nat) (val : Nat) :
    Except String Funcdata :=
  fd.totalReplaceLoop vnid (fd.vn vnid).size val (fd.vn vnid).defOp none (fd.vn vnid).descend

/-! ### Comparison normalization (`funcdata_op.cc`) -/

/-- Modelled from the spec: `calc_mask` (`address.cc` missing) — the mask of
a value of the given byte size, saturating at the 8-byte machine word. -/
def calc_mask (size : Nat) : Nat := 2 ^ (8 * min size 8) - 1

/-- Modelled from the spec: `sign_extend(val, bit)` (`address.cc` missing) —
reinterpret the low bits of an unsigned offset as a signed value whose sign
bit is at position `bit`. -/
def sign_extend (off : Nat) (bit : Nat) : Int :=
  if off.testBit bit then (off % 2 ^ (bit + 1) : Nat) - (2 ^ (bit + 1) : Nat)
  else (off % 2 ^ (bit + 1) : Nat)

/-- Two's-complement wrap-around of 64-bit signed (`intb`) addition, the
arithmetic `replaceLessequal` performs on `val + diff`. -/
def intbAdd (a b : Int) : Int := (a + b + 2 ^ 63) % 2 ^ 64 - 2 ^ 63

/-- `Funcdata::replaceLessequal`: in-place replacement of `#c <= x` with
`#c-1 < x`, or `x <= #c` with `x < #c+1`, declining when the adjusted
constant would overflow.  Returns the new state and whether a replacement
was performed. -/
def Funcdata.replaceLessequal (fd : Funcdata) (o : Nat) :
    Except String (Funcdata × Bool) := do
  let opn := fd.op o
  let sel : Option (Nat × Int × Nat) :=
    match opn.getIn 0 with
    | some v0 =>
        if (fd.vn v0).isConstant then some (v0, -1, 0)
        else
          match opn.getIn 1 with
          | some v1 => if (fd.vn v1).isConstant then some (v1, 1, 1) else none
          | none => none
    | none => none
  match sel with
  | none => Except.ok (fd, false)
  | some (v, diff, i) =>
      let vn := fd.vn v
      let val : Int := sign_extend vn.offset (8 * vn.size - 1)
      if opn.opc = OpCode.INT_SLESSEQUAL then
        if val < 0 ∧ intbAdd val diff > 0 then Except.ok (fd, false)
        else if val > 0 ∧ intbAdd val diff < 0 then Except.ok (fd, false)
        else do
          let fd1 := fd.opSetOpcode o OpCode.INT_SLESS
          let res : Nat := ((intbAdd val diff).emod (2 ^ 64)).toNat &&& calc_mask vn.size
          let nc := fd1.newConstant vn.size res
          let fd2 := nc.fst.updateVn nc.snd (fun c => { c with sym := vn.sym })
          let fd3 ← fd2.opSetInput o nc.snd i
          Except.ok (fd3, true)
      else
        if diff = -1 ∧ val = 0 then Except.ok (fd, false)
        else if diff = 1 ∧ val = -1 then Except.ok (fd, false)
        else do
          let fd1 := fd.opSetOpcode o OpCode.INT_LESS
          let res : Nat := ((intbAdd val diff).emod (2 ^ 64)).toNat &&& calc_mask vn.size
          let nc := fd1.newConstant vn.size res
          let fd2 := nc.fst.updateVn nc.snd (fun c => { c with sym := vn.sym })
          let fd3 ← fd2.opSetInput o nc.snd i
          Except.ok (fd3, true)

/-- Modelled from the spec: the truth value of the four p-code integer
comparisons at a given operand byte size (the translator fixes the opcode
semantics; rules rewriting comparisons must preserve this valuation). -/
def evalCmp (opc : OpCode) (size : Nat) (a b : Nat) : Bool :=
  match opc with
  | OpCode.INT_LESS => a % 2 ^ (8 * size) < b % 2 ^ (8 * size)
  | OpCode.INT_LESSEQUAL => a % 2 ^ (8 * size) ≤ b % 2 ^ (8 * size)
  | OpCode.INT_SLESS => sign_extend a (8 * size - 1) < sign_extend b (8 * size - 1)
  | OpCode.INT_SLESSEQUAL => sign_extend a (8 * size - 1) ≤ sign_extend b (8 * size - 1)
  | _ => false

/-- A function state holding the single comparison `INT_SLESSEQUAL(#0x80, x)`
on one-byte operands: the constant is the most negative signed byte. -/
def c2Fd : Funcdata :=
  { vars := [{ space := SpaceType.constant, offset := 0x80, size := 1, descend := [0] },
             { space := SpaceType.processor, offset := 0x1000, size := 1, descend := [0] }],
    ops := [{ opc := OpCode.INT_SLESSEQUAL, inputs := [some 0, some 1] }] }

/-- C2: `replaceLessequal` on `INT_SLESSEQUAL(#0x80, x)` at size 1 reports a
valid replacement and rewrites the op to `INT_SLESS(#0x7f, x)`, although the
original is true for every byte x and the rewritten op is false for every
byte x: the signed-overflow guard only catches overflow at the 8-byte
machine width, so the truth value is not preserved as the claim requires. -/
theorem replaceLessequal_signed_min_bug :
    ((c2Fd.replaceLessequal 0).map Prod.snd = Except.ok true) ∧
    ((c2Fd.replaceLessequal 0).map
        (fun pr => ((pr.fst.op 0).opc, (pr.fst.op 0).getIn 0, (pr.fst.op 0).getIn 1,
                    (pr.fst.vn 2).space, (pr.fst.vn 2).offset, (pr.fst.vn 2).size)) =
      Except.ok (OpCode.INT_SLESS, some 2, some 1, SpaceType.constant, 0x7F, 1)) ∧
    (∀ x : Fin 256, evalCmp OpCode.INT_SLESSEQUAL 1 0x80 x.val = true) ∧
    (∀ x : Fin 256, evalCmp OpCode.INT_SLESS 1 0x7F x.val = false) :=
  ⟨rfl, rfl, by decide, by decide⟩

/-! ### Basic lemmas about the state primitives -/

theorem Funcdata.vn_updateVn (fd : Funcdata) (j : Nat) (f : Varnode → Varnode) (i : Nat) :
    (fd.updateVn j f).vn i =
      if j = i ∧ j < fd.vars.length then f (fd.vn j) else fd.vn i := by
  unfold Funcdata.updateVn Funcdata.vn
  by_cases h : j = i
  · subst h
    by_cases hl : j < fd.vars.length
    · simp [List.get?_set_eq_of_lt _ hl, hl]
    · rw [List.set_eq_of_length_le (Nat.le_of_not_lt hl)]
      simp [hl]
  · simp [List.get?_set_ne _ _ h, h]

theorem Funcdata.op_updateOp (fd : Funcdata) (j : Nat) (f : PcodeOp → PcodeOp) (i : Nat) :
    (fd.updateOp j f).op i =
      if j = i ∧ j < fd.ops.length then f (fd.op j) else fd.op i := by
  unfold Funcdata.updateOp Funcdata.op
  by_cases h : j = i
  · subst h
    by_cases hl : j < fd.ops.length
    · simp [List.get?_set_eq_of_lt _ hl, hl]
    · rw [List.set_eq_of_length_le (Nat.le_of_not_lt hl)]
      simp [hl]
  · simp [List.get?_set_ne _ _ h, h]

theorem Funcdata.block_updateBlock (fd : Funcdata) (j : Nat) (f : BlockBasic → BlockBasic)
    (i : Nat) :
    (fd.updateBlock j f).block i =
      if j = i ∧ j < fd.blocks.length then f (fd.block j) else fd.block i := by
  unfold Funcdata.updateBlock Funcdata.block
  by_cases h : j = i
  · subst h
    by_cases hl : j < fd.blocks.length
    · simp [List.get?_set_eq_of_lt _ hl, hl]
    · rw [List.set_eq_of_length_le (Nat.le_of_not_lt hl)]
      simp [hl]
  · simp [List.get?_set_ne _ _ h, h]

@[simp] theorem Funcdata.op_updateVn (fd : Funcdata) (j : Nat) (f : Varnode → Varnode)
    (i : Nat) : (fd.updateVn j f).op i = fd.op i := rfl

@[simp] theorem Funcdata.vn_updateOp (fd : Funcdata) (j : Nat) (f : PcodeOp → PcodeOp)
    (i : Nat) : (fd.updateOp j f).vn i = fd.vn i := rfl

@[simp] theorem Funcdata.block_updateVn (fd : Funcdata) (j : Nat) (f : Varnode → Varnode)
    (i : Nat) : (fd.updateVn j f).block i = fd.block i := rfl

@[simp] theorem Funcdata.block_updateOp (fd : Funcdata) (j : Nat) (f : PcodeOp → PcodeOp)
    (i : Nat) : (fd.updateOp j f).block i = fd.block i := rfl

@[simp] theorem Funcdata.vn_updateBlock (fd : Funcdata) (j : Nat) (f : BlockBasic → BlockBasic)
    (i : Nat) : (fd.updateBlock j f).vn i = fd.vn i := rfl

@[simp] theorem Funcdata.op_updateBlock (fd : Funcdata) (j : Nat) (f : BlockBasic → BlockBasic)
    (i : Nat) : (fd.updateBlock j f).op i = fd.op i := rfl

@[simp] theorem Funcdata.varsLength_updateVn (fd : Funcdata) (j : Nat) (f : Varnode → Varnode) :
    (fd.updateVn j f).vars.length = fd.vars.length := by
  simp [Funcdata.updateVn]

@[simp] theorem Funcdata.opsLength_updateOp (fd : Funcdata) (j : Nat) (f : PcodeOp → PcodeOp) :
    (fd.updateOp j f).ops.length = fd.ops.length := by
  simp [Funcdata.updateOp]

@[simp] theorem Funcdata.opsLength_updateVn (fd : Funcdata) (j : Nat) (f : Varnode → Varnode) :
    (fd.updateVn j f).ops.length = fd.ops.length := rfl

@[simp] theorem Funcdata.varsLength_updateOp (fd : Funcdata) (j : Nat) (f : PcodeOp → PcodeOp) :
    (fd.updateOp j f).vars.length = fd.vars.length := rfl

theorem Funcdata.vn_appendVar (fd : Funcdata) (nv : Varnode) (i : Nat) :
    ({ fd with vars := fd.vars ++ [nv] } : Funcdata).vn i =
      if i = fd.vars.length then nv else fd.vn i := by
  unfold Funcdata.vn
  by_cases h : i = fd.vars.length
  · subst h
    simp
  · rcases Nat.lt_or_ge i fd.vars.length with hlt | hge
    · simp [List.getElem?_append, hlt, h]
    · have h1 : fd.vars.length ≤ i := hge
      have h2 : (fd.vars ++ [nv]).length ≤ i := by
        simp only [List.length_append, List.length_singleton]
        omega
      simp [List.getElem?_eq_none h1, List.getElem?_eq_none h2, h]

theorem Funcdata.op_appendOp (fd : Funcdata) (np : PcodeOp) (i : Nat) :
    ({ fd with ops := fd.ops ++ [np] } : Funcdata).op i =
      if i = fd.ops.length then np else fd.op i := by
  unfold Funcdata.op
  by_cases h : i = fd.ops.length
  · subst h
    simp
  · rcases Nat.lt_or_ge i fd.ops.length with hlt | hge
    · simp [List.getElem?_append, hlt, h]
    · have h1 : fd.ops.length ≤ i := hge
      have h2 : (fd.ops ++ [np]).length ≤ i := by
        simp only [List.length_append, List.length_singleton]
        omega
      simp [List.getElem?_eq_none h1, List.getElem?_eq_none h2, h]

theorem Funcdata.vn_newConstant (fd : Funcdata) (s val i : Nat) :
    (fd.newConstant s val).fst.vn i =
      if i = fd.vars.length then { space := SpaceType.constant, offset := val, size := s }
      else fd.vn i := by
  unfold Funcdata.newConstant
  exact fd.vn_appendVar _ i

@[simp] theorem Funcdata.op_newConstant (fd : Funcdata) (s val i : Nat) :
    (fd.newConstant s val).fst.op i = fd.op i := rfl

@[simp] theorem Funcdata.snd_newConstant (fd : Funcdata) (s val : Nat) :
    (fd.newConstant s val).snd = fd.vars.length := rfl

@[simp] theorem Funcdata.varsLength_newConstant (fd : Funcdata) (s val : Nat) :
    (fd.newConstant s val).fst.vars.length = fd.vars.length + 1 := by
  simp [Funcdata.newConstant]

@[simp] theorem Funcdata.opsLength_newConstant (fd : Funcdata) (s val : Nat) :
    (fd.newConstant s val).fst.ops.length = fd.ops.length := rfl

theorem Funcdata.vn_addDescend (fd : Funcdata) (v o i : Nat) :
    (fd.addDescend v o).vn i =
      if v = i ∧ v < fd.vars.length then
        { fd.vn v with descend := (fd.vn v).descend ++ [o] }
      else fd.vn i := by
  unfold Funcdata.addDescend
  exact fd.vn_updateVn v _ i

@[simp] theorem Funcdata.op_addDescend (fd : Funcdata) (v o i : Nat) :
    (fd.addDescend v o).op i = fd.op i := rfl

@[simp] theorem Funcdata.varsLength_addDescend (fd : Funcdata) (v o : Nat) :
    (fd.addDescend v o).vars.length = fd.vars.length := by
  simp [Funcdata.addDescend]

@[simp] theorem Funcdata.opsLength_addDescend (fd : Funcdata) (v o : Nat) :
    (fd.addDescend v o).ops.length = fd.ops.length := rfl

/-! ### C1: the single-reader rule for constants -/

/-- The single-reader invariant for constants: every non-spacebase constant
varnode is read by at most one operation. -/
def Funcdata.constSingleReader (fd : Funcdata) : Prop :=
  ∀ i, i < fd.vars.length → (fd.vn i).isConstant = true → (fd.vn i).spacebase = false →
    (fd.vn i).descend.length ≤ 1

theorem eraseFirst_length {l l' : List Nat} {o : Nat} (h : eraseFirst l o = some l') :
    l'.length + 1 = l.length := by
  induction l generalizing l' with
  | nil => simp [eraseFirst] at h
  | cons x xs ih =>
      unfold eraseFirst at h
      by_cases hx : x = o
      · rw [if_pos hx] at h
        cases h
        rfl
      · rw [if_neg hx] at h
        cases he : eraseFirst xs o with
        | none => rw [he] at h; simp at h
        | some m =>
            rw [he] at h
            simp at h
            subst h
            have hm := ih he
            simp only [List.length_cons]
            omega

theorem eraseFirst_isSome_of_mem {l : List Nat} {o : Nat} (h : o ∈ l) :
    (eraseFirst l o).isSome := by
  induction l with
  | nil => cases h
  | cons x xs ih =>
      unfold eraseFirst
      by_cases hx : x = o
      · simp [hx]
      · have hm : o ∈ xs := by
          cases h with
          | head => exact absurd rfl hx
          | tail _ h2 => exact h2
        rw [if_neg hx]
        cases he : eraseFirst xs o with
        | none => rw [he] at ih; exact absurd (ih hm) (by simp)
        | some m => simp

/-- A state holding a spacebase constant (index 0) already read by op 0, and
an op 1 with an empty input slot. -/
def c1Fd : Funcdata :=
  { vars := [{ space := SpaceType.constant, offset := 5, size := 4, descend := [0],
               spacebase := true }],
    ops := [{ opc := OpCode.COPY, inputs := [some 0] },
            { opc := OpCode.INT_ADD, inputs := [none, none] }] }

/-- C1 counterexample: setting the spacebase constant varnode 0, which
already has reader op 0, into slot 0 of op 1 links the constant itself (no
fresh constant is created: the variable count stays 1) and leaves it with
two readers — the duplication rule has a spacebase exception the claim does
not allow. -/
theorem opSetInput_spacebase_shared_constant :
    (c1Fd.opSetInput 1 0 0).map
        (fun fd1 => (fd1.vars.length, (fd1.op 1).getIn 0, (fd1.vn 0).descend,
                     (fd1.vn 0).isConstant)) =
      Except.ok (1, some 0, [0, 1], true) := rfl

/-- The common final shape of `opSetInput`: adding the reader to the chosen
varnode preserves the invariant provided the rest of the state does and the
chosen varnode, when a non-spacebase constant, has no reader yet. -/
theorem Funcdata.csr_core (base : Funcdata) (v1 o : Nat) (f : PcodeOp → PcodeOp)
    (ha : ∀ i, i < base.vars.length → (base.vn i).isConstant = true →
      (base.vn i).spacebase = false → (base.vn i).descend.length ≤ 1)
    (hb : (base.vn v1).isConstant = true → (base.vn v1).spacebase = false →
      (base.vn v1).descend = []) :
    ((base.addDescend v1 o).updateOp o f).constSingleReader := by
  intro i hi hci hsbi
  rw [Funcdata.vn_updateOp] at hci hsbi ⊢
  rw [Funcdata.vn_addDescend] at hci hsbi ⊢
  have hi' : i < base.vars.length := by simpa using hi
  by_cases hcase : v1 = i ∧ v1 < base.vars.length
  · rw [if_pos hcase] at hci hsbi ⊢
    have hc' : (base.vn v1).isConstant = true := by
      simpa [Varnode.isConstant] using hci
    have hs' : (base.vn v1).spacebase = false := by simpa using hsbi
    simp [hb hc' hs']
  · rw [if_neg hcase] at hci hsbi ⊢
    exact ha i hi' hci hsbi

@[simp] theorem Funcdata.op_opSetInputDup (fd : Funcdata) (v i : Nat) :
    (fd.opSetInputDup v).fst.op i = fd.op i := by
  unfold Funcdata.opSetInputDup
  split
  · rfl
  · rfl

theorem Funcdata.opSetInputDup_vn_lt (fd : Funcdata) (v i : Nat) (hi : i < fd.vars.length) :
    (fd.opSetInputDup v).fst.vn i = fd.vn i := by
  unfold Funcdata.opSetInputDup
  split
  · rw [Funcdata.vn_updateVn]
    rw [if_neg (by simp; omega)]
    rw [Funcdata.vn_newConstant]
    rw [if_neg (by omega)]
  · rfl

/-- The duplication step preserves the single-reader invariant. -/
theorem Funcdata.opSetInputDup_csr (fd : Funcdata) (v : Nat)
    (hcsr : fd.constSingleReader) : (fd.opSetInputDup v).fst.constSingleReader := by
  unfold Funcdata.opSetInputDup
  split
  · intro i hi hc hsb
    have hi' : i < fd.vars.length + 1 := by simpa using hi
    by_cases hil : i = fd.vars.length
    · subst hil
      rw [Funcdata.snd_newConstant, Funcdata.vn_updateVn]
      rw [if_pos (by simp)]
      simp [Funcdata.vn_newConstant]
    · have hil2 : i < fd.vars.length := by omega
      rw [Funcdata.snd_newConstant, Funcdata.vn_updateVn] at hc hsb ⊢
      rw [if_neg (by omega)] at hc hsb ⊢
      rw [Funcdata.vn_newConstant] at hc hsb ⊢
      rw [if_neg (by omega)] at hc hsb ⊢
      exact hcsr i hil2 hc hsb
  · exact hcsr

/-- The varnode the duplication step selects for linking has no reader yet
whenever it is a non-spacebase constant. -/
theorem Funcdata.opSetInputDup_target (fd : Funcdata) (v : Nat) :
    ((fd.opSetInputDup v).fst.vn (fd.opSetInputDup v).snd).isConstant = true →
    ((fd.opSetInputDup v).fst.vn (fd.opSetInputDup v).snd).spacebase = false →
    ((fd.opSetInputDup v).fst.vn (fd.opSetInputDup v).snd).descend = [] := by
  unfold Funcdata.opSetInputDup
  split
  · intro _ _
    rw [Funcdata.snd_newConstant, Funcdata.vn_updateVn]
    rw [if_pos (by simp)]
    simp [Funcdata.vn_newConstant]
  · rename_i hC
    intro hc hsb
    simp only [] at hc hsb ⊢
    have hnd : (fd.vn v).hasNoDescend = true := by
      by_contra hh
      exact hC ⟨hc, hh, by simp [hsb]⟩
    simpa [Varnode.hasNoDescend, List.isEmpty_iff] using hnd

/-- `opUnsetInput` keeps every varnode's storage and flags, and can only
shorten reader lists. -/
theorem Funcdata.opUnsetInput_shape (fd : Funcdata) (o slot : Nat) (fd2 : Funcdata)
    (h : fd.opUnsetInput o slot = Except.ok fd2) :
    fd2.vars.length = fd.vars.length ∧
    ∀ i, (fd2.vn i).space = (fd.vn i).space ∧
         (fd2.vn i).spacebase = (fd.vn i).spacebase ∧
         (fd2.vn i).descend.length ≤ (fd.vn i).descend.length := by
  unfold Funcdata.opUnsetInput at h
  split at h
  · cases h
    exact ⟨rfl, fun i => ⟨rfl, rfl, le_refl _⟩⟩
  · rename_i w hg
    unfold Funcdata.eraseDescend at h
    split at h
    · simp at h
    · rename_i fd1 he
      cases h
      split at he
      · simp at he
      rename_i l he2
      cases he
      have hlen := eraseFirst_length he2
      refine ⟨by simp, fun i => ?_⟩
      rw [Funcdata.vn_updateOp, Funcdata.vn_updateVn]
      by_cases hcase : w = i ∧ w < fd.vars.length
      · rw [if_pos hcase]
        obtain ⟨hwi, _⟩ := hcase
        subst hwi
        refine ⟨rfl, rfl, ?_⟩
        show l.length ≤ (fd.vn w).descend.length
        omega
      · rw [if_neg hcase]
        exact ⟨rfl, rfl, le_refl _⟩

/-- Every successful `opSetInput` preserves the single-reader invariant for
non-spacebase constants. -/
theorem Funcdata.opSetInput_csr (gd : Funcdata) (o v slot : Nat) (gd1 : Funcdata)
    (h : gd.opSetInput o v slot = Except.ok gd1)
    (hcsr : gd.constSingleReader) : gd1.constSingleReader := by
  unfold Funcdata.opSetInput at h
  by_cases h0 : (gd.op o).getIn slot = some v
  · rw [if_pos h0] at h
    cases h
    exact hcsr
  · rw [if_neg h0] at h
    have hdupcsr : (gd.opSetInputDup v).fst.constSingleReader :=
      gd.opSetInputDup_csr v hcsr
    cases hstep : (if ((((gd.opSetInputDup v).fst.op o).getIn slot).isSome = true) then
        (gd.opSetInputDup v).fst.opUnsetInput o slot
      else Except.ok (gd.opSetInputDup v).fst) with
    | error e =>
        rw [hstep] at h
        simp at h
    | ok fd2 =>
        rw [hstep] at h
        cases h
        have hshape : fd2.vars.length = (gd.opSetInputDup v).fst.vars.length ∧
            ∀ i, (fd2.vn i).space = ((gd.opSetInputDup v).fst.vn i).space ∧
                 (fd2.vn i).spacebase = ((gd.opSetInputDup v).fst.vn i).spacebase ∧
                 (fd2.vn i).descend.length ≤
                   ((gd.opSetInputDup v).fst.vn i).descend.length := by
          by_cases hs : ((((gd.opSetInputDup v).fst.op o).getIn slot).isSome = true)
          · rw [if_pos hs] at hstep
            exact Funcdata.opUnsetInput_shape _ o slot fd2 hstep
          · rw [if_neg hs] at hstep
            cases hstep
            exact ⟨rfl, fun i => ⟨rfl, rfl, le_refl _⟩⟩
        apply Funcdata.csr_core
        · intro i hi hc hsb
          have hsp := (hshape.2 i).1
          have hsb2 := (hshape.2 i).2.1
          have hdl := (hshape.2 i).2.2
          have hc2 : ((gd.opSetInputDup v).fst.vn i).isConstant = true := by
            unfold Varnode.isConstant at hc ⊢
            rw [← hsp]
            exact hc
          have hsb3 : ((gd.opSetInputDup v).fst.vn i).spacebase = false := by
            rw [← hsb2]
            exact hsb
          have hi2 : i < (gd.opSetInputDup v).fst.vars.length := by
            rw [← hshape.1]
            exact hi
          exact le_trans hdl (hdupcsr i hi2 hc2 hsb3)
        · intro hc hsb
          have hsp := (hshape.2 (gd.opSetInputDup v).snd).1
          have hsb2 := (hshape.2 (gd.opSetInputDup v).snd).2.1
          have hdl := (hshape.2 (gd.opSetInputDup v).snd).2.2
          have hc2 : ((gd.opSetInputDup v).fst.vn (gd.opSetInputDup v).snd).isConstant
              = true := by
            unfold Varnode.isConstant at hc ⊢
            rw [← hsp]
            exact hc
          have hsb3 : ((gd.opSetInputDup v).fst.vn (gd.opSetInputDup v).snd).spacebase
              = false := by
            rw [← hsb2]
            exact hsb
          have htar := gd.opSetInputDup_target v hc2 hsb3
          rw [htar] at hdl
          simpa using hdl

@[simp] theorem Funcdata.ops_opSetInputDup (fd : Funcdata) (v : Nat) :
    (fd.opSetInputDup v).fst.ops = fd.ops := by
  unfold Funcdata.opSetInputDup
  split
  · rfl
  · rfl

theorem Funcdata.opSetInputDup_pos (fd : Funcdata) (v : Nat)
    (hC : (fd.vn v).isConstant = true ∧ ¬((fd.vn v).hasNoDescend = true) ∧
      ¬((fd.vn v).spacebase = true)) :
    (fd.opSetInputDup v).snd = fd.vars.length ∧
    (fd.opSetInputDup v).fst.vars.length = fd.vars.length + 1 ∧
    (fd.opSetInputDup v).fst.vn fd.vars.length =
      { space := SpaceType.constant, offset := (fd.vn v).offset, size := (fd.vn v).size,
        sym := (fd.vn v).sym } := by
  unfold Funcdata.opSetInputDup
  rw [if_pos hC]
  refine ⟨rfl, by simp, ?_⟩
  rw [Funcdata.snd_newConstant, Funcdata.vn_updateVn]
  rw [if_pos (by simp)]
  simp [Funcdata.vn_newConstant]

/-- C1 (amended): setting a non-spacebase constant varnode that already has
a reader into a (different) slot allocates a fresh constant of the same
size and value, links the fresh constant — not the given one — into the
slot, and leaves the given constant untouched; and every `opSetInput`
preserves the invariant that each non-spacebase constant is read by at most
one op. -/
theorem opSetInput_constant_duplication (fd : Funcdata) (o v slot : Nat)
    (ho : o < fd.ops.length) (hslot : slot < (fd.op o).inputs.length)
    (hv : v < fd.vars.length)
    (hc : (fd.vn v).isConstant = true) (hd : (fd.vn v).descend ≠ [])
    (hsb : (fd.vn v).spacebase = false)
    (hne : (fd.op o).getIn slot ≠ some v)
    (hw : ∀ w, (fd.op o).getIn slot = some w → o ∈ (fd.vn w).descend) :
    (∃ fd1, fd.opSetInput o v slot = Except.ok fd1 ∧
      fd1.vars.length = fd.vars.length + 1 ∧
      (fd1.op o).getIn slot = some fd.vars.length ∧
      fd.vars.length ≠ v ∧
      (fd1.vn fd.vars.length).space = SpaceType.constant ∧
      (fd1.vn fd.vars.length).offset = (fd.vn v).offset ∧
      (fd1.vn fd.vars.length).size = (fd.vn v).size ∧
      (fd1.vn fd.vars.length).descend = [o] ∧
      fd1.vn v = fd.vn v) ∧
    (∀ gd o2 v2 s2 gd1, Funcdata.opSetInput gd o2 v2 s2 = Except.ok gd1 →
      gd.constSingleReader → gd1.constSingleReader) := by
  refine ⟨?_, fun gd o2 v2 s2 gd1 hh hcsr => Funcdata.opSetInput_csr gd o2 v2 s2 gd1 hh hcsr⟩
  have hC : (fd.vn v).isConstant = true ∧ ¬((fd.vn v).hasNoDescend = true) ∧
      ¬((fd.vn v).spacebase = true) := by
    refine ⟨hc, ?_, by simp [hsb]⟩
    simp [Varnode.hasNoDescend, List.isEmpty_iff, hd]
  obtain ⟨hsnd, hlen, hvlen⟩ := Funcdata.opSetInputDup_pos fd v hC
  have hvlt : ∀ i, i < fd.vars.length → (fd.opSetInputDup v).fst.vn i = fd.vn i :=
    fun i hi => Funcdata.opSetInputDup_vn_lt fd v i hi
  have hnev : fd.vars.length ≠ v := by omega
  unfold Funcdata.opSetInput
  rw [if_neg hne]
  cases hg : (fd.op o).getIn slot with
  | none =>
      have hcond : (((fd.opSetInputDup v).fst.op o).getIn slot).isSome = false := by
        rw [Funcdata.op_opSetInputDup, hg]
        rfl
      rw [hcond]
      simp only [Bool.false_eq_true, if_false]
      refine ⟨_, rfl, ?_, ?_, hnev, ?_, ?_, ?_, ?_, ?_⟩
      · simp [hlen]
      · rw [Funcdata.op_updateOp]
        rw [if_pos ⟨rfl, by simpa using ho⟩]
        unfold PcodeOp.getIn
        rw [Funcdata.op_addDescend, Funcdata.op_opSetInputDup]
        simp only [List.get?_eq_getElem?]
        rw [List.getElem?_set_eq_of_lt _ (by simpa using hslot)]
        simp [hsnd]
      · rw [Funcdata.vn_updateOp, Funcdata.vn_addDescend, hsnd]
        rw [if_pos ⟨rfl, by omega⟩]
        simp [hvlen]
      · rw [Funcdata.vn_updateOp, Funcdata.vn_addDescend, hsnd]
        rw [if_pos ⟨rfl, by omega⟩]
        simp [hvlen]
      · rw [Funcdata.vn_updateOp, Funcdata.vn_addDescend, hsnd]
        rw [if_pos ⟨rfl, by omega⟩]
        simp [hvlen]
      · rw [Funcdata.vn_updateOp, Funcdata.vn_addDescend, hsnd]
        rw [if_pos ⟨rfl, by omega⟩]
        simp [hvlen]
      · rw [Funcdata.vn_updateOp, Funcdata.vn_addDescend, hsnd]
        rw [if_neg (by omega)]
        exact hvlt v hv
  | some w =>
      have hmem := hw w hg
      have hwlt : w < fd.vars.length := by
        by_contra hh
        have hdef : fd.vn w = default := by
          unfold Funcdata.vn
          simp only [List.get?_eq_getElem?]
          rw [List.getElem?_eq_none (by omega)]
          rfl
        rw [hdef] at hmem
        cases hmem
      have hwnev : w ≠ v := by
        intro hwv
        exact hne (hwv ▸ hg)
      have hgs : ((fd.opSetInputDup v).fst.op o).getIn slot = some w := by
        rw [Funcdata.op_opSetInputDup]
        exact hg
      obtain ⟨l, hl⟩ : ∃ l, eraseFirst ((fd.opSetInputDup v).fst.vn w).descend o = some l := by
        rw [hvlt w hwlt]
        exact Option.isSome_iff_exists.mp (eraseFirst_isSome_of_mem hmem)
      have hunset : (fd.opSetInputDup v).fst.opUnsetInput o slot =
          Except.ok (((fd.opSetInputDup v).fst.updateVn w
              (fun vn => { vn with descend := l })).updateOp o
            (fun p => { p with inputs := p.inputs.set slot none })) := by
        unfold Funcdata.opUnsetInput Funcdata.eraseDescend
        simp only [hgs, hl]
      have hcond : (((fd.opSetInputDup v).fst.op o).getIn slot).isSome = true := by
        rw [hgs]
        rfl
      rw [hcond]
      simp only [if_true]
      rw [hunset]
      refine ⟨_, rfl, ?_, ?_, hnev, ?_, ?_, ?_, ?_, ?_⟩
      · simp [hlen]
      · rw [Funcdata.op_updateOp]
        rw [if_pos ⟨rfl, by simpa using ho⟩]
        unfold PcodeOp.getIn
        rw [Funcdata.op_addDescend, Funcdata.op_updateOp]
        rw [if_pos ⟨rfl, by simpa using ho⟩]
        rw [Funcdata.op_updateVn, Funcdata.op_opSetInputDup]
        simp only [List.get?_eq_getElem?]
        rw [List.getElem?_set_eq_of_lt]
        · simp [hsnd]
        · simp only [List.length_set]
          simpa using hslot
      · rw [Funcdata.vn_updateOp, Funcdata.vn_addDescend, hsnd]
        rw [if_pos ⟨rfl, by simp; omega⟩]
        rw [Funcdata.vn_updateOp, Funcdata.vn_updateVn]
        rw [if_neg (by omega)]
        simp [hvlen]
      · rw [Funcdata.vn_updateOp, Funcdata.vn_addDescend, hsnd]
        rw [if_pos ⟨rfl, by simp; omega⟩]
        rw [Funcdata.vn_updateOp, Funcdata.vn_updateVn]
        rw [if_neg (by omega)]
        simp [hvlen]
      · rw [Funcdata.vn_updateOp, Funcdata.vn_addDescend, hsnd]
        rw [if_pos ⟨rfl, by simp; omega⟩]
        rw [Funcdata.vn_updateOp, Funcdata.vn_updateVn]
        rw [if_neg (by omega)]
        simp [hvlen]
      · rw [Funcdata.vn_updateOp, Funcdata.vn_addDescend, hsnd]
        rw [if_pos ⟨rfl, by simp; omega⟩]
        rw [Funcdata.vn_updateOp, Funcdata.vn_updateVn]
        rw [if_neg (by omega)]
        simp [hvlen]
      · rw [Funcdata.vn_updateOp, Funcdata.vn_addDescend, hsnd]
        rw [if_neg (by omega)]
        rw [Funcdata.vn_updateOp, Funcdata.vn_updateVn]
        rw [if_neg (by intro hcc; exact hwnev hcc.1)]
        exact hvlt v hv

/-- Closed witness for the C1 amended theorem at a concrete state: a
non-spacebase constant with one reader being set into another op's slot. -/
theorem opSetInput_constant_duplication_witness :
    ∃ fd1,
      ({ vars := [{ space := SpaceType.constant, offset := 5, size := 4, descend := [0] }],
         ops := [{ opc := OpCode.COPY, inputs := [some 0] },
                 { opc := OpCode.INT_ADD, inputs := [none, none] }] } :
        Funcdata).opSetInput 1 0 0 = Except.ok fd1 ∧
      fd1.vars.length = 2 ∧ (fd1.op 1).getIn 0 = some 1 := by
  have h := opSetInput_constant_duplication
    { vars := [{ space := SpaceType.constant, offset := 5, size := 4, descend := [0] }],
      ops := [{ opc := OpCode.COPY, inputs := [some 0] },
              { opc := OpCode.INT_ADD, inputs := [none, none] }] }
    1 0 0 (by decide) (by decide) (by decide) (by decide) (by decide) (by decide)
    (by decide) (by decide)
  obtain ⟨⟨fd1, heq, hl, hslot, _⟩, _⟩ := h
  exact ⟨fd1, heq, hl, hslot⟩

/-! ### C4: assigning an output varnode that is already bound -/

/-- A state in which varnode 0 is bound as the output of op 1, while op 0
has no output. -/
def c4Fd : Funcdata :=
  { vars := [{ space := SpaceType.processor, offset := 0x10, size := 4, defOp := some 1 }],
    ops := [{ opc := OpCode.INT_ADD, inputs := [] },
            { opc := OpCode.COPY, inputs := [], output := some 0 }] }

/-- C4 counterexample: `opSetOutput(op0, vn0)` on a varnode already bound as
the output of op 1 does not fail and does not leave the state unchanged: it
silently unbinds op 1 (which loses its output) and rebinds the varnode to
op 0. -/
theorem opSetOutput_steals_bound_output :
    ((c4Fd.opSetOutput 0 0).op 1).output = none ∧
    ((c4Fd.opSetOutput 0 0).op 0).output = some 0 ∧
    ((c4Fd.opSetOutput 0 0).vn 0).defOp = some 0 ∧
    c4Fd.opSetOutput 0 0 ≠ c4Fd := by
  refine ⟨rfl, rfl, rfl, ?_⟩
  decide

/-- A state for the C4 witness in which op 0 already has its own output
(varnode 1) while varnode 0 is bound as the output of op 1. -/
def c4WFd : Funcdata :=
  { vars := [{ space := SpaceType.processor, offset := 16, size := 4,
               defOp := some 1 },
             { space := SpaceType.processor, offset := 32, size := 4,
               defOp := some 0 }],
    ops := [{ opc := OpCode.INT_ADD, inputs := [], output := some 1 },
            { opc := OpCode.COPY, inputs := [], output := some 0 }] }

/-- C4 (amended): when the varnode is already bound as the output of a
different op, `opSetOutput` succeeds: op's own previous output (if any) is
unset first and becomes free with its cover cleared, then the previous
definer's output is unset (leaving that op with no output and the varnode
free), and the varnode is bound as the given op's output; no op other than
the two involved and no varnode other than the two outputs is touched. -/
theorem opSetOutput_rebinds_previous_definer (fd : Funcdata) (o v o2 : Nat)
    (hdef : (fd.vn v).defOp = some o2) (hne : o2 ≠ o)
    (ho : o < fd.ops.length) (ho2 : o2 < fd.ops.length) (hv : v < fd.vars.length)
    (ho2out : (fd.op o2).output = some v)
    (hwf : ∀ w, (fd.op o).output = some w → w < fd.vars.length ∧ w ≠ v) :
    ((fd.opSetOutput o v).op o).output = some v ∧
    ((fd.opSetOutput o v).op o).opc = (fd.op o).opc ∧
    ((fd.opSetOutput o v).vn v).defOp = some o ∧
    ((fd.opSetOutput o v).op o2).output = none ∧
    ((fd.opSetOutput o v).op o2).opc = (fd.op o2).opc ∧
    (∀ w, (fd.op o).output = some w →
      ((fd.opSetOutput o v).vn w).defOp = none ∧
      ((fd.opSetOutput o v).vn w).cover = [] ∧
      ((fd.opSetOutput o v).vn w).space = (fd.vn w).space ∧
      ((fd.opSetOutput o v).vn w).offset = (fd.vn w).offset ∧
      ((fd.opSetOutput o v).vn w).size = (fd.vn w).size ∧
      ((fd.opSetOutput o v).vn w).descend = (fd.vn w).descend) ∧
    (∀ j, j ≠ o → j ≠ o2 → (fd.opSetOutput o v).op j = fd.op j) ∧
    (∀ w2, w2 ≠ v → (fd.op o).output ≠ some w2 →
      (fd.opSetOutput o v).vn w2 = fd.vn w2) ∧
    (fd.opSetOutput o v).ops.length = fd.ops.length ∧
    (fd.opSetOutput o v).vars.length = fd.vars.length := by
  cases hwout : (fd.op o).output with
  | none =>
      have hvne : ¬((fd.op o).output = some v) := by simp [hwout]
      unfold Funcdata.opSetOutput Funcdata.opUnsetOutput Funcdata.makeFree
      rw [if_neg hvne]
      simp only [hwout, Option.isSome_none, Bool.false_eq_true, if_false, hdef,
        ho2out]
      refine ⟨?_, ?_, ?_, ?_, ?_, ?_, ?_, ?_, ?_, ?_⟩
      · rw [Funcdata.op_updateOp]
        simp [ho]
      · rw [Funcdata.op_updateOp]
        simp [Funcdata.op_updateOp, ho, hne]
      · rw [Funcdata.vn_updateOp, Funcdata.vn_updateVn]
        simp [hv]
      · simp [Funcdata.op_updateOp, ho2, Ne.symm hne]
      · simp [Funcdata.op_updateOp, ho2, Ne.symm hne]
      · intro w hw
        cases hw
      · intro j hjo hjo2
        simp [Funcdata.op_updateOp, Ne.symm hjo, Ne.symm hjo2]
      · intro w2 hw2v hw2w
        simp [Funcdata.vn_updateVn, Ne.symm hw2v]
      · simp [Funcdata.updateOp, Funcdata.updateVn]
      · simp [Funcdata.updateOp, Funcdata.updateVn]
  | some w =>
      obtain ⟨hwlt, hwv⟩ := hwf w hwout
      have hone : o ≠ o2 := Ne.symm hne
      have hvne : ¬((fd.op o).output = some v) := by
        rw [hwout]
        simp only [Option.some.injEq]
        exact hwv
      unfold Funcdata.opSetOutput Funcdata.opUnsetOutput Funcdata.makeFree
      rw [if_neg hvne]
      simp only [hwout, Option.isSome_some, if_true, Funcdata.vn_updateVn,
        Funcdata.vn_updateOp, Funcdata.op_updateVn, Funcdata.op_updateOp,
        Funcdata.opsLength_updateOp, Funcdata.opsLength_updateVn,
        Funcdata.varsLength_updateOp, Funcdata.varsLength_updateVn,
        hwv, hne, hone, false_and, if_false, hdef, ho2out]
      refine ⟨?_, ?_, ?_, ?_, ?_, ?_, ?_, ?_, ?_, ?_⟩
      · simp [ho, hone]
      · simp [ho, hone]
      · simp [hv, hwv, hone]
      · simp [ho2, hne, hwv]
      · simp [ho2, hne, hwv]
      · intro w3 hw3
        cases hw3
        refine ⟨?_, ?_, ?_, ?_, ?_, ?_⟩ <;>
          simp [hv, hwlt, hwv, Ne.symm hwv, hone]
      · intro j hjo hjo2
        simp [Ne.symm hjo, Ne.symm hjo2]
      · intro w2 hw2v hw2w
        have hw2w2 : w ≠ w2 := by
          intro hc
          rw [hc] at hw2w
          exact hw2w rfl
        simp [Ne.symm hw2v, hw2w2]
      · simp [Funcdata.updateOp, Funcdata.updateVn]
      · simp [Funcdata.updateOp, Funcdata.updateVn]

/-- Closed witness for the C4 amended theorem: at `c4Fd` the rebinding op
has no output of its own, at `c4WFd` it has one (varnode 1), which ends up
free. -/
theorem opSetOutput_rebinds_previous_definer_witness :
    (((c4Fd.opSetOutput 0 0).op 0).output = some 0 ∧
      ((c4Fd.opSetOutput 0 0).vn 0).defOp = some 0 ∧
      ((c4Fd.opSetOutput 0 0).op 1).output = none) ∧
    (((c4WFd.opSetOutput 0 0).op 0).output = some 0 ∧
      ((c4WFd.opSetOutput 0 0).vn 0).defOp = some 0 ∧
      ((c4WFd.opSetOutput 0 0).op 1).output = none ∧
      ((c4WFd.opSetOutput 0 0).vn 1).defOp = none) := by
  have h := opSetOutput_rebinds_previous_definer c4Fd 0 0 1 rfl (by decide)
    (by decide) (by decide) (by decide) rfl
    (by
      intro w hw
      rw [show (c4Fd.op 0).output = none from rfl] at hw
      cases hw)
  have h2 := opSetOutput_rebinds_previous_definer c4WFd 0 0 1 rfl (by decide)
    (by decide) (by decide) (by decide) rfl
    (by
      intro w hw
      rw [show (c4WFd.op 0).output = some 1 from rfl] at hw
      cases hw
      exact ⟨by decide, by decide⟩)
  refine ⟨⟨h.1, h.2.2.1, h.2.2.2.1⟩, h2.1, h2.2.2.1, h2.2.2.2.1, ?_⟩
  exact (h2.2.2.2.2.2.1 1 rfl).1

/-! ### C6: unsetting an output frees but does not destroy it -/

/-- C6: `opUnsetOutput` on an op with a bound output leaves the op without
an output and makes the varnode free — no defining op, cover cleared — but
the varnode stays in the store (same variable count, same storage, same
readers), and the op's opcode, inputs and block membership as well as every
other op, varnode and block are untouched. -/
theorem opUnsetOutput_frees_output_frame (fd : Funcdata) (o v : Nat)
    (ho : o < fd.ops.length) (hv : v < fd.vars.length)
    (hvout : (fd.op o).output = some v) :
    ((fd.opUnsetOutput o).op o).output = none ∧
    ((fd.opUnsetOutput o).op o).opc = (fd.op o).opc ∧
    ((fd.opUnsetOutput o).op o).inputs = (fd.op o).inputs ∧
    ((fd.opUnsetOutput o).op o).parent = (fd.op o).parent ∧
    ((fd.opUnsetOutput o).vn v).defOp = none ∧
    ((fd.opUnsetOutput o).vn v).cover = [] ∧
    ((fd.opUnsetOutput o).vn v).space = (fd.vn v).space ∧
    ((fd.opUnsetOutput o).vn v).offset = (fd.vn v).offset ∧
    ((fd.opUnsetOutput o).vn v).size = (fd.vn v).size ∧
    ((fd.opUnsetOutput o).vn v).descend = (fd.vn v).descend ∧
    (fd.opUnsetOutput o).vars.length = fd.vars.length ∧
    (fd.opUnsetOutput o).ops.length = fd.ops.length ∧
    (∀ j, j ≠ o → (fd.opUnsetOutput o).op j = fd.op j) ∧
    (∀ w, w ≠ v → (fd.opUnsetOutput o).vn w = fd.vn w) ∧
    (fd.opUnsetOutput o).blocks = fd.blocks := by
  unfold Funcdata.opUnsetOutput Funcdata.makeFree
  simp only [hvout]
  refine ⟨?_, ?_, ?_, ?_, ?_, ?_, ?_, ?_, ?_, ?_, ?_, ?_, ?_, ?_, ?_⟩
  · simp [Funcdata.op_updateOp, ho]
  · simp [Funcdata.op_updateOp, ho]
  · simp [Funcdata.op_updateOp, ho]
  · simp [Funcdata.op_updateOp, ho]
  · simp [Funcdata.vn_updateVn, hv]
  · simp [Funcdata.vn_updateVn, hv]
  · simp [Funcdata.vn_updateVn, hv]
  · simp [Funcdata.vn_updateVn, hv]
  · simp [Funcdata.vn_updateVn, hv]
  · simp [Funcdata.vn_updateVn, hv]
  · simp
  · simp
  · intro j hjo
    simp [Funcdata.op_updateOp, Ne.symm hjo]
  · intro w hwv
    simp [Funcdata.vn_updateVn, Ne.symm hwv]
  · rfl

/-- Closed witness for the C6 theorem at the concrete state `c4Fd` (op 1 has
varnode 0 bound as its output there). -/
theorem opUnsetOutput_frees_output_frame_witness :
    ((c4Fd.opUnsetOutput 1).op 1).output = none ∧
    ((c4Fd.opUnsetOutput 1).vn 0).defOp = none ∧
    (c4Fd.opUnsetOutput 1).vars.length = c4Fd.vars.length := by
  have h := opUnsetOutput_frees_output_frame c4Fd 1 0 (by decide) (by decide) rfl
  exact ⟨h.1, h.2.2.2.2.1, h.2.2.2.2.2.2.2.2.2.2.1⟩

/-! ### C7: cloning an operation -/

/-- A state holding a RETURN op that has been marked with the halt flag. -/
def c7Fd : Funcdata :=
  { vars := [], ops := [{ opc := OpCode.RETURN, inputs := [], halt := true }] }

/-- C7 counterexample: cloning a RETURN op carrying the halt flag yields a
clone without the halt flag — `cloneOp` copies only the `startmark` and
`startbasic` bits, not all flags as the claim states. -/
theorem cloneOp_does_not_copy_halt_flag :
    ((c7Fd.cloneOp 0 default 0).map
        (fun pr => ((pr.fst.op pr.snd).halt, (pr.fst.op 0).halt, (pr.fst.op pr.snd).opc))) =
      Except.ok (false, true, OpCode.RETURN) := rfl

@[simp] theorem Funcdata.op_cloneVarnode (fd : Funcdata) (w i : Nat) :
    (fd.cloneVarnode w).fst.op i = fd.op i := rfl

@[simp] theorem Funcdata.snd_cloneVarnode (fd : Funcdata) (w : Nat) :
    (fd.cloneVarnode w).snd = fd.vars.length := rfl

@[simp] theorem Funcdata.varsLength_cloneVarnode (fd : Funcdata) (w : Nat) :
    (fd.cloneVarnode w).fst.vars.length = fd.vars.length + 1 := by
  simp [Funcdata.cloneVarnode]

@[simp] theorem Funcdata.opsLength_cloneVarnode (fd : Funcdata) (w : Nat) :
    (fd.cloneVarnode w).fst.ops.length = fd.ops.length := rfl

theorem Funcdata.vn_cloneVarnode (fd : Funcdata) (w i : Nat) :
    (fd.cloneVarnode w).fst.vn i =
      if i = fd.vars.length then
        { space := (fd.vn w).space, offset := (fd.vn w).offset, size := (fd.vn w).size,
          persist := (fd.vn w).persist, addrforce := (fd.vn w).addrforce,
          incidentalcopy := (fd.vn w).incidentalcopy }
      else fd.vn i := by
  unfold Funcdata.cloneVarnode
  exact fd.vn_appendVar _ i

/-- `opSetInput` into an empty slot with a reader-free varnode: no
duplication and no unlinking happen. -/
theorem Funcdata.opSetInput_empty_slot (fd : Funcdata) (o v slot : Nat)
    (hg : (fd.op o).getIn slot = none)
    (hnd : (fd.vn v).hasNoDescend = true) :
    fd.opSetInput o v slot = Except.ok ((fd.addDescend v o).updateOp o
      (fun p => { p with inputs := p.inputs.set slot (some v) })) := by
  have hnC : ¬((fd.vn v).isConstant = true ∧ ¬((fd.vn v).hasNoDescend = true) ∧
      ¬((fd.vn v).spacebase = true)) := fun hcc => hcc.2.1 hnd
  unfold Funcdata.opSetInput Funcdata.opSetInputDup
  rw [if_neg (by simp [hg])]
  rw [if_neg hnC]
  show (match (if ((fd.op o).getIn slot).isSome = true then fd.opUnsetInput o slot
      else Except.ok fd) with
    | Except.error e => Except.error e
    | Except.ok fd2 =>
        Except.ok ((fd2.addDescend v o).updateOp o
          (fun p => { p with inputs := p.inputs.set slot (some v) }))) =
    Except.ok ((fd.addDescend v o).updateOp o
      (fun p => { p with inputs := p.inputs.set slot (some v) }))
  rw [hg]
  rfl

/-- `opSetOutput` with a fresh (unbound) varnode on an op without output:
the varnode's definer and the op's output are recorded and nothing else
changes. -/
theorem Funcdata.opSetOutput_fresh (fd : Funcdata) (o v : Nat)
    (hout : (fd.op o).output = none) (hdef : (fd.vn v).defOp = none) :
    fd.opSetOutput o v =
      (fd.updateVn v (fun vn => { vn with defOp := some o })).updateOp o
        (fun p => { p with output := some v }) := by
  unfold Funcdata.opSetOutput
  rw [if_neg (by simp [hout])]
  simp only [hout, Option.isSome_none, Bool.false_eq_true, if_false, hdef]

/-- Frame and result facts for the input-cloning loop of `cloneOp`. -/
theorem Funcdata.cloneInputs_spec (n : Nat) (ivs : List (Option Nat)) :
    ∀ (fd : Funcdata) (slot0 : Nat),
      n < fd.ops.length →
      (∀ j, slot0 ≤ j → (fd.op n).getIn j = none) →
      slot0 + ivs.length ≤ (fd.op n).inputs.length →
      (∀ i w, ivs.get? i = some (some w) → w < fd.vars.length) →
      ∃ fd4, Funcdata.cloneInputs fd n ivs slot0 = Except.ok fd4 ∧
        fd4.ops.length = fd.ops.length ∧
        (∀ j, ∃ ins, fd4.op j = { fd.op j with inputs := ins }) ∧
        (fd4.op n).inputs.length = (fd.op n).inputs.length ∧
        (∀ j, j < slot0 → (fd4.op n).getIn j = (fd.op n).getIn j) ∧
        (∀ i w, ivs.get? i = some (some w) →
          ∃ m, (fd4.op n).getIn (slot0 + i) = some m ∧
            fd.vars.length ≤ m ∧
            (fd4.vn m).space = (fd.vn w).space ∧
            (fd4.vn m).offset = (fd.vn w).offset ∧
            (fd4.vn m).size = (fd.vn w).size) ∧
        (fd.vars.length ≤ fd4.vars.length ∧
          ∀ i, i < fd.vars.length → fd4.vn i = fd.vn i) := by
  induction ivs with
  | nil =>
      intro fd slot0 hn _ _ _
      refine ⟨fd, rfl, rfl, fun j => ⟨(fd.op j).inputs, rfl⟩, rfl, fun j _ => rfl,
        fun i w hiv => by simp at hiv, le_refl _, fun i _ => rfl⟩
  | cons iv rest ih =>
      intro fd slot0 hn hempty hfit hwlt
      cases iv with
      | none =>
          obtain ⟨fd4, heq, hol, hframe, hilen, hprev, hivs, hvle, hvars⟩ :=
            ih fd (slot0 + 1) hn (fun j hj => hempty j (by omega))
              (by simp only [List.length_cons] at hfit; omega)
              (fun i w hiv => hwlt (i + 1) w (by simpa using hiv))
          refine ⟨fd4, heq, hol, hframe, hilen, fun j hj => hprev j (by omega), ?_,
            hvle, hvars⟩
          intro i w hiv
          cases i with
          | zero => simp at hiv
          | succ i2 =>
              obtain ⟨m, hm1, hm2⟩ := hivs i2 w (by simpa using hiv)
              refine ⟨m, ?_, hm2⟩
              rw [show slot0 + (i2 + 1) = slot0 + 1 + i2 by omega]
              exact hm1
      | some w0 =>
          have hslot0lt : slot0 < (fd.op n).inputs.length := by
            simp only [List.length_cons] at hfit
            omega
          have hset : (fd.cloneVarnode w0).fst.opSetInput n (fd.cloneVarnode w0).snd slot0 =
              Except.ok (((fd.cloneVarnode w0).fst.addDescend
                  (fd.cloneVarnode w0).snd n).updateOp n
                (fun p =>
                  { p with inputs := p.inputs.set slot0 (some (fd.cloneVarnode w0).snd) })) := by
            apply Funcdata.opSetInput_empty_slot
            · rw [Funcdata.op_cloneVarnode]
              exact hempty slot0 (le_refl _)
            · rw [Funcdata.snd_cloneVarnode, Funcdata.vn_cloneVarnode]
              rw [if_pos rfl]
              rfl
          set fd1 := (((fd.cloneVarnode w0).fst.addDescend
              (fd.cloneVarnode w0).snd n).updateOp n
            (fun p =>
              { p with inputs := p.inputs.set slot0 (some (fd.cloneVarnode w0).snd) })) with hfd1
          have hops1 : fd1.ops.length = fd.ops.length := by
            rw [hfd1]
            simp
          have hvlen1 : fd1.vars.length = fd.vars.length + 1 := by
            rw [hfd1]
            simp
          have hop1n : (fd1.op n).inputs = (fd.op n).inputs.set slot0 (some fd.vars.length) := by
            rw [hfd1]
            rw [Funcdata.op_updateOp]
            rw [if_pos ⟨rfl, by simpa using hn⟩]
            simp
          have hframe1 : ∀ j, ∃ ins, fd1.op j = { fd.op j with inputs := ins } := by
            intro j
            rw [hfd1, Funcdata.op_updateOp]
            by_cases hj : n = j ∧ n < ((fd.cloneVarnode w0).fst.addDescend
                (fd.cloneVarnode w0).snd n).ops.length
            · rw [if_pos hj]
              obtain ⟨hj1, _⟩ := hj
              subst hj1
              exact ⟨(fd.op n).inputs.set slot0 (some fd.vars.length), by simp⟩
            · rw [if_neg hj]
              exact ⟨(fd.op j).inputs, rfl⟩
          have hvn1 : ∀ i, i < fd.vars.length → fd1.vn i = fd.vn i := by
            intro i hi
            rw [hfd1]
            rw [Funcdata.vn_updateOp, Funcdata.vn_addDescend]
            rw [if_neg (by simp; omega)]
            rw [Funcdata.vn_cloneVarnode]
            rw [if_neg (by omega)]
          have hvnew : (fd1.vn fd.vars.length).space = (fd.vn w0).space ∧
              (fd1.vn fd.vars.length).offset = (fd.vn w0).offset ∧
              (fd1.vn fd.vars.length).size = (fd.vn w0).size := by
            rw [hfd1]
            rw [Funcdata.vn_updateOp, Funcdata.vn_addDescend]
            rw [if_pos ⟨by simp, by simp⟩]
            rw [Funcdata.snd_cloneVarnode, Funcdata.vn_cloneVarnode]
            rw [if_pos rfl]
            exact ⟨rfl, rfl, rfl⟩
          have hn1 : n < fd1.ops.length := by omega
          have hempty1 : ∀ j, slot0 + 1 ≤ j → (fd1.op n).getIn j = none := by
            intro j hj
            have he := hempty j (by omega)
            unfold PcodeOp.getIn at he ⊢
            rw [hop1n]
            simp only [List.get?_eq_getElem?] at he ⊢
            rw [List.getElem?_set_ne (by omega)]
            exact he
          have hfit1 : slot0 + 1 + rest.length ≤ (fd1.op n).inputs.length := by
            rw [hop1n]
            simp only [List.length_set, List.length_cons] at hfit ⊢
            omega
          have hwlt1 : ∀ i w, rest.get? i = some (some w) → w < fd1.vars.length := by
            intro i w hiv
            have := hwlt (i + 1) w (by simpa using hiv)
            omega
          obtain ⟨fd4, heq, hol, hframe, hilen, hprev, hivs, hvle, hvars⟩ :=
            ih fd1 (slot0 + 1) hn1 hempty1 hfit1 hwlt1
          have hsteps : Funcdata.cloneInputs fd n (some w0 :: rest) slot0 =
              Funcdata.cloneInputs fd1 n rest (slot0 + 1) := by
            show (match (fd.cloneVarnode w0).fst.opSetInput n
                (fd.cloneVarnode w0).snd slot0 with
              | Except.error e => Except.error e
              | Except.ok fd2 => Funcdata.cloneInputs fd2 n rest (slot0 + 1)) =
              Funcdata.cloneInputs fd1 n rest (slot0 + 1)
            rw [hset]
          refine ⟨fd4, by rw [hsteps]; exact heq, by rw [hol, hops1], ?_, ?_, ?_, ?_, ?_, ?_⟩
          · intro j
            obtain ⟨ins, hins⟩ := hframe j
            obtain ⟨ins0, hins0⟩ := hframe1 j
            refine ⟨ins, ?_⟩
            rw [hins, hins0]
          · rw [hilen, hop1n]
            simp
          · intro j hj
            rw [hprev j (by omega)]
            unfold PcodeOp.getIn
            rw [hop1n]
            simp only [List.get?_eq_getElem?]
            rw [List.getElem?_set_ne (by omega)]
          · intro i w hiv
            cases i with
            | zero =>
                have hww : w0 = w := by simpa using hiv
                subst hww
                refine ⟨fd.vars.length, ?_, le_refl _, ?_, ?_, ?_⟩
                · rw [Nat.add_zero]
                  rw [hprev slot0 (by omega)]
                  unfold PcodeOp.getIn
                  rw [hop1n]
                  simp only [List.get?_eq_getElem?]
                  rw [List.getElem?_set_eq_of_lt _ (by simpa using hslot0lt)]
                  rfl
                · rw [hvars fd.vars.length (by omega)]
                  exact hvnew.1
                · rw [hvars fd.vars.length (by omega)]
                  exact hvnew.2.1
                · rw [hvars fd.vars.length (by omega)]
                  exact hvnew.2.2
            | succ i2 =>
                obtain ⟨m, hm1, hmge, hm2, hm3, hm4⟩ := hivs i2 w (by simpa using hiv)
                have hwlt0 : w < fd.vars.length := hwlt (i2 + 1) w hiv
                refine ⟨m, ?_, by omega, ?_, ?_, ?_⟩
                · rw [show slot0 + (i2 + 1) = slot0 + 1 + i2 by omega]
                  exact hm1
                · rw [hm2, hvn1 w hwlt0]
                · rw [hm3, hvn1 w hwlt0]
                · rw [hm4, hvn1 w hwlt0]
          · omega
          · intro i hi
            rw [hvars i (by omega), hvn1 i hi]

@[simp] theorem Funcdata.snd_newOpSeq (fd : Funcdata) (k : Nat) (a : Address) (ord : Nat) :
    (fd.newOpSeq k a ord).snd = fd.ops.length := rfl

@[simp] theorem Funcdata.opsLength_newOpSeq (fd : Funcdata) (k : Nat) (a : Address)
    (ord : Nat) : (fd.newOpSeq k a ord).fst.ops.length = fd.ops.length + 1 := by
  simp [Funcdata.newOpSeq]

@[simp] theorem Funcdata.varsLength_newOpSeq (fd : Funcdata) (k : Nat) (a : Address)
    (ord : Nat) : (fd.newOpSeq k a ord).fst.vars.length = fd.vars.length := rfl

@[simp] theorem Funcdata.vn_newOpSeq (fd : Funcdata) (k : Nat) (a : Address) (ord i : Nat) :
    (fd.newOpSeq k a ord).fst.vn i = fd.vn i := rfl

theorem Funcdata.op_newOpSeq (fd : Funcdata) (k : Nat) (a : Address) (ord i : Nat) :
    (fd.newOpSeq k a ord).fst.op i =
      if i = fd.ops.length then
        { addr := a, order := ord, inputs := List.replicate k none }
      else fd.op i := by
  unfold Funcdata.newOpSeq
  exact fd.op_appendOp _ i

theorem PcodeOp.getIn_eq_some_iff (p : PcodeOp) (i w : Nat) :
    p.getIn i = some w ↔ p.inputs.get? i = some (some w) := by
  unfold PcodeOp.getIn
  cases h : p.inputs.get? i with
  | none => simp
  | some x =>
      cases x with
      | none => simp
      | some y => simp

theorem PcodeOp.getIn_replicate_none (p : PcodeOp) (k j : Nat)
    (h : p.inputs = List.replicate k none) : p.getIn j = none := by
  unfold PcodeOp.getIn
  rw [h]
  simp only [List.get?_eq_getElem?, List.getElem?_replicate]
  by_cases hj : j < k
  · simp [hj]
  · simp [hj]

@[simp] theorem Funcdata.opsLength_opSetOpcode (fd : Funcdata) (o : Nat) (c : OpCode) :
    (fd.opSetOpcode o c).ops.length = fd.ops.length := by
  simp [Funcdata.opSetOpcode]

@[simp] theorem Funcdata.varsLength_opSetOpcode (fd : Funcdata) (o : Nat) (c : OpCode) :
    (fd.opSetOpcode o c).vars.length = fd.vars.length := rfl

@[simp] theorem Funcdata.vn_opSetOpcode (fd : Funcdata) (o : Nat) (c : OpCode) (i : Nat) :
    (fd.opSetOpcode o c).vn i = fd.vn i := rfl

@[simp] theorem Funcdata.opsLength_opSetStartFlags (fd : Funcdata) (o : Nat) (sm sb : Bool) :
    (fd.opSetStartFlags o sm sb).ops.length = fd.ops.length := by
  simp [Funcdata.opSetStartFlags]

@[simp] theorem Funcdata.varsLength_opSetStartFlags (fd : Funcdata) (o : Nat) (sm sb : Bool) :
    (fd.opSetStartFlags o sm sb).vars.length = fd.vars.length := rfl

@[simp] theorem Funcdata.vn_opSetStartFlags (fd : Funcdata) (o : Nat) (sm sb : Bool) (i : Nat) :
    (fd.opSetStartFlags o sm sb).vn i = fd.vn i := rfl

@[simp] theorem Funcdata.cloneOutput_none (fd : Funcdata) (n : Nat) :
    fd.cloneOutput n none = fd := rfl

@[simp] theorem Funcdata.cloneOutput_some (fd : Funcdata) (n ov : Nat) :
    fd.cloneOutput n (some ov) =
      (fd.cloneVarnode ov).fst.opSetOutput n (fd.cloneVarnode ov).snd := rfl

theorem Funcdata.cloneOpBase_op (fd : Funcdata) (o : Nat) (seqa : Address) (seqo : Nat) :
    ((fd.cloneOpBase o seqa seqo).fst.op fd.ops.length) =
      { opc := (fd.op o).opc, addr := seqa, order := seqo,
        inputs := List.replicate (fd.op o).numInput none,
        output := ((fd.op o).output).map (fun _ => fd.vars.length),
        startbasic := (fd.op o).startbasic, startmark := (fd.op o).startmark } := by
  unfold Funcdata.cloneOpBase
  have hE2 : ((((fd.newOpSeq (fd.op o).numInput seqa seqo).fst.opSetOpcode fd.ops.length
      (fd.op o).opc).opSetStartFlags fd.ops.length (fd.op o).startmark
      (fd.op o).startbasic)).op fd.ops.length =
      { opc := (fd.op o).opc, addr := seqa, order := seqo,
        inputs := List.replicate (fd.op o).numInput none,
        startbasic := (fd.op o).startbasic, startmark := (fd.op o).startmark } := by
    unfold Funcdata.opSetStartFlags Funcdata.opSetOpcode
    rw [Funcdata.op_updateOp]
    rw [if_pos ⟨rfl, by simp⟩]
    rw [Funcdata.op_updateOp]
    rw [if_pos ⟨rfl, by simp⟩]
    rw [Funcdata.op_newOpSeq]
    rw [if_pos rfl]
    simp
  cases hout : (fd.op o).output with
  | none =>
      rw [Funcdata.cloneOutput_none]
      exact hE2
  | some ov =>
      rw [Funcdata.cloneOutput_some]
      rw [Funcdata.opSetOutput_fresh]
      · rw [Funcdata.op_updateOp]
        rw [if_pos ⟨rfl, by simp⟩]
        rw [Funcdata.op_updateVn, Funcdata.op_cloneVarnode, hE2]
        rfl
      · rw [Funcdata.op_cloneVarnode, hE2]
      · rw [Funcdata.snd_cloneVarnode, Funcdata.vn_cloneVarnode]
        rw [if_pos (by simp)]

theorem Funcdata.cloneOpBase_vn_lt (fd : Funcdata) (o : Nat) (seqa : Address) (seqo : Nat) :
    ∀ i, i < fd.vars.length → (fd.cloneOpBase o seqa seqo).fst.vn i = fd.vn i := by
  intro i hi
  unfold Funcdata.cloneOpBase
  have hE2out : (((((fd.newOpSeq (fd.op o).numInput seqa seqo).fst.opSetOpcode fd.ops.length
      (fd.op o).opc).opSetStartFlags fd.ops.length (fd.op o).startmark
      (fd.op o).startbasic)).op fd.ops.length).output = none := by
    unfold Funcdata.opSetStartFlags Funcdata.opSetOpcode
    rw [Funcdata.op_updateOp]
    rw [if_pos ⟨rfl, by simp⟩]
    rw [Funcdata.op_updateOp]
    rw [if_pos ⟨rfl, by simp⟩]
    rw [Funcdata.op_newOpSeq]
    rw [if_pos rfl]
  cases hout : (fd.op o).output with
  | none =>
      rw [Funcdata.cloneOutput_none]
      rfl
  | some ov =>
      rw [Funcdata.cloneOutput_some]
      rw [Funcdata.opSetOutput_fresh]
      · rw [Funcdata.vn_updateOp, Funcdata.vn_updateVn]
        rw [if_neg (by simp; omega)]
        rw [Funcdata.vn_cloneVarnode]
        rw [if_neg (by simp; omega)]
        rfl
      · rw [Funcdata.op_cloneVarnode]
        exact hE2out
      · rw [Funcdata.snd_cloneVarnode, Funcdata.vn_cloneVarnode]
        rw [if_pos (by simp)]

theorem Funcdata.cloneOpBase_opsLength (fd : Funcdata) (o : Nat) (seqa : Address)
    (seqo : Nat) : (fd.cloneOpBase o seqa seqo).fst.ops.length = fd.ops.length + 1 := by
  unfold Funcdata.cloneOpBase
  have hE2out : (((((fd.newOpSeq (fd.op o).numInput seqa seqo).fst.opSetOpcode fd.ops.length
      (fd.op o).opc).opSetStartFlags fd.ops.length (fd.op o).startmark
      (fd.op o).startbasic)).op fd.ops.length).output = none := by
    unfold Funcdata.opSetStartFlags Funcdata.opSetOpcode
    rw [Funcdata.op_updateOp]
    rw [if_pos ⟨rfl, by simp⟩]
    rw [Funcdata.op_updateOp]
    rw [if_pos ⟨rfl, by simp⟩]
    rw [Funcdata.op_newOpSeq]
    rw [if_pos rfl]
  cases hout : (fd.op o).output with
  | none =>
      rw [Funcdata.cloneOutput_none]
      simp
  | some ov =>
      rw [Funcdata.cloneOutput_some]
      rw [Funcdata.opSetOutput_fresh]
      · simp
      · rw [Funcdata.op_cloneVarnode]
        exact hE2out
      · rw [Funcdata.snd_cloneVarnode, Funcdata.vn_cloneVarnode]
        rw [if_pos (by simp)]

theorem Funcdata.cloneOpBase_varsLength (fd : Funcdata) (o : Nat) (seqa : Address)
    (seqo : Nat) : fd.vars.length ≤ (fd.cloneOpBase o seqa seqo).fst.vars.length := by
  unfold Funcdata.cloneOpBase
  have hE2out : (((((fd.newOpSeq (fd.op o).numInput seqa seqo).fst.opSetOpcode fd.ops.length
      (fd.op o).opc).opSetStartFlags fd.ops.length (fd.op o).startmark
      (fd.op o).startbasic)).op fd.ops.length).output = none := by
    unfold Funcdata.opSetStartFlags Funcdata.opSetOpcode
    rw [Funcdata.op_updateOp]
    rw [if_pos ⟨rfl, by simp⟩]
    rw [Funcdata.op_updateOp]
    rw [if_pos ⟨rfl, by simp⟩]
    rw [Funcdata.op_newOpSeq]
    rw [if_pos rfl]
  cases hout : (fd.op o).output with
  | none =>
      rw [Funcdata.cloneOutput_none]
      exact le_refl _
  | some ov =>
      rw [Funcdata.cloneOutput_some]
      rw [Funcdata.opSetOutput_fresh]
      · simp only [Funcdata.varsLength_updateOp, Funcdata.varsLength_updateVn,
          Funcdata.varsLength_cloneVarnode, Funcdata.varsLength_opSetStartFlags,
          Funcdata.varsLength_opSetOpcode, Funcdata.varsLength_newOpSeq]
        omega
      · rw [Funcdata.op_cloneVarnode]
        exact hE2out
      · rw [Funcdata.snd_cloneVarnode, Funcdata.vn_cloneVarnode]
        rw [if_pos (by simp)]

theorem Funcdata.cloneOpBase_output_clone (fd : Funcdata) (o : Nat) (seqa : Address)
    (seqo : Nat) (ov : Nat) (hout : (fd.op o).output = some ov) :
    ((fd.cloneOpBase o seqa seqo).fst.vn fd.vars.length).space = (fd.vn ov).space ∧
    ((fd.cloneOpBase o seqa seqo).fst.vn fd.vars.length).offset = (fd.vn ov).offset ∧
    ((fd.cloneOpBase o seqa seqo).fst.vn fd.vars.length).size = (fd.vn ov).size := by
  unfold Funcdata.cloneOpBase
  have hE2out : (((((fd.newOpSeq (fd.op o).numInput seqa seqo).fst.opSetOpcode fd.ops.length
      (fd.op o).opc).opSetStartFlags fd.ops.length (fd.op o).startmark
      (fd.op o).startbasic)).op fd.ops.length).output = none := by
    unfold Funcdata.opSetStartFlags Funcdata.opSetOpcode
    rw [Funcdata.op_updateOp]
    rw [if_pos ⟨rfl, by simp⟩]
    rw [Funcdata.op_updateOp]
    rw [if_pos ⟨rfl, by simp⟩]
    rw [Funcdata.op_newOpSeq]
    rw [if_pos rfl]
  rw [hout]
  rw [Funcdata.cloneOutput_some]
  rw [Funcdata.opSetOutput_fresh]
  · rw [Funcdata.vn_updateOp, Funcdata.vn_updateVn]
    rw [if_pos ⟨rfl, by simp⟩]
    rw [Funcdata.vn_cloneVarnode]
    rw [if_pos (by simp)]
    exact ⟨rfl, rfl, rfl⟩
  · rw [Funcdata.op_cloneVarnode]
    exact hE2out
  · rw [Funcdata.snd_cloneVarnode, Funcdata.vn_cloneVarnode]
    rw [if_pos (by simp)]

theorem Funcdata.cloneOpBase_varsLength_some (fd : Funcdata) (o : Nat) (seqa : Address)
    (seqo : Nat) (ov : Nat) (hout : (fd.op o).output = some ov) :
    (fd.cloneOpBase o seqa seqo).fst.vars.length = fd.vars.length + 1 := by
  unfold Funcdata.cloneOpBase
  have hE2out : (((((fd.newOpSeq (fd.op o).numInput seqa seqo).fst.opSetOpcode fd.ops.length
      (fd.op o).opc).opSetStartFlags fd.ops.length (fd.op o).startmark
      (fd.op o).startbasic)).op fd.ops.length).output = none := by
    unfold Funcdata.opSetStartFlags Funcdata.opSetOpcode
    rw [Funcdata.op_updateOp]
    rw [if_pos ⟨rfl, by simp⟩]
    rw [Funcdata.op_updateOp]
    rw [if_pos ⟨rfl, by simp⟩]
    rw [Funcdata.op_newOpSeq]
    rw [if_pos rfl]
  rw [hout]
  rw [Funcdata.cloneOutput_some]
  rw [Funcdata.opSetOutput_fresh]
  · simp
  · rw [Funcdata.op_cloneVarnode]
    exact hE2out
  · rw [Funcdata.snd_cloneVarnode, Funcdata.vn_cloneVarnode]
    rw [if_pos (by simp)]

/-- C7 (amended): for every op `o` well-contained in the store, `cloneOp`
succeeds and returns a fresh op index carrying the same opcode, the same
`startmark` and `startbasic` flags (but not the other flags: the clone's
`halt` flag is always clear), the requested sequence number, no block
linkage (the clone stays dead), a clone of the output varnode at the same
storage address when the source has an output, and fresh clones of the
input varnodes — at the same storage addresses — in the same slots. -/
theorem cloneOp_copies_structure (fd : Funcdata) (o : Nat) (seqa : Address)
    (seqo : Nat) (ho : o < fd.ops.length)
    (hin : ∀ i w, (fd.op o).inputs.get? i = some (some w) → w < fd.vars.length)
    (hov : ∀ ov, (fd.op o).output = some ov → ov < fd.vars.length) :
    ∃ fd4 n, fd.cloneOp o seqa seqo = Except.ok (fd4, n) ∧
      n = fd.ops.length ∧
      (fd4.op n).opc = (fd.op o).opc ∧
      (fd4.op n).startmark = (fd.op o).startmark ∧
      (fd4.op n).startbasic = (fd.op o).startbasic ∧
      (fd4.op n).halt = false ∧
      (fd4.op n).addr = seqa ∧
      (fd4.op n).order = seqo ∧
      (fd4.op n).parent = none ∧
      (fd4.op n).inputs.length = (fd.op o).inputs.length ∧
      ((fd.op o).output = none → (fd4.op n).output = none) ∧
      (∀ ov, (fd.op o).output = some ov →
        ∃ m, (fd4.op n).output = some m ∧ m ≠ ov ∧
          (fd4.vn m).space = (fd.vn ov).space ∧
          (fd4.vn m).offset = (fd.vn ov).offset ∧
          (fd4.vn m).size = (fd.vn ov).size) ∧
      (∀ i w, (fd.op o).inputs.get? i = some (some w) →
        ∃ m, (fd4.op n).getIn i = some m ∧ m ≠ w ∧
          (fd4.vn m).space = (fd.vn w).space ∧
          (fd4.vn m).offset = (fd.vn w).offset ∧
          (fd4.vn m).size = (fd.vn w).size) := by
  have hop1 := fd.cloneOpBase_op o seqa seqo
  have hops1 := fd.cloneOpBase_opsLength o seqa seqo
  have hvarsle := fd.cloneOpBase_varsLength o seqa seqo
  have hvnlt := fd.cloneOpBase_vn_lt o seqa seqo
  have hinputs1 : ((fd.cloneOpBase o seqa seqo).fst.op fd.ops.length).inputs
      = List.replicate (fd.op o).numInput none := by rw [hop1]
  obtain ⟨fd4, heq, hol, hframe, hilen, hprev, hivs, hvle, hvars⟩ :=
    Funcdata.cloneInputs_spec fd.ops.length (fd.op o).inputs
      (fd.cloneOpBase o seqa seqo).fst 0
      (by rw [hops1]; omega)
      (fun j _ => PcodeOp.getIn_replicate_none _ _ j hinputs1)
      (by rw [hinputs1]; simp [PcodeOp.numInput])
      (fun i w hw => lt_of_lt_of_le (hin i w hw) hvarsle)
  have hrun : fd.cloneOp o seqa seqo = Except.ok (fd4, fd.ops.length) := by
    unfold Funcdata.cloneOp
    have hsnd : (fd.cloneOpBase o seqa seqo).snd = fd.ops.length := rfl
    rw [hsnd, heq]
  obtain ⟨ins, hfr⟩ := hframe fd.ops.length
  refine ⟨fd4, fd.ops.length, hrun, rfl, ?_, ?_, ?_, ?_, ?_, ?_, ?_, ?_, ?_, ?_, ?_⟩
  · rw [hfr, hop1]
  · rw [hfr, hop1]
  · rw [hfr, hop1]
  · rw [hfr, hop1]
  · rw [hfr, hop1]
  · rw [hfr, hop1]
  · rw [hfr, hop1]
  · rw [hilen, hinputs1]
    simp [PcodeOp.numInput]
  · intro hnone
    rw [hfr, hop1, hnone]
    rfl
  · intro ov hov2
    have hm : fd4.vn fd.vars.length = (fd.cloneOpBase o seqa seqo).fst.vn fd.vars.length :=
      hvars _ (by rw [fd.cloneOpBase_varsLength_some o seqa seqo ov hov2]; omega)
    obtain ⟨hs, hoff, hsz⟩ := fd.cloneOpBase_output_clone o seqa seqo ov hov2
    refine ⟨fd.vars.length, ?_, ?_, ?_, ?_, ?_⟩
    · rw [hfr, hop1, hov2]
      rfl
    · have := hov ov hov2
      omega
    · rw [hm]
      exact hs
    · rw [hm]
      exact hoff
    · rw [hm]
      exact hsz
  · intro i w hw
    obtain ⟨m, hgi, hmle, hs, hoff, hsz⟩ := hivs i w hw
    have hwf := hin i w hw
    refine ⟨m, ?_, ?_, ?_, ?_, ?_⟩
    · simpa using hgi
    · omega
    · rw [hvnlt w hwf] at hs
      exact hs
    · rw [hvnlt w hwf] at hoff
      exact hoff
    · rw [hvnlt w hwf] at hsz
      exact hsz

/-- Concrete store for the `cloneOp` witness: one COPY op reading one
register varnode and writing another, with the `startmark` flag set. -/
def c7WFd : Funcdata :=
  { vars := [{ space := SpaceType.processor, offset := 16, size := 4, descend := [0] },
             { space := SpaceType.processor, offset := 0, size := 4, defOp := some 0 }],
    ops := [{ opc := OpCode.COPY, inputs := [some 0], output := some 1,
              startmark := true }] }

theorem cloneOp_copies_structure_witness :
    0 < c7WFd.ops.length ∧
    (∃ fd4 n, c7WFd.cloneOp 0 default 0 = Except.ok (fd4, n) ∧
      n = c7WFd.ops.length ∧
      (fd4.op n).opc = (c7WFd.op 0).opc ∧
      (fd4.op n).startmark = (c7WFd.op 0).startmark ∧
      (fd4.op n).startbasic = (c7WFd.op 0).startbasic ∧
      (fd4.op n).halt = false ∧
      (fd4.op n).addr = default ∧
      (fd4.op n).order = 0 ∧
      (fd4.op n).parent = none ∧
      (fd4.op n).inputs.length = (c7WFd.op 0).inputs.length ∧
      ((c7WFd.op 0).output = none → (fd4.op n).output = none) ∧
      (∀ ov, (c7WFd.op 0).output = some ov →
        ∃ m, (fd4.op n).output = some m ∧ m ≠ ov ∧
          (fd4.vn m).space = (c7WFd.vn ov).space ∧
          (fd4.vn m).offset = (c7WFd.vn ov).offset ∧
          (fd4.vn m).size = (c7WFd.vn ov).size) ∧
      (∀ i w, (c7WFd.op 0).inputs.get? i = some (some w) →
        ∃ m, (fd4.op n).getIn i = some m ∧ m ≠ w ∧
          (fd4.vn m).space = (c7WFd.vn w).space ∧
          (fd4.vn m).offset = (c7WFd.vn w).offset ∧
          (fd4.vn m).size = (c7WFd.vn w).size)) :=
  ⟨by decide,
   cloneOp_copies_structure c7WFd 0 default 0 (by decide)
     (by intro i w h
         have h0 : (c7WFd.op 0).inputs = [some 0] := rfl
         rw [h0] at h
         cases i with
         | zero =>
             simp at h
             subst h
             decide
         | succ j =>
             simp at h)
     (by intro ov h
         have h0 : (c7WFd.op 0).output = some 1 := rfl
         rw [h0] at h
         injection h with h1
         rw [← h1]
         decide)⟩

/-! ### C5: block insertion and the phis-first / branch-last invariant -/

theorem noPhiL_iff (l : List OpCode) :
    noPhiL l = true ↔ ∀ x ∈ l, x ≠ OpCode.MULTIEQUAL := by
  simp [noPhiL]

theorem leadPhiCountC_le_length (l : List OpCode) : leadPhiCountC l ≤ l.length := by
  induction l with
  | nil => simp [leadPhiCountC]
  | cons c rest ih =>
      unfold leadPhiCountC
      split
      · simp only [List.length_cons]
        omega
      · simp

theorem phisFirstL_cons_phi (rest : List OpCode) :
    phisFirstL (OpCode.MULTIEQUAL :: rest) = phisFirstL rest := by
  simp [phisFirstL]

theorem phisFirstL_cons_nonphi (c : OpCode) (rest : List OpCode)
    (hc : c ≠ OpCode.MULTIEQUAL) : phisFirstL (c :: rest) = noPhiL rest := by
  simp [phisFirstL, hc]

theorem phisFirstL_insertIdx (c : OpCode) (hc : c ≠ OpCode.MULTIEQUAL) :
    ∀ (l : List OpCode) (p : Nat), leadPhiCountC l ≤ p → p ≤ l.length →
      phisFirstL l = true → phisFirstL (l.insertIdx p c) = true := by
  intro l
  induction l with
  | nil =>
      intro p h1 h2 h3
      have hp0 : p = 0 := Nat.le_zero.mp h2
      subst hp0
      rw [List.insertIdx_zero, phisFirstL_cons_nonphi c [] hc]
      rfl
  | cons c0 rest ih =>
      intro p h1 h2 h3
      by_cases h0 : c0 = OpCode.MULTIEQUAL
      · subst h0
        have hlead : leadPhiCountC (OpCode.MULTIEQUAL :: rest) = leadPhiCountC rest + 1 := by
          simp [leadPhiCountC]
        rw [hlead] at h1
        cases p with
        | zero => omega
        | succ q =>
            rw [List.insertIdx_succ_cons, phisFirstL_cons_phi]
            rw [phisFirstL_cons_phi] at h3
            exact ih q (by omega) (by simp only [List.length_cons] at h2; omega) h3
      · cases p with
        | zero =>
            rw [List.insertIdx_zero, phisFirstL_cons_nonphi c _ hc, noPhiL_iff]
            rw [phisFirstL_cons_nonphi c0 rest h0, noPhiL_iff] at h3
            intro x hx
            rcases List.mem_cons.mp hx with h | h
            · rw [h]
              exact h0
            · exact h3 x h
        | succ q =>
            rw [List.insertIdx_succ_cons, phisFirstL_cons_nonphi c0 _ h0, noPhiL_iff]
            rw [phisFirstL_cons_nonphi c0 rest h0, noPhiL_iff] at h3
            intro x hx
            have hq : q ≤ rest.length := by
              simp only [List.length_cons] at h2
              omega
            rcases (List.mem_insertIdx hq).mp hx with h | h
            · rw [h]
              exact hc
            · exact h3 x h

theorem branchLastL_cons₂ (c c2 : OpCode) (t : List OpCode) :
    branchLastL (c :: c2 :: t) = ((!c.isFlowBreak) && branchLastL (c2 :: t)) := rfl

theorem branchLast_cons_of (c : OpCode) (l : List OpCode) (hc : c.isFlowBreak = false)
    (hl : branchLastL l = true) : branchLastL (c :: l) = true := by
  cases l with
  | nil => rfl
  | cons c2 t =>
      rw [branchLastL_cons₂]
      simp [hc, hl]

theorem branchLast_cons_elim (c : OpCode) (l : List OpCode) (hl : l ≠ [])
    (h : branchLastL (c :: l) = true) :
    c.isFlowBreak = false ∧ branchLastL l = true := by
  cases l with
  | nil => exact absurd rfl hl
  | cons c2 t =>
      rw [branchLastL_cons₂] at h
      simp at h
      exact h

theorem branchLastL_insertIdx_lt (c : OpCode) (hc : c.isFlowBreak = false) :
    ∀ (l : List OpCode) (p : Nat), p < l.length → branchLastL l = true →
      branchLastL (l.insertIdx p c) = true := by
  intro l
  induction l with
  | nil =>
      intro p hp _
      simp at hp
  | cons c0 rest ih =>
      intro p hp hb
      cases p with
      | zero =>
          rw [List.insertIdx_zero]
          exact branchLast_cons_of c _ hc hb
      | succ q =>
          rw [List.insertIdx_succ_cons]
          have hrne : rest ≠ [] := by
            intro he
            rw [he] at hp
            simp at hp
          obtain ⟨h0, hbrest⟩ := branchLast_cons_elim c0 rest hrne hb
          have hlen : q < rest.length := by
            simp only [List.length_cons] at hp
            omega
          exact branchLast_cons_of c0 _ h0 (ih q hlen hbrest)

theorem branchLastL_append_end (l : List OpCode) (c : OpCode) :
    branchLastL l = true →
    (∀ x, l.getLast? = some x → x.isFlowBreak = false) →
    branchLastL (l ++ [c]) = true := by
  induction l with
  | nil =>
      intro _ _
      rfl
  | cons c0 rest ih =>
      intro hb hlast
      cases rest with
      | nil =>
          have h0 : c0.isFlowBreak = false := hlast c0 rfl
          rw [List.cons_append, List.nil_append]
          exact branchLast_cons_of c0 [c] h0 rfl
      | cons c1 t =>
          obtain ⟨h0, hbrest⟩ := branchLast_cons_elim c0 (c1 :: t) (by simp) hb
          have hlast2 : ∀ x, (c1 :: t).getLast? = some x → x.isFlowBreak = false := by
            intro x hx
            exact hlast x (by rw [List.getLast?_cons_cons]; exact hx)
          rw [List.cons_append]
          exact branchLast_cons_of c0 _ h0 (ih hbrest hlast2)

theorem branchLastL_insertIdx_lead (c : OpCode) (hc : c.isFlowBreak = false) :
    ∀ l : List OpCode, branchLastL l = true →
      branchLastL (l.insertIdx (leadPhiCountC l) c) = true := by
  intro l
  induction l with
  | nil =>
      intro _
      rfl
  | cons c0 rest ih =>
      intro hb
      by_cases h0 : c0 = OpCode.MULTIEQUAL
      · have hl : leadPhiCountC (c0 :: rest) = leadPhiCountC rest + 1 := by
          simp [leadPhiCountC, h0]
        rw [hl, List.insertIdx_succ_cons]
        have hbrest : branchLastL rest = true := by
          cases rest with
          | nil => rfl
          | cons c1 t => exact (branchLast_cons_elim c0 _ (by simp) hb).2
        have h0fb : c0.isFlowBreak = false := by
          rw [h0]
          decide
        exact branchLast_cons_of c0 _ h0fb (ih hbrest)
      · have hl : leadPhiCountC (c0 :: rest) = 0 := by
          simp [leadPhiCountC, h0]
        rw [hl, List.insertIdx_zero]
        exact branchLast_cons_of c _ hc hb

theorem leadPhiCountC_lt_of_last_nonphi :
    ∀ (l : List OpCode) (x : OpCode), l.getLast? = some x → x ≠ OpCode.MULTIEQUAL →
      leadPhiCountC l < l.length := by
  intro l
  induction l with
  | nil =>
      intro x hx
      simp at hx
  | cons c0 rest ih =>
      intro x hx hnx
      cases rest with
      | nil =>
          have hc0 : c0 = x := by
            simp at hx
            exact hx
          unfold leadPhiCountC
          rw [if_neg (hc0 ▸ hnx)]
          simp
      | cons c1 t =>
          have hx2 : (c1 :: t).getLast? = some x := by
            rw [List.getLast?_cons_cons] at hx
            exact hx
          have hlt := ih x hx2 hnx
          unfold leadPhiCountC
          split
          · simp only [List.length_cons] at *
            omega
          · simp

theorem map_insertIdx_opc (f : Nat → OpCode) :
    ∀ (l : List Nat) (p : Nat) (a : Nat),
      (l.insertIdx p a).map f = (l.map f).insertIdx p (f a) := by
  intro l
  induction l with
  | nil =>
      intro p a
      cases p with
      | zero => rfl
      | succ q => rfl
  | cons x t ih =>
      intro p a
      cases p with
      | zero => rfl
      | succ q =>
          rw [List.insertIdx_succ_cons, List.map_cons, List.map_cons,
            List.insertIdx_succ_cons, ih]

theorem insertIdx_eq_take_drop :
    ∀ (l : List Nat) (p : Nat) (a : Nat), p ≤ l.length →
      l.insertIdx p a = l.take p ++ a :: l.drop p := by
  intro l
  induction l with
  | nil =>
      intro p a hp
      have hp0 : p = 0 := Nat.le_zero.mp hp
      subst hp0
      rfl
  | cons x t ih =>
      intro p a hp
      cases p with
      | zero => rfl
      | succ q =>
          rw [List.insertIdx_succ_cons, ih q a (by simp only [List.length_cons] at hp; omega)]
          rfl

theorem getLast?_map_opc (f : Nat → OpCode) :
    ∀ l : List Nat, (l.map f).getLast? = l.getLast?.map f := by
  intro l
  induction l with
  | nil => rfl
  | cons x t ih =>
      cases t with
      | nil => rfl
      | cons y t2 =>
          rw [List.map_cons, List.map_cons, List.getLast?_cons_cons, ← List.map_cons, ih,
            List.getLast?_cons_cons]

theorem Funcdata.leadPhiCount_map (fd : Funcdata) :
    ∀ l : List Nat, fd.leadPhiCount l = leadPhiCountC (l.map (fun o => (fd.op o).opc)) := by
  intro l
  induction l with
  | nil => rfl
  | cons x t ih =>
      unfold Funcdata.leadPhiCount
      rw [List.map_cons]
      unfold leadPhiCountC
      rw [ih]

theorem Funcdata.oplist_opInsert (fd : Funcdata) (o bl pos : Nat)
    (hbl : bl < fd.blocks.length) :
    ((fd.opInsert o bl pos).block bl).oplist = (fd.block bl).oplist.insertIdx pos o := by
  unfold Funcdata.opInsert
  rw [Funcdata.block_updateBlock]
  rw [if_pos ⟨rfl, hbl⟩]
  rfl

theorem Funcdata.blockOpcs_opInsert (fd : Funcdata) (o bl pos : Nat)
    (hbl : bl < fd.blocks.length) :
    (fd.opInsert o bl pos).blockOpcs bl = (fd.blockOpcs bl).insertIdx pos ((fd.op o).opc) := by
  have hf : (fun j => ((fd.opInsert o bl pos).op j).opc) = (fun j => (fd.op j).opc) := by
    funext j
    show ((fd.updateOp o (fun p => { p with parent := some bl })).op j).opc = (fd.op j).opc
    rw [Funcdata.op_updateOp]
    split
    · next h => rw [h.1]
    · rfl
  unfold Funcdata.blockOpcs
  rw [Funcdata.oplist_opInsert fd o bl pos hbl]
  rw [hf]
  rw [map_insertIdx_opc]

theorem Funcdata.opInsertBegin_eq (fd : Funcdata) (o bl : Nat) :
    fd.opInsertBegin o bl = fd.opInsert o bl
      (if (fd.op o).opc = OpCode.MULTIEQUAL then 0
       else fd.leadPhiCount (fd.block bl).oplist) := rfl

theorem Funcdata.opInsertEnd_eq (fd : Funcdata) (o bl : Nat) :
    fd.opInsertEnd o bl = fd.opInsert o bl
      (if (fd.block bl).oplist.isEmpty then 0
       else if ((fd.op ((fd.block bl).oplist.getLast?.getD 0)).opc).isFlowBreak then
         (fd.block bl).oplist.length - 1
       else (fd.block bl).oplist.length) := rfl

theorem Funcdata.leadPhiCount_blockOpcs (fd : Funcdata) (bl : Nat) :
    fd.leadPhiCount (fd.block bl).oplist = leadPhiCountC (fd.blockOpcs bl) :=
  fd.leadPhiCount_map (fd.block bl).oplist

theorem Funcdata.blockOpcs_length (fd : Funcdata) (bl : Nat) :
    (fd.blockOpcs bl).length = (fd.block bl).oplist.length := by
  unfold Funcdata.blockOpcs
  rw [List.length_map]

theorem Funcdata.blockOpcs_getLast (fd : Funcdata) (bl : Nat) :
    (fd.blockOpcs bl).getLast? = ((fd.block bl).oplist.getLast?).map (fun o => (fd.op o).opc) :=
  getLast?_map_opc _ (fd.block bl).oplist

/-- C5 (amended): for a block satisfying the ordering invariant
(MULTIEQUAL ops first, a flow-break op only last), `opInsertBegin`
preserves the invariant provided the inserted op is a MULTIEQUAL or not a
flow-break op, placing a non-MULTIEQUAL after all the leading MULTIEQUALs;
and `opInsertEnd` preserves the invariant provided the inserted op is not
a MULTIEQUAL and is not a flow-break op when the block already ends in
one, placing the op immediately before a terminating flow-break op. -/
theorem opInsertBeginEnd_keep_order (fd : Funcdata) (o bl : Nat)
    (hbl : bl < fd.blocks.length)
    (hphis : phisFirstL (fd.blockOpcs bl) = true)
    (hbr : branchLastL (fd.blockOpcs bl) = true) :
    (((fd.op o).opc = OpCode.MULTIEQUAL ∨ ((fd.op o).opc).isFlowBreak = false) →
      phisFirstL ((fd.opInsertBegin o bl).blockOpcs bl) = true ∧
      branchLastL ((fd.opInsertBegin o bl).blockOpcs bl) = true) ∧
    ((fd.op o).opc ≠ OpCode.MULTIEQUAL →
      ((fd.opInsertBegin o bl).block bl).oplist =
        (fd.block bl).oplist.take (fd.leadPhiCount (fd.block bl).oplist) ++
          o :: (fd.block bl).oplist.drop (fd.leadPhiCount (fd.block bl).oplist)) ∧
    ((fd.op o).opc ≠ OpCode.MULTIEQUAL →
      (((fd.op o).opc).isFlowBreak = true →
        ∀ x, (fd.block bl).oplist.getLast? = some x →
          ((fd.op x).opc).isFlowBreak = false) →
      phisFirstL ((fd.opInsertEnd o bl).blockOpcs bl) = true ∧
      branchLastL ((fd.opInsertEnd o bl).blockOpcs bl) = true) ∧
    (∀ x, (fd.block bl).oplist.getLast? = some x →
      ((fd.op x).opc).isFlowBreak = true →
      ((fd.opInsertEnd o bl).block bl).oplist =
        (fd.block bl).oplist.take ((fd.block bl).oplist.length - 1) ++
          o :: (fd.block bl).oplist.drop ((fd.block bl).oplist.length - 1)) := by
  have hlen := fd.blockOpcs_length bl
  refine ⟨?_, ?_, ?_, ?_⟩
  · intro hop
    rw [Funcdata.opInsertBegin_eq, Funcdata.blockOpcs_opInsert fd o bl _ hbl]
    by_cases hphi : (fd.op o).opc = OpCode.MULTIEQUAL
    · rw [if_pos hphi, List.insertIdx_zero, hphi]
      constructor
      · rw [phisFirstL_cons_phi]
        exact hphis
      · exact branchLast_cons_of _ _ (by decide) hbr
    · have hcfb : ((fd.op o).opc).isFlowBreak = false := hop.resolve_left hphi
      rw [if_neg hphi, Funcdata.leadPhiCount_blockOpcs]
      constructor
      · exact phisFirstL_insertIdx _ hphi _ _ (le_refl _)
          (leadPhiCountC_le_length _) hphis
      · exact branchLastL_insertIdx_lead _ hcfb _ hbr
  · intro hphi
    rw [Funcdata.opInsertBegin_eq, if_neg hphi, Funcdata.oplist_opInsert fd o bl _ hbl]
    refine insertIdx_eq_take_drop _ _ _ ?_
    rw [Funcdata.leadPhiCount_blockOpcs, ← hlen]
    exact leadPhiCountC_le_length _
  · intro hphi hfbcond
    rw [Funcdata.opInsertEnd_eq, Funcdata.blockOpcs_opInsert fd o bl _ hbl]
    by_cases hemp : (fd.block bl).oplist.isEmpty = true
    · have hnil : (fd.block bl).oplist = [] := by
        cases hl : (fd.block bl).oplist with
        | nil => rfl
        | cons a t =>
            rw [hl] at hemp
            simp at hemp
      have hL0 : fd.blockOpcs bl = [] := by
        unfold Funcdata.blockOpcs
        rw [hnil]
        rfl
      rw [if_pos hemp, hL0, List.insertIdx_zero]
      constructor
      · rw [phisFirstL_cons_nonphi _ _ hphi]
        rfl
      · rfl
    · have hne : (fd.block bl).oplist ≠ [] := by
        intro h0
        rw [h0] at hemp
        exact hemp rfl
      obtain ⟨x, hx⟩ := Option.isSome_iff_exists.mp
        (Option.isSome_iff_ne_none.mpr (mt List.getLast?_eq_none_iff.mp hne))
      have hLlast : (fd.blockOpcs bl).getLast? = some ((fd.op x).opc) := by
        rw [Funcdata.blockOpcs_getLast, hx]
        rfl
      rw [if_neg hemp]
      by_cases hfb : ((fd.op ((fd.block bl).oplist.getLast?.getD 0)).opc).isFlowBreak = true
      · have hfbx : ((fd.op x).opc).isFlowBreak = true := by
          rw [hx] at hfb
          exact hfb
        have hcfb : ((fd.op o).opc).isFlowBreak = false := by
          cases hcf : ((fd.op o).opc).isFlowBreak with
          | false => rfl
          | true =>
              rw [hfbcond hcf x hx] at hfbx
              cases hfbx
        have hxnphi : (fd.op x).opc ≠ OpCode.MULTIEQUAL := by
          intro he
          rw [he] at hfbx
          cases hfbx
        have hltphi : leadPhiCountC (fd.blockOpcs bl) < (fd.blockOpcs bl).length :=
          leadPhiCountC_lt_of_last_nonphi _ _ hLlast hxnphi
        have hpos : 0 < (fd.block bl).oplist.length := List.length_pos.mpr hne
        rw [if_pos hfb]
        constructor
        · exact phisFirstL_insertIdx _ hphi _ _ (by omega) (by omega) hphis
        · exact branchLastL_insertIdx_lt _ hcfb _ _ (by omega) hbr
      · have hfbx : ((fd.op x).opc).isFlowBreak = false := by
          rw [hx] at hfb
          cases hcf : ((fd.op x).opc).isFlowBreak with
          | false => rfl
          | true => exact absurd hcf hfb
        rw [if_neg hfb, ← hlen, List.insertIdx_length_self]
        constructor
        · have hle : leadPhiCountC (fd.blockOpcs bl) ≤ (fd.blockOpcs bl).length :=
            leadPhiCountC_le_length _
          have := phisFirstL_insertIdx _ hphi (fd.blockOpcs bl) (fd.blockOpcs bl).length
            hle (le_refl _) hphis
          rw [List.insertIdx_length_self] at this
          exact this
        · refine branchLastL_append_end _ _ hbr ?_
          intro y hy
          rw [hLlast] at hy
          cases hy
          exact hfbx
  · intro x hx hfbx
    have hne : (fd.block bl).oplist ≠ [] := by
      intro h0
      rw [h0] at hx
      cases hx
    have hemp : ¬((fd.block bl).oplist.isEmpty = true) := by
      cases hl : (fd.block bl).oplist with
      | nil => exact absurd hl hne
      | cons a t => simp
    have hpos : 0 < (fd.block bl).oplist.length := List.length_pos.mpr hne
    rw [Funcdata.opInsertEnd_eq, if_neg hemp, if_pos (by rw [hx]; exact hfbx),
      Funcdata.oplist_opInsert fd o bl _ hbl]
    exact insertIdx_eq_take_drop _ _ _ (by omega)

/-- C5 counterexample: the block `[COPY]` satisfies the ordering invariant,
yet `opInsertEnd` of a detached MULTIEQUAL appends it after the COPY,
breaking the phis-first half of the invariant — `opInsertEnd` never moves
an op ahead of the existing block body. -/
theorem opInsertEnd_multiequal_breaks_phi_order :
    phisFirstL (c5Fd.blockOpcs 0) = true ∧
    branchLastL (c5Fd.blockOpcs 0) = true ∧
    (c5Fd.op 1).opc = OpCode.MULTIEQUAL ∧
    phisFirstL ((c5Fd.opInsertEnd 1 0).blockOpcs 0) = false := by
  refine ⟨by decide, by decide, by decide, by decide⟩

theorem opInsertBeginEnd_keep_order_witness :
    0 < c5WFd.blocks.length ∧
    phisFirstL (c5WFd.blockOpcs 0) = true ∧
    branchLastL (c5WFd.blockOpcs 0) = true ∧
    ((((c5WFd.op 3).opc = OpCode.MULTIEQUAL ∨ ((c5WFd.op 3).opc).isFlowBreak = false) →
      phisFirstL ((c5WFd.opInsertBegin 3 0).blockOpcs 0) = true ∧
      branchLastL ((c5WFd.opInsertBegin 3 0).blockOpcs 0) = true) ∧
    ((c5WFd.op 3).opc ≠ OpCode.MULTIEQUAL →
      ((c5WFd.opInsertBegin 3 0).block 0).oplist =
        (c5WFd.block 0).oplist.take (c5WFd.leadPhiCount (c5WFd.block 0).oplist) ++
          3 :: (c5WFd.block 0).oplist.drop (c5WFd.leadPhiCount (c5WFd.block 0).oplist)) ∧
    ((c5WFd.op 3).opc ≠ OpCode.MULTIEQUAL →
      (((c5WFd.op 3).opc).isFlowBreak = true →
        ∀ x, (c5WFd.block 0).oplist.getLast? = some x →
          ((c5WFd.op x).opc).isFlowBreak = false) →
      phisFirstL ((c5WFd.opInsertEnd 3 0).blockOpcs 0) = true ∧
      branchLastL ((c5WFd.opInsertEnd 3 0).blockOpcs 0) = true) ∧
    (∀ x, (c5WFd.block 0).oplist.getLast? = some x →
      ((c5WFd.op x).opc).isFlowBreak = true →
      ((c5WFd.opInsertEnd 3 0).block 0).oplist =
        (c5WFd.block 0).oplist.take ((c5WFd.block 0).oplist.length - 1) ++
          3 :: (c5WFd.block 0).oplist.drop ((c5WFd.block 0).oplist.length - 1))) :=
  ⟨by decide, by decide, by decide,
   opInsertBeginEnd_keep_order c5WFd 3 0 (by decide) (by decide) (by decide)⟩

/-! ### C9: the setInputVarnode interface -/

theorem spaceIdx_inj : ∀ s1 s2 : SpaceType, spaceIdx s1 = spaceIdx s2 → s1 = s2 := by
  intro s1 s2 h
  cases s1 <;> cases s2 <;> simp_all [spaceIdx]

theorem addrKeyLt_iff (s1 : SpaceType) (o1 : Nat) (s2 : SpaceType) (o2 : Nat) :
    addrKeyLt s1 o1 s2 o2 = true ↔
      (spaceIdx s1 < spaceIdx s2 ∨ (spaceIdx s1 = spaceIdx s2 ∧ o1 < o2)) := by
  simp [addrKeyLt]

theorem addrKeyLt_lt_of_lt_of_ge (s1 : SpaceType) (o1 : Nat) (s2 : SpaceType) (o2 : Nat)
    (s3 : SpaceType) (o3 : Nat) (h1 : addrKeyLt s1 o1 s2 o2 = true)
    (h2 : addrKeyLt s3 o3 s2 o2 = false) : addrKeyLt s1 o1 s3 o3 = true := by
  rw [addrKeyLt_iff] at h1 ⊢
  have h2' : ¬(spaceIdx s3 < spaceIdx s2 ∨ (spaceIdx s3 = spaceIdx s2 ∧ o3 < o2)) := by
    rw [← addrKeyLt_iff]
    simp [h2]
  omega

theorem addrKeyLt_trans (s1 : SpaceType) (o1 : Nat) (s2 : SpaceType) (o2 : Nat)
    (s3 : SpaceType) (o3 : Nat) (h1 : addrKeyLt s1 o1 s2 o2 = true)
    (h2 : addrKeyLt s2 o2 s3 o3 = true) : addrKeyLt s1 o1 s3 o3 = true := by
  rw [addrKeyLt_iff] at h1 h2 ⊢
  omega

theorem addrKeyLt_irrefl (s : SpaceType) (o : Nat) : addrKeyLt s o s o = false := by
  simp [addrKeyLt]

/-- Candidate for the input-predecessor scan: an input varnode whose
storage key lies strictly below the end key of varnode `v`. -/
def Funcdata.isPredCand (fd : Funcdata) (v i : Nat) : Prop :=
  (fd.vn i).input = true ∧
  addrKeyLt (fd.vn i).space (fd.vn i).offset (fd.vn v).space
    ((fd.vn v).offset + (fd.vn v).size) = true

theorem Funcdata.inputPredBy_none (fd : Funcdata) (v : Nat) :
    ∀ (l : List Nat) (acc : Option Nat), fd.inputPredBy v l acc = none →
      acc = none ∧ ∀ i ∈ l, ¬ fd.isPredCand v i := by
  intro l
  induction l with
  | nil =>
      intro acc h
      exact ⟨h, fun i hi => absurd hi (List.not_mem_nil i)⟩
  | cons i rest ih =>
      intro acc h
      unfold Funcdata.inputPredBy at h
      by_cases hc : (fd.vn i).input = true ∧
          addrKeyLt (fd.vn i).space (fd.vn i).offset (fd.vn v).space
            ((fd.vn v).offset + (fd.vn v).size) = true
      · rw [if_pos hc] at h
        cases acc with
        | none =>
            obtain ⟨hsome, _⟩ := ih _ h
            cases hsome
        | some j =>
            have h2 : (if addrKeyLt (fd.vn j).space (fd.vn j).offset (fd.vn i).space
                  (fd.vn i).offset = true then fd.inputPredBy v rest (some i)
                else fd.inputPredBy v rest (some j)) = none := h
            by_cases hlt : addrKeyLt (fd.vn j).space (fd.vn j).offset (fd.vn i).space
                (fd.vn i).offset = true
            · rw [if_pos hlt] at h2
              obtain ⟨hsome, _⟩ := ih _ h2
              cases hsome
            · rw [if_neg hlt] at h2
              obtain ⟨hsome, _⟩ := ih _ h2
              cases hsome
      · rw [if_neg hc] at h
        obtain ⟨hacc, hrest⟩ := ih _ h
        refine ⟨hacc, ?_⟩
        intro i2 hi2
        rcases List.mem_cons.mp hi2 with he | hm
        · subst he
          exact hc
        · exact hrest i2 hm

theorem Funcdata.inputPredBy_sound (fd : Funcdata) (v : Nat) :
    ∀ (l : List Nat) (acc : Option Nat) (j : Nat), fd.inputPredBy v l acc = some j →
      (j ∈ l ∧ fd.isPredCand v j) ∨ acc = some j := by
  intro l
  induction l with
  | nil =>
      intro acc j h
      exact Or.inr h
  | cons i rest ih =>
      intro acc j h
      unfold Funcdata.inputPredBy at h
      by_cases hc : (fd.vn i).input = true ∧
          addrKeyLt (fd.vn i).space (fd.vn i).offset (fd.vn v).space
            ((fd.vn v).offset + (fd.vn v).size) = true
      · rw [if_pos hc] at h
        cases acc with
        | none =>
            rcases ih _ _ h with ⟨hm, hcand⟩ | hacc
            · exact Or.inl ⟨List.mem_cons_of_mem i hm, hcand⟩
            · cases hacc
              exact Or.inl ⟨List.mem_cons_self i rest, hc⟩
        | some a =>
            have h2 : (if addrKeyLt (fd.vn a).space (fd.vn a).offset (fd.vn i).space
                  (fd.vn i).offset = true then fd.inputPredBy v rest (some i)
                else fd.inputPredBy v rest (some a)) = some j := h
            by_cases hlt : addrKeyLt (fd.vn a).space (fd.vn a).offset (fd.vn i).space
                (fd.vn i).offset = true
            · rw [if_pos hlt] at h2
              rcases ih _ _ h2 with ⟨hm, hcand⟩ | hacc
              · exact Or.inl ⟨List.mem_cons_of_mem i hm, hcand⟩
              · cases hacc
                exact Or.inl ⟨List.mem_cons_self i rest, hc⟩
            · rw [if_neg hlt] at h2
              rcases ih _ _ h2 with ⟨hm, hcand⟩ | hacc
              · exact Or.inl ⟨List.mem_cons_of_mem i hm, hcand⟩
              · exact Or.inr hacc
      · rw [if_neg hc] at h
        rcases ih _ _ h with ⟨hm, hcand⟩ | hacc
        · exact Or.inl ⟨List.mem_cons_of_mem i hm, hcand⟩
        · exact Or.inr hacc

theorem Funcdata.inputPredBy_max (fd : Funcdata) (v : Nat) :
    ∀ (l : List Nat) (acc : Option Nat) (j : Nat), fd.inputPredBy v l acc = some j →
      (∀ i ∈ l, fd.isPredCand v i →
        addrKeyLt (fd.vn j).space (fd.vn j).offset (fd.vn i).space (fd.vn i).offset
          = false) ∧
      (∀ a, acc = some a →
        addrKeyLt (fd.vn j).space (fd.vn j).offset (fd.vn a).space (fd.vn a).offset
          = false) := by
  intro l
  induction l with
  | nil =>
      intro acc j h
      refine ⟨fun i hi => absurd hi (List.not_mem_nil i), ?_⟩
      intro a ha
      have h2 : acc = some j := h
      rw [h2] at ha
      cases ha
      exact addrKeyLt_irrefl _ _
  | cons i rest ih =>
      intro acc j h
      unfold Funcdata.inputPredBy at h
      by_cases hc : (fd.vn i).input = true ∧
          addrKeyLt (fd.vn i).space (fd.vn i).offset (fd.vn v).space
            ((fd.vn v).offset + (fd.vn v).size) = true
      · rw [if_pos hc] at h
        cases acc with
        | none =>
            obtain ⟨hrest, hacc⟩ := ih _ _ h
            have hji : addrKeyLt (fd.vn j).space (fd.vn j).offset (fd.vn i).space
                (fd.vn i).offset = false := hacc i rfl
            refine ⟨?_, ?_⟩
            · intro i2 hi2 hcand
              rcases List.mem_cons.mp hi2 with he | hm
              · subst he
                exact hji
              · exact hrest i2 hm hcand
            · intro a ha
              cases ha
        | some a =>
            have h2 : (if addrKeyLt (fd.vn a).space (fd.vn a).offset (fd.vn i).space
                  (fd.vn i).offset = true then fd.inputPredBy v rest (some i)
                else fd.inputPredBy v rest (some a)) = some j := h
            by_cases hlt : addrKeyLt (fd.vn a).space (fd.vn a).offset (fd.vn i).space
                (fd.vn i).offset = true
            · rw [if_pos hlt] at h2
              obtain ⟨hrest, hacc⟩ := ih _ _ h2
              have hji : addrKeyLt (fd.vn j).space (fd.vn j).offset (fd.vn i).space
                  (fd.vn i).offset = false := hacc i rfl
              refine ⟨?_, ?_⟩
              · intro i2 hi2 hcand
                rcases List.mem_cons.mp hi2 with he | hm
                · subst he
                  exact hji
                · exact hrest i2 hm hcand
              · intro a2 ha2
                cases ha2
                cases hja : addrKeyLt (fd.vn j).space (fd.vn j).offset (fd.vn a).space
                    (fd.vn a).offset with
                | false => rfl
                | true =>
                    have htr := addrKeyLt_trans _ _ _ _ _ _ hja hlt
                    rw [htr] at hji
                    cases hji
            · rw [if_neg hlt] at h2
              obtain ⟨hrest, hacc⟩ := ih _ _ h2
              have hja : addrKeyLt (fd.vn j).space (fd.vn j).offset (fd.vn a).space
                  (fd.vn a).offset = false := hacc a rfl
              have hji : addrKeyLt (fd.vn j).space (fd.vn j).offset (fd.vn i).space
                  (fd.vn i).offset = false := by
                cases hj2 : addrKeyLt (fd.vn j).space (fd.vn j).offset (fd.vn i).space
                    (fd.vn i).offset with
                | false => rfl
                | true =>
                    have hlt2 : addrKeyLt (fd.vn a).space (fd.vn a).offset (fd.vn i).space
                        (fd.vn i).offset = false := by
                      simp [hlt]
                    have htr := addrKeyLt_lt_of_lt_of_ge _ _ _ _ _ _ hj2 hlt2
                    rw [htr] at hja
                    cases hja
              refine ⟨?_, ?_⟩
              · intro i2 hi2 hcand
                rcases List.mem_cons.mp hi2 with he | hm
                · subst he
                  exact hji
                · exact hrest i2 hm hcand
              · intro a2 ha2
                cases ha2
                exact hja
      · rw [if_neg hc] at h
        obtain ⟨hrest, hacc⟩ := ih _ _ h
        refine ⟨?_, hacc⟩
        intro i2 hi2 hcand
        rcases List.mem_cons.mp hi2 with he | hm
        · subst he
          exact absurd hcand hc
        · exact hrest i2 hm hcand

theorem Funcdata.inputPredecessor_none_spec (fd : Funcdata) (v : Nat)
    (h : fd.inputPredecessor v = none) :
    ∀ i, i < fd.vars.length → ¬ fd.isPredCand v i := by
  intro i hi
  exact (fd.inputPredBy_none v _ _ h).2 i (List.mem_range.mpr hi)

theorem Funcdata.inputPredecessor_some_spec (fd : Funcdata) (v j : Nat)
    (h : fd.inputPredecessor v = some j) :
    j < fd.vars.length ∧ fd.isPredCand v j := by
  rcases fd.inputPredBy_sound v _ _ _ h with ⟨hm, hcand⟩ | hacc
  · exact ⟨List.mem_range.mp hm, hcand⟩
  · cases hacc

theorem Funcdata.inputPredecessor_max_spec (fd : Funcdata) (v j : Nat)
    (h : fd.inputPredecessor v = some j) :
    ∀ i, i < fd.vars.length → fd.isPredCand v i →
      addrKeyLt (fd.vn j).space (fd.vn j).offset (fd.vn i).space (fd.vn i).offset
        = false := by
  intro i hi
  exact (fd.inputPredBy_max v _ _ _ h).1 i (List.mem_range.mpr hi)

theorem vnIntersects_symm (a b : Varnode) (h : vnIntersects a b) : vnIntersects b a := by
  obtain ⟨hs, h1, h2⟩ := h
  exact ⟨hs.symm, h2, h1⟩

theorem overlap_of_intersects (a b : Varnode) (h : vnIntersects a b) :
    overlapB a.space a.offset b.space b.offset b.size = true ∨
    overlapB b.space b.offset a.space a.offset a.size = true := by
  obtain ⟨hs, h1, h2⟩ := h
  by_cases hc : b.offset ≤ a.offset
  · left
    simp only [overlapB, decide_eq_true_eq]
    exact ⟨hs, hc, h1⟩
  · right
    simp only [overlapB, decide_eq_true_eq]
    exact ⟨hs.symm, by omega, h2⟩

theorem intersects_of_overlap (a b : Varnode)
    (h : overlapB a.space a.offset b.space b.offset b.size = true ∨
         overlapB b.space b.offset a.space a.offset a.size = true)
    (ha : 0 < a.size) (hb : 0 < b.size) : vnIntersects a b := by
  rcases h with h | h
  · simp only [overlapB, decide_eq_true_eq] at h
    exact ⟨h.1, by omega, by omega⟩
  · simp only [overlapB, decide_eq_true_eq] at h
    exact ⟨h.1.symm, by omega, by omega⟩

theorem Funcdata.inputPredecessor_intersects (fd : Funcdata) (v : Nat)
    (hsz : 0 < (fd.vn v).size)
    (hinsz : ∀ i ∈ List.range fd.vars.length, (fd.vn i).input = true → 0 < (fd.vn i).size)
    (hdisj : ∀ i ∈ List.range fd.vars.length, ∀ j ∈ List.range fd.vars.length, i ≠ j →
      (fd.vn i).input = true → (fd.vn j).input = true →
      ¬ vnIntersects (fd.vn i) (fd.vn j))
    (j : Nat) (hj : j < fd.vars.length) (hjin : (fd.vn j).input = true)
    (hjint : vnIntersects (fd.vn j) (fd.vn v)) :
    ∃ P, fd.inputPredecessor v = some P ∧ P < fd.vars.length ∧
      (fd.vn P).input = true ∧ vnIntersects (fd.vn P) (fd.vn v) := by
  obtain ⟨hjs, hj1, hj2⟩ := hjint
  have hcand : fd.isPredCand v j := by
    refine ⟨hjin, ?_⟩
    rw [addrKeyLt_iff]
    right
    exact ⟨congrArg spaceIdx hjs, hj1⟩
  cases hpred : fd.inputPredecessor v with
  | none => exact absurd hcand (fd.inputPredecessor_none_spec v hpred j hj)
  | some P =>
      have hPspec := fd.inputPredecessor_some_spec v P hpred
      have hPlen := hPspec.1
      have hPin := hPspec.2.1
      have hPk := hPspec.2.2
      by_cases hPj : P = j
      · subst hPj
        exact ⟨P, rfl, hPlen, hPin, ⟨hjs, hj1, hj2⟩⟩
      · have hmax := fd.inputPredecessor_max_spec v P hpred j hj hcand
        have hmax' : ¬(spaceIdx (fd.vn P).space < spaceIdx (fd.vn j).space ∨
            (spaceIdx (fd.vn P).space = spaceIdx (fd.vn j).space ∧
             (fd.vn P).offset < (fd.vn j).offset)) := by
          rw [← addrKeyLt_iff]
          simp [hmax]
        rw [addrKeyLt_iff] at hPk
        have hrj : spaceIdx (fd.vn j).space = spaceIdx (fd.vn v).space :=
          congrArg spaceIdx hjs
        have hrPv : spaceIdx (fd.vn P).space = spaceIdx (fd.vn v).space := by omega
        have hPs : (fd.vn P).space = (fd.vn v).space := spaceIdx_inj _ _ hrPv
        have hoPj : (fd.vn j).offset ≤ (fd.vn P).offset := by omega
        have hoPv : (fd.vn P).offset < (fd.vn v).offset + (fd.vn v).size := by omega
        have hszP : 0 < (fd.vn P).size := hinsz P (List.mem_range.mpr hPlen) hPin
        by_cases hOP : (fd.vn v).offset ≤ (fd.vn P).offset
        · exact ⟨P, rfl, hPlen, hPin, ⟨hPs, hoPv, by omega⟩⟩
        · have hPjint : vnIntersects (fd.vn P) (fd.vn j) := by
            refine ⟨hPs.trans hjs.symm, by omega, by omega⟩
          exact absurd hPjint (hdisj P (List.mem_range.mpr hPlen) j (List.mem_range.mpr hj)
            hPj hPin hjin)

/-- C9: the public behavior of `setInputVarnode` — a varnode already
marked as input is returned unchanged; when an existing input varnode has
exactly the storage address and size of the given one, that preexisting
input is returned with no state change; when an existing input varnode
intersects the given one without identical address and size, the
low-level error "Overlapping input varnodes" is raised; and otherwise the
varnode is marked as an input (keeping its storage and acquiring at most
the effect-derived properties) and returned, all other state unchanged. -/
theorem setInputVarnode_interface (fd : Funcdata) (v : Nat)
    (hv : v < fd.vars.length)
    (hsz : 0 < (fd.vn v).size)
    (hinsz : ∀ i ∈ List.range fd.vars.length, (fd.vn i).input = true → 0 < (fd.vn i).size)
    (hdisj : ∀ i ∈ List.range fd.vars.length, ∀ j ∈ List.range fd.vars.length, i ≠ j →
      (fd.vn i).input = true → (fd.vn j).input = true →
      ¬ vnIntersects (fd.vn i) (fd.vn j)) :
    ((fd.vn v).input = true → fd.setInputVarnode v = Except.ok (fd, v)) ∧
    ((fd.vn v).input = false →
      ∀ j, j < fd.vars.length → (fd.vn j).input = true →
        (fd.vn j).space = (fd.vn v).space → (fd.vn j).offset = (fd.vn v).offset →
        (fd.vn j).size = (fd.vn v).size →
        fd.setInputVarnode v = Except.ok (fd, j)) ∧
    ((fd.vn v).input = false →
      ∀ j, j < fd.vars.length → (fd.vn j).input = true →
        vnIntersects (fd.vn j) (fd.vn v) →
        ¬((fd.vn v).size = (fd.vn j).size ∧ (fd.vn v).space = (fd.vn j).space ∧
          (fd.vn v).offset = (fd.vn j).offset) →
        fd.setInputVarnode v = Except.error "Overlapping input varnodes") ∧
    ((fd.vn v).input = false →
      (∀ i, i < fd.vars.length → (fd.vn i).input = true →
        ¬ vnIntersects (fd.vn i) (fd.vn v)) →
      fd.setInputVarnode v = Except.ok (fd.markInput v, v) ∧
      ((fd.markInput v).vn v).input = true ∧
      ((fd.markInput v).vn v).space = (fd.vn v).space ∧
      ((fd.markInput v).vn v).offset = (fd.vn v).offset ∧
      ((fd.markInput v).vn v).size = (fd.vn v).size ∧
      (∀ i, i ≠ v → (fd.markInput v).vn i = fd.vn i) ∧
      (fd.markInput v).ops = fd.ops ∧ (fd.markInput v).blocks = fd.blocks) := by
  have hmv : (fd.markInput v).vn v = { fd.vn v with
      input := true
      unaffected := (fd.vn v).unaffected
        || decide (fd.hasEffectAt (fd.vn v).space (fd.vn v).offset (fd.vn v).size = 1)
        || decide (fd.hasEffectAt (fd.vn v).space (fd.vn v).offset (fd.vn v).size = 3)
      returnaddress := (fd.vn v).returnaddress
        || decide (fd.hasEffectAt (fd.vn v).space (fd.vn v).offset (fd.vn v).size = 3) } := by
    unfold Funcdata.markInput
    rw [Funcdata.vn_updateVn]
    rw [if_pos ⟨rfl, hv⟩]
  have hmvframe : ∀ i, i ≠ v → (fd.markInput v).vn i = fd.vn i := by
    intro i hi
    unfold Funcdata.markInput
    rw [Funcdata.vn_updateVn]
    rw [if_neg (by intro hcc; exact hi hcc.1.symm)]
  refine ⟨?_, ?_, ?_, ?_⟩
  · intro hin
    unfold Funcdata.setInputVarnode
    rw [if_pos hin]
  · intro hin j hj hjin hjs hjo hjsz
    have hjint : vnIntersects (fd.vn j) (fd.vn v) := ⟨hjs, by omega, by omega⟩
    obtain ⟨P, hpred, hPlen, hPin, hPint⟩ :=
      fd.inputPredecessor_intersects v hsz hinsz hdisj j hj hjin hjint
    have hPj : P = j := by
      by_cases hPj : P = j
      · exact hPj
      · obtain ⟨hPs, hP1, hP2⟩ := hPint
        have hPjint : vnIntersects (fd.vn P) (fd.vn j) := by
          refine ⟨hPs.trans hjs.symm, by omega, by omega⟩
        exact absurd hPjint (hdisj P (List.mem_range.mpr hPlen) j (List.mem_range.mpr hj)
          hPj hPin hjin)
    subst hPj
    unfold Funcdata.setInputVarnode
    rw [if_neg (by simp [hin])]
    rw [hpred]
    show (if overlapB (fd.vn v).space (fd.vn v).offset (fd.vn P).space (fd.vn P).offset
          (fd.vn P).size = true ∨
        overlapB (fd.vn P).space (fd.vn P).offset (fd.vn v).space (fd.vn v).offset
          (fd.vn v).size = true then
        (if (fd.vn v).size = (fd.vn P).size ∧ (fd.vn v).space = (fd.vn P).space ∧
            (fd.vn v).offset = (fd.vn P).offset then Except.ok (fd, P)
         else Except.error "Overlapping input varnodes")
      else Except.ok (fd.markInput v, v)) = Except.ok (fd, P)
    rw [if_pos (Or.inl (by
      simp only [overlapB, decide_eq_true_eq]
      exact ⟨hjs.symm, by omega, by omega⟩))]
    rw [if_pos ⟨hjsz.symm, hjs.symm, hjo.symm⟩]
  · intro hin j hj hjin hjint hnident
    obtain ⟨P, hpred, hPlen, hPin, hPint⟩ :=
      fd.inputPredecessor_intersects v hsz hinsz hdisj j hj hjin hjint
    have hPnident : ¬((fd.vn v).size = (fd.vn P).size ∧ (fd.vn v).space = (fd.vn P).space ∧
        (fd.vn v).offset = (fd.vn P).offset) := by
      intro hPident
      obtain ⟨hesz, hes, heo⟩ := hPident
      by_cases hPj : P = j
      · subst hPj
        exact hnident ⟨hesz, hes, heo⟩
      · obtain ⟨hjs, hj1, hj2⟩ := hjint
        have hjPint : vnIntersects (fd.vn j) (fd.vn P) := by
          refine ⟨hjs.trans hes, by omega, by omega⟩
        exact absurd hjPint (hdisj j (List.mem_range.mpr hj) P (List.mem_range.mpr hPlen)
          (fun he => hPj he.symm) hjin hPin)
    unfold Funcdata.setInputVarnode
    rw [if_neg (by simp [hin])]
    rw [hpred]
    show (if overlapB (fd.vn v).space (fd.vn v).offset (fd.vn P).space (fd.vn P).offset
          (fd.vn P).size = true ∨
        overlapB (fd.vn P).space (fd.vn P).offset (fd.vn v).space (fd.vn v).offset
          (fd.vn v).size = true then
        (if (fd.vn v).size = (fd.vn P).size ∧ (fd.vn v).space = (fd.vn P).space ∧
            (fd.vn v).offset = (fd.vn P).offset then Except.ok (fd, P)
         else Except.error "Overlapping input varnodes")
      else Except.ok (fd.markInput v, v)) = Except.error "Overlapping input varnodes"
    rw [if_pos (Or.symm (overlap_of_intersects _ _ hPint))]
    rw [if_neg hPnident]
  · intro hin hno
    refine ⟨?_, by rw [hmv], by rw [hmv], by rw [hmv], by rw [hmv], hmvframe, rfl, rfl⟩
    unfold Funcdata.setInputVarnode
    rw [if_neg (by simp [hin])]
    cases hpred : fd.inputPredecessor v with
    | none => rfl
    | some P =>
        have hPspec := fd.inputPredecessor_some_spec v P hpred
        have hPlen := hPspec.1
        have hPin := hPspec.2.1
        have hPk := hPspec.2.2
        have hszP : 0 < (fd.vn P).size := hinsz P (List.mem_range.mpr hPlen) hPin
        show (if overlapB (fd.vn v).space (fd.vn v).offset (fd.vn P).space (fd.vn P).offset
              (fd.vn P).size = true ∨
            overlapB (fd.vn P).space (fd.vn P).offset (fd.vn v).space (fd.vn v).offset
              (fd.vn v).size = true then
            (if (fd.vn v).size = (fd.vn P).size ∧ (fd.vn v).space = (fd.vn P).space ∧
                (fd.vn v).offset = (fd.vn P).offset then Except.ok (fd, P)
             else Except.error "Overlapping input varnodes")
          else Except.ok (fd.markInput v, v)) = Except.ok (fd.markInput v, v)
        rw [if_neg ?hnov]
        case hnov =>
          intro hov
          have hint := intersects_of_overlap _ _ hov hsz hszP
          exact hno P hPlen hPin (vnIntersects_symm _ _ hint)

theorem setInputVarnode_interface_witness :
    1 < c9WFd.vars.length ∧ 0 < (c9WFd.vn 1).size ∧
    (((c9WFd.vn 1).input = true → c9WFd.setInputVarnode 1 = Except.ok (c9WFd, 1)) ∧
    ((c9WFd.vn 1).input = false →
      ∀ j, j < c9WFd.vars.length → (c9WFd.vn j).input = true →
        (c9WFd.vn j).space = (c9WFd.vn 1).space →
        (c9WFd.vn j).offset = (c9WFd.vn 1).offset →
        (c9WFd.vn j).size = (c9WFd.vn 1).size →
        c9WFd.setInputVarnode 1 = Except.ok (c9WFd, j)) ∧
    ((c9WFd.vn 1).input = false →
      ∀ j, j < c9WFd.vars.length → (c9WFd.vn j).input = true →
        vnIntersects (c9WFd.vn j) (c9WFd.vn 1) →
        ¬((c9WFd.vn 1).size = (c9WFd.vn j).size ∧
          (c9WFd.vn 1).space = (c9WFd.vn j).space ∧
          (c9WFd.vn 1).offset = (c9WFd.vn j).offset) →
        c9WFd.setInputVarnode 1 = Except.error "Overlapping input varnodes") ∧
    ((c9WFd.vn 1).input = false →
      (∀ i, i < c9WFd.vars.length → (c9WFd.vn i).input = true →
        ¬ vnIntersects (c9WFd.vn i) (c9WFd.vn 1)) →
      c9WFd.setInputVarnode 1 = Except.ok (c9WFd.markInput 1, 1) ∧
      ((c9WFd.markInput 1).vn 1).input = true ∧
      ((c9WFd.markInput 1).vn 1).space = (c9WFd.vn 1).space ∧
      ((c9WFd.markInput 1).vn 1).offset = (c9WFd.vn 1).offset ∧
      ((c9WFd.markInput 1).vn 1).size = (c9WFd.vn 1).size ∧
      (∀ i, i ≠ 1 → (c9WFd.markInput 1).vn i = c9WFd.vn i) ∧
      (c9WFd.markInput 1).ops = c9WFd.ops ∧ (c9WFd.markInput 1).blocks = c9WFd.blocks)) :=
  ⟨by decide, by decide,
   setInputVarnode_interface c9WFd 1 (by decide) (by decide) (by decide) (by decide)⟩

/-! ### C8: bounded recursion of ancestorOpUse -/

/-- C8: `ancestorOpUse` terminates for every input, cyclic data-flow
included: at `maxlevel = 0` it returns false immediately for every store,
varnode, op and trial, and every recursive call passes `maxlevel - 1`, so
on the store whose varnode is defined by a MULTIEQUAL reading itself in
both slots (a data-flow cycle) the walk still returns after at most
`maxlevel` levels, with result false, for every `maxlevel`. -/
theorem ancestorOpUse_bounded_recursion :
    (∀ (fd : Funcdata) (invn op : Nat) (trial : ParamTrial),
      fd.ancestorOpUse 0 invn op trial = (false, trial)) ∧
    (∀ (maxlevel : Nat) (trial : ParamTrial),
      c8Fd.ancestorOpUse maxlevel 0 1 trial = (false, trial)) := by
  refine ⟨fun fd invn op trial => rfl, ?_⟩
  intro maxlevel
  induction maxlevel with
  | zero =>
      intro trial
      rfl
  | succ n ih =>
      intro trial
      have hstep : c8Fd.ancestorOpUse (n + 1) 0 1 trial =
          (c8Fd.op 0).inputs.foldl
            (fun acc iv => if acc.fst = true then acc
              else c8Fd.ancestorOpUse n (iv.getD 0) 1 acc.snd)
            (false, trial) := rfl
      rw [hstep]
      show List.foldl _ (false, trial) [some 0, some 0] = (false, trial)
      rw [List.foldl_cons]
      show List.foldl _ (c8Fd.ancestorOpUse n 0 1 trial) [some 0] = (false, trial)
      rw [ih trial, List.foldl_cons]
      show List.foldl _ (c8Fd.ancestorOpUse n 0 1 trial) [] = (false, trial)
      rw [ih trial, List.foldl_nil]

/-! ### C10: constants are never linked into marker inputs -/

theorem OpCode.isMarker_iff (c : OpCode) :
    c.isMarker = true ↔ c = OpCode.MULTIEQUAL ∨ c = OpCode.INDIRECT := by
  cases c <;> simp [OpCode.isMarker]

theorem Funcdata.op_oob (fd : Funcdata) (o : Nat) (h : fd.ops.length ≤ o) :
    fd.op o = default := by
  unfold Funcdata.op
  rw [List.get?_eq_getElem?, List.getElem?_eq_none h]
  rfl

theorem PcodeOp.getIn_oob (p : PcodeOp) (slot : Nat) (h : p.inputs.length ≤ slot) :
    p.getIn slot = none := by
  unfold PcodeOp.getIn
  rw [List.get?_eq_getElem?, List.getElem?_eq_none h]
  rfl

/-- All linked input varnode indices refer into the store. -/
def Funcdata.linksClosed (fd : Funcdata) : Prop :=
  ∀ o ∈ List.range fd.ops.length, ∀ slot ∈ List.range (fd.op o).inputs.length,
    ∀ w ∈ ((fd.op o).getIn slot).toList, w < fd.vars.length

/-- No MULTIEQUAL or INDIRECT op reads a constant varnode directly. -/
def Funcdata.noConstMarker (fd : Funcdata) : Prop :=
  ∀ o ∈ List.range fd.ops.length, ((fd.op o).opc).isMarker = true →
    ∀ slot ∈ List.range (fd.op o).inputs.length,
      ∀ w ∈ ((fd.op o).getIn slot).toList, (fd.vn w).isConstant = false

instance (fd : Funcdata) : Decidable fd.linksClosed :=
  inferInstanceAs (Decidable (∀ o ∈ List.range fd.ops.length,
    ∀ slot ∈ List.range (fd.op o).inputs.length,
    ∀ w ∈ ((fd.op o).getIn slot).toList, w < fd.vars.length))

instance (fd : Funcdata) : Decidable fd.noConstMarker :=
  inferInstanceAs (Decidable (∀ o ∈ List.range fd.ops.length,
    ((fd.op o).opc).isMarker = true →
    ∀ slot ∈ List.range (fd.op o).inputs.length,
      ∀ w ∈ ((fd.op o).getIn slot).toList, (fd.vn w).isConstant = false))

theorem Funcdata.linksClosed_all (fd : Funcdata) (h : fd.linksClosed) :
    ∀ o slot w, (fd.op o).getIn slot = some w → w < fd.vars.length := by
  intro o slot w hw
  by_cases ho : o < fd.ops.length
  · by_cases hs : slot < (fd.op o).inputs.length
    · exact h o (List.mem_range.mpr ho) slot (List.mem_range.mpr hs) w
        (by rw [hw]; simp)
    · rw [PcodeOp.getIn_oob _ _ (Nat.le_of_not_lt hs)] at hw
      cases hw
  · rw [Funcdata.op_oob fd o (Nat.le_of_not_lt ho)] at hw
    cases hw
theorem Funcdata.linksClosed_of_all (fd : Funcdata)
    (h : ∀ o slot w, (fd.op o).getIn slot = some w → w < fd.vars.length) :
    fd.linksClosed := by
  intro o _ slot _ w hw
  simp only [Option.mem_toList, Option.mem_def] at hw
  exact h o slot w hw

theorem Funcdata.noConstMarker_all (fd : Funcdata) (h : fd.noConstMarker) :
    ∀ o, ((fd.op o).opc).isMarker = true →
      ∀ slot w, (fd.op o).getIn slot = some w → (fd.vn w).isConstant = false := by
  intro o hm slot w hw
  by_cases ho : o < fd.ops.length
  · by_cases hs : slot < (fd.op o).inputs.length
    · exact h o (List.mem_range.mpr ho) hm slot (List.mem_range.mpr hs) w
        (by rw [hw]; simp)
    · rw [PcodeOp.getIn_oob _ _ (Nat.le_of_not_lt hs)] at hw
      cases hw
  · rw [Funcdata.op_oob fd o (Nat.le_of_not_lt ho)] at hw
    cases hw

theorem Funcdata.noConstMarker_of_all (fd : Funcdata)
    (h : ∀ o, ((fd.op o).opc).isMarker = true →
      ∀ slot w, (fd.op o).getIn slot = some w → (fd.vn w).isConstant = false) :
    fd.noConstMarker := by
  intro o _ hm slot _ w hw
  simp only [Option.mem_toList, Option.mem_def] at hw
  exact h o hm slot w hw

@[simp] theorem Funcdata.snd_newOp (fd : Funcdata) (k : Nat) (a : Address) :
    (fd.newOp k a).snd = fd.ops.length := rfl

@[simp] theorem Funcdata.vn_newOp (fd : Funcdata) (k : Nat) (a : Address) (i : Nat) :
    (fd.newOp k a).fst.vn i = fd.vn i := rfl

@[simp] theorem Funcdata.varsLength_newOp (fd : Funcdata) (k : Nat) (a : Address) :
    (fd.newOp k a).fst.vars.length = fd.vars.length := rfl

@[simp] theorem Funcdata.opsLength_newOp (fd : Funcdata) (k : Nat) (a : Address) :
    (fd.newOp k a).fst.ops.length = fd.ops.length + 1 := by
  simp [Funcdata.newOp]

theorem Funcdata.op_newOp (fd : Funcdata) (k : Nat) (a : Address) (i : Nat) :
    (fd.newOp k a).fst.op i =
      if i = fd.ops.length then { addr := a, inputs := List.replicate k none }
      else fd.op i := by
  unfold Funcdata.newOp
  exact fd.op_appendOp _ i

@[simp] theorem Funcdata.snd_newUnique (fd : Funcdata) (s : Nat) :
    (fd.newUnique s).snd = fd.vars.length := rfl

@[simp] theorem Funcdata.op_newUnique (fd : Funcdata) (s i : Nat) :
    (fd.newUnique s).fst.op i = fd.op i := rfl

@[simp] theorem Funcdata.opsLength_newUnique (fd : Funcdata) (s : Nat) :
    (fd.newUnique s).fst.ops.length = fd.ops.length := rfl

@[simp] theorem Funcdata.varsLength_newUnique (fd : Funcdata) (s : Nat) :
    (fd.newUnique s).fst.vars.length = fd.vars.length + 1 := by
  simp [Funcdata.newUnique]

theorem Funcdata.vn_newUnique (fd : Funcdata) (s i : Nat) :
    (fd.newUnique s).fst.vn i =
      if i = fd.vars.length then
        { space := SpaceType.internal, offset := fd.uniqbase, size := s }
      else fd.vn i :=
  fd.vn_appendVar _ i

@[simp] theorem Funcdata.snd_newUniqueOut (fd : Funcdata) (s o : Nat) :
    (fd.newUniqueOut s o).snd = fd.vars.length := rfl

@[simp] theorem Funcdata.opsLength_newUniqueOut (fd : Funcdata) (s o : Nat) :
    (fd.newUniqueOut s o).fst.ops.length = fd.ops.length := by
  simp [Funcdata.newUniqueOut]

@[simp] theorem Funcdata.varsLength_newUniqueOut (fd : Funcdata) (s o : Nat) :
    (fd.newUniqueOut s o).fst.vars.length = fd.vars.length + 1 := by
  simp [Funcdata.newUniqueOut]

theorem Funcdata.opc_newUniqueOut (fd : Funcdata) (s o i : Nat) :
    ((fd.newUniqueOut s o).fst.op i).opc = (fd.op i).opc := by
  unfold Funcdata.newUniqueOut
  rw [Funcdata.op_updateOp]
  split
  · next h =>
      rw [h.1]
      rfl
  · rfl

theorem Funcdata.getIn_newUniqueOut (fd : Funcdata) (s o i s2 : Nat) :
    ((fd.newUniqueOut s o).fst.op i).getIn s2 = (fd.op i).getIn s2 := by
  unfold Funcdata.newUniqueOut
  rw [Funcdata.op_updateOp]
  split
  · next h =>
      rw [h.1]
      rfl
  · rfl

theorem Funcdata.vn_newUniqueOut (fd : Funcdata) (s o i : Nat) :
    (fd.newUniqueOut s o).fst.vn i =
      if i = fd.vars.length then
        { space := SpaceType.internal, offset := fd.uniqbase, size := s, defOp := some o }
      else fd.vn i := by
  unfold Funcdata.newUniqueOut
  rw [Funcdata.vn_updateOp, Funcdata.vn_updateVn]
  by_cases h : i = fd.vars.length
  · subst h
    rw [if_pos ⟨rfl, by simp⟩]
    have hself : (fd.newUnique s).fst.vn (fd.newUnique s).snd =
        { space := SpaceType.internal, offset := fd.uniqbase, size := s } := by
      rw [Funcdata.vn_newUnique]
      simp
    rw [hself]
    rw [if_pos rfl]
  · rw [if_neg (by simp; omega)]
    rw [Funcdata.vn_newUnique]
    rw [if_neg h, if_neg h]

theorem Funcdata.opc_opSetOpcode (fd : Funcdata) (o : Nat) (c : OpCode) (i : Nat) :
    ((fd.opSetOpcode o c).op i).opc =
      if o = i ∧ o < fd.ops.length then c else (fd.op i).opc := by
  unfold Funcdata.opSetOpcode
  rw [Funcdata.op_updateOp]
  split
  · rfl
  · rfl

theorem Funcdata.getIn_opSetOpcode (fd : Funcdata) (o : Nat) (c : OpCode) (i s2 : Nat) :
    ((fd.opSetOpcode o c).op i).getIn s2 = (fd.op i).getIn s2 := by
  unfold Funcdata.opSetOpcode
  rw [Funcdata.op_updateOp]
  split
  · next h =>
      rw [h.1]
      rfl
  · rfl

@[simp] theorem Funcdata.vn_opInsert (fd : Funcdata) (o bl pos i : Nat) :
    (fd.opInsert o bl pos).vn i = fd.vn i := rfl

@[simp] theorem Funcdata.varsLength_opInsert (fd : Funcdata) (o bl pos : Nat) :
    (fd.opInsert o bl pos).vars.length = fd.vars.length := rfl

@[simp] theorem Funcdata.opsLength_opInsert (fd : Funcdata) (o bl pos : Nat) :
    (fd.opInsert o bl pos).ops.length = fd.ops.length := by
  simp [Funcdata.opInsert, Funcdata.updateOp, Funcdata.updateBlock]

theorem Funcdata.opc_opInsert (fd : Funcdata) (o bl pos i : Nat) :
    ((fd.opInsert o bl pos).op i).opc = (fd.op i).opc := by
  unfold Funcdata.opInsert
  show ((fd.updateOp o (fun p => { p with parent := some bl })).op i).opc = (fd.op i).opc
  rw [Funcdata.op_updateOp]
  split
  · next h => rw [h.1]
  · rfl

theorem Funcdata.getIn_opInsert (fd : Funcdata) (o bl pos i s2 : Nat) :
    ((fd.opInsert o bl pos).op i).getIn s2 = (fd.op i).getIn s2 := by
  unfold Funcdata.opInsert
  show ((fd.updateOp o (fun p => { p with parent := some bl })).op i).getIn s2
    = (fd.op i).getIn s2
  rw [Funcdata.op_updateOp]
  split
  · next h =>
      rw [h.1]
      rfl
  · rfl

theorem Funcdata.opInsertBefore_eq (fd : Funcdata) (o follow : Nat) :
    fd.opInsertBefore o follow = fd.opInsert o ((fd.op follow).parent.getD 0)
      (if (fd.op o).opc = OpCode.INDIRECT then
        ((fd.block ((fd.op follow).parent.getD 0)).oplist.indexOf follow)
       else fd.backOverIndirects (fd.block ((fd.op follow).parent.getD 0)).oplist
        ((fd.block ((fd.op follow).parent.getD 0)).oplist.indexOf follow)) := rfl

theorem Funcdata.opInsertAfter_frame (fd : Funcdata) (o prev : Nat) :
    ∃ bl pos, fd.opInsertAfter o prev = fd.opInsert o bl pos := by
  unfold Funcdata.opInsertAfter
  exact ⟨_, _, rfl⟩

theorem PcodeOp.getIn_set_ne (p : PcodeOp) (slot s2 : Nat) (x : Option Nat)
    (h : s2 ≠ slot) :
    ({ p with inputs := p.inputs.set slot x } : PcodeOp).getIn s2 = p.getIn s2 := by
  unfold PcodeOp.getIn
  show ((p.inputs.set slot x).get? s2).bind id = (p.inputs.get? s2).bind id
  rw [List.get?_eq_getElem?, List.get?_eq_getElem?, List.getElem?_set_ne (Ne.symm h)]

/-- Full frame of a successful `opUnsetInput`: sizes, storage spaces,
opcodes and all other input links are untouched. -/
theorem Funcdata.opUnsetInput_spec (fd : Funcdata) (o slot : Nat) (fd2 : Funcdata)
    (h : fd.opUnsetInput o slot = Except.ok fd2) :
    fd2.vars.length = fd.vars.length ∧
    fd2.ops.length = fd.ops.length ∧
    (∀ i, (fd2.vn i).space = (fd.vn i).space) ∧
    (∀ j, (fd2.op j).opc = (fd.op j).opc) ∧
    (∀ j s2, ¬(j = o ∧ s2 = slot) → (fd2.op j).getIn s2 = (fd.op j).getIn s2) := by
  unfold Funcdata.opUnsetInput at h
  split at h
  · cases h
    refine ⟨rfl, by simp, fun i => rfl, ?_, ?_⟩
    · intro j
      rw [Funcdata.op_updateOp]
      split
      · next hc => rw [hc.1]
      · rfl
    · intro j s2 hne
      rw [Funcdata.op_updateOp]
      split
      · next hc =>
          have hs2 : s2 ≠ slot := fun he => hne ⟨hc.1.symm, he⟩
          rw [PcodeOp.getIn_set_ne _ _ _ _ hs2, hc.1]
      · rfl
  · rename_i w hg
    unfold Funcdata.eraseDescend at h
    split at h
    · simp at h
    · rename_i fd1 he
      cases h
      split at he
      · simp at he
      rename_i l he2
      cases he
      refine ⟨by simp, by simp, ?_, ?_, ?_⟩
      · intro i
        rw [Funcdata.vn_updateOp, Funcdata.vn_updateVn]
        split
        · next hc =>
            rw [hc.1]
        · rfl
      · intro j
        rw [Funcdata.op_updateOp]
        split
        · next hc =>
            rw [hc.1]
            rfl
        · rfl
      · intro j s2 hne
        rw [Funcdata.op_updateOp]
        split
        · next hc =>
            have hs2 : s2 ≠ slot := fun he => hne ⟨hc.1.symm, he⟩
            rw [PcodeOp.getIn_set_ne _ _ _ _ hs2, hc.1]
            rfl
        · rfl

/-- The varnode index actually linked by the duplication step stays inside
the store and is constant only if the requested varnode was. -/
theorem Funcdata.opSetInputDup_link (fd : Funcdata) (v : Nat) (hv : v < fd.vars.length) :
    fd.vars.length ≤ (fd.opSetInputDup v).fst.vars.length ∧
    (fd.opSetInputDup v).snd < (fd.opSetInputDup v).fst.vars.length ∧
    (((fd.opSetInputDup v).fst.vn (fd.opSetInputDup v).snd).isConstant = true →
      (fd.vn v).isConstant = true) ∧
    (∀ w, w < fd.vars.length → (fd.opSetInputDup v).fst.vn w = fd.vn w) := by
  unfold Funcdata.opSetInputDup
  split
  · next hC =>
      refine ⟨by simp, by simp, ?_, ?_⟩
      · intro _
        exact hC.1
      · intro w hw
        rw [Funcdata.vn_updateVn]
        rw [if_neg (by simp; omega)]
        rw [Funcdata.vn_newConstant]
        rw [if_neg (by omega)]
  · exact ⟨le_refl _, hv, fun hc => hc, fun w _ => rfl⟩

/-- Full frame of a successful `opSetInput`: opcodes are untouched, all
other input links are untouched, existing varnode storages are untouched,
and the varnode linked into the requested slot is in range and constant
only if the requested varnode was constant. -/
theorem Funcdata.opSetInput_spec (fd : Funcdata) (o v slot : Nat) (fd4 : Funcdata)
    (hv : v < fd.vars.length)
    (h : fd.opSetInput o v slot = Except.ok fd4) :
    fd.vars.length ≤ fd4.vars.length ∧
    fd4.ops.length = fd.ops.length ∧
    (∀ w, w < fd.vars.length → (fd4.vn w).space = (fd.vn w).space) ∧
    (∀ j, (fd4.op j).opc = (fd.op j).opc) ∧
    (∀ j s2, ¬(j = o ∧ s2 = slot) → (fd4.op j).getIn s2 = (fd.op j).getIn s2) ∧
    (∀ w', (fd4.op o).getIn slot = some w' →
      w' < fd4.vars.length ∧ ((fd4.vn w').isConstant = true → (fd.vn v).isConstant = true)) := by
  obtain ⟨hd1, hd2, hd3, hd4⟩ := fd.opSetInputDup_link v hv
  unfold Funcdata.opSetInput at h
  split at h
  · next h0 =>
      cases h
      refine ⟨le_refl _, rfl, fun w _ => rfl, fun j => rfl, fun j s2 _ => rfl, ?_⟩
      intro w' hw'
      rw [h0] at hw'
      cases hw'
      exact ⟨hv, fun hc => hc⟩
  · next h0 =>
      split at h
      · cases h
      · rename_i fd2 hfd2
        cases h
        have hfd2spec : fd2.vars.length = (fd.opSetInputDup v).fst.vars.length ∧
            fd2.ops.length = (fd.opSetInputDup v).fst.ops.length ∧
            (∀ i, (fd2.vn i).space = ((fd.opSetInputDup v).fst.vn i).space) ∧
            (∀ j, (fd2.op j).opc = ((fd.opSetInputDup v).fst.op j).opc) ∧
            (∀ j s2, ¬(j = o ∧ s2 = slot) →
              (fd2.op j).getIn s2 = ((fd.opSetInputDup v).fst.op j).getIn s2) := by
          split at hfd2
          · exact (fd.opSetInputDup v).fst.opUnsetInput_spec o slot fd2 hfd2
          · cases hfd2
            exact ⟨rfl, rfl, fun i => rfl, fun j => rfl, fun j s2 _ => rfl⟩
        obtain ⟨hf1, hf2, hf3, hf4, hf5⟩ := hfd2spec
        have hvn2 : ∀ i, (fd2.vn i).space = ((fd.opSetInputDup v).fst.vn i).space := hf3
        have hdlen : ∀ i, ((fd2.addDescend (fd.opSetInputDup v).snd o).vn i).space
            = (fd2.vn i).space := by
          intro i
          rw [Funcdata.vn_addDescend]
          split
          · next hc => rw [hc.1]
          · rfl
        refine ⟨?_, ?_, ?_, ?_, ?_, ?_⟩
        · show fd.vars.length ≤
            ((fd2.addDescend (fd.opSetInputDup v).snd o).updateOp o _).vars.length
          simp only [Funcdata.varsLength_updateOp, Funcdata.varsLength_addDescend]
          omega
        · simp only [Funcdata.opsLength_updateOp, Funcdata.opsLength_addDescend]
          rw [hf2]
          simp
        · intro w hw
          rw [Funcdata.vn_updateOp, hdlen, hvn2, hd4 w hw]
        · intro j
          rw [Funcdata.op_updateOp]
          split
          · next hc =>
              rw [hc.1]
              show ((fd2.addDescend (fd.opSetInputDup v).snd o).op j).opc = (fd.op j).opc
              rw [Funcdata.op_addDescend, hf4]
              rw [Funcdata.op_opSetInputDup]
          · show ((fd2.addDescend (fd.opSetInputDup v).snd o).op j).opc = (fd.op j).opc
            rw [Funcdata.op_addDescend, hf4]
            rw [Funcdata.op_opSetInputDup]
        · intro j s2 hne
          rw [Funcdata.op_updateOp]
          split
          · next hc =>
              have hs2 : s2 ≠ slot := fun he => hne ⟨hc.1.symm, he⟩
              rw [PcodeOp.getIn_set_ne _ _ _ _ hs2, hc.1]
              show ((fd2.addDescend (fd.opSetInputDup v).snd o).op j).getIn s2
                = (fd.op j).getIn s2
              rw [Funcdata.op_addDescend]
              rw [hf5 j s2 hne]
              rw [Funcdata.op_opSetInputDup]
          · rw [Funcdata.op_addDescend]
            rw [hf5 j s2 hne]
            rw [Funcdata.op_opSetInputDup]
        · intro w' hw'
          rw [Funcdata.op_updateOp] at hw'
          by_cases ho : o < ((fd2.addDescend (fd.opSetInputDup v).snd o)).ops.length
          · rw [if_pos ⟨rfl, ho⟩] at hw'
            by_cases hsl : slot <
                (((fd2.addDescend (fd.opSetInputDup v).snd o)).op o).inputs.length
            · have : (((((fd2.addDescend (fd.opSetInputDup v).snd o)).op o).inputs.set slot
                  (some (fd.opSetInputDup v).snd)).get? slot).bind id
                  = some (fd.opSetInputDup v).snd := by
                rw [List.get?_eq_getElem?, List.getElem?_set_eq_of_lt _ hsl]
                rfl
              unfold PcodeOp.getIn at hw'
              rw [this] at hw'
              cases hw'
              constructor
              · show (fd.opSetInputDup v).snd <
                  ((fd2.addDescend (fd.opSetInputDup v).snd o).updateOp o _).vars.length
                simp only [Funcdata.varsLength_updateOp, Funcdata.varsLength_addDescend]
                omega
              · intro hc
                apply hd3
                rw [Funcdata.vn_updateOp] at hc
                unfold Varnode.isConstant at hc ⊢
                rw [hdlen] at hc
                rw [hvn2] at hc
                exact hc
            · have : (((((fd2.addDescend (fd.opSetInputDup v).snd o)).op o).inputs.set slot
                  (some (fd.opSetInputDup v).snd)).get? slot).bind id = none := by
                rw [List.get?_eq_getElem?, List.getElem?_eq_none (by simp at hsl ⊢; omega)]
                rfl
              unfold PcodeOp.getIn at hw'
              rw [this] at hw'
              cases hw'
          · rw [if_neg (fun hc => ho hc.2)] at hw'
            rw [Funcdata.op_oob _ o (Nat.le_of_not_lt (by simpa using ho))] at hw'
            rw [PcodeOp.getIn_oob _ _ (Nat.zero_le slot)] at hw'
            cases hw'

/-- Unbounded form of `linksClosed`, convenient in proofs. -/
def Funcdata.closedAll (fd : Funcdata) : Prop :=
  ∀ o slot w, (fd.op o).getIn slot = some w → w < fd.vars.length

/-- Unbounded form of `noConstMarker`, convenient in proofs. -/
def Funcdata.noConstMarkerAll (fd : Funcdata) : Prop :=
  ∀ o, ((fd.op o).opc).isMarker = true →
    ∀ slot w, (fd.op o).getIn slot = some w → (fd.vn w).isConstant = false

theorem Funcdata.closedAll_iff (fd : Funcdata) : fd.closedAll ↔ fd.linksClosed :=
  ⟨fd.linksClosed_of_all, fd.linksClosed_all⟩

theorem Funcdata.noConstMarkerAll_iff (fd : Funcdata) :
    fd.noConstMarkerAll ↔ fd.noConstMarker :=
  ⟨fd.noConstMarker_of_all, fd.noConstMarker_all⟩

theorem Funcdata.closedAll_opInsert (fd : Funcdata) (o bl pos : Nat)
    (h : fd.closedAll) : (fd.opInsert o bl pos).closedAll := by
  intro j s2 w hw
  rw [Funcdata.getIn_opInsert] at hw
  exact h j s2 w hw

theorem Funcdata.noConstMarkerAll_opInsert (fd : Funcdata) (o bl pos : Nat)
    (h : fd.noConstMarkerAll) : (fd.opInsert o bl pos).noConstMarkerAll := by
  intro j hm s2 w hw
  rw [Funcdata.opc_opInsert] at hm
  rw [Funcdata.getIn_opInsert] at hw
  exact h j hm s2 w hw

theorem Funcdata.opSetInput_pres (fd : Funcdata) (o v slot : Nat) (fd4 : Funcdata)
    (hv : v < fd.vars.length)
    (h : fd.opSetInput o v slot = Except.ok fd4)
    (hC : fd.closedAll) (hM : fd.noConstMarkerAll)
    (hsafe : ((fd.op o).opc).isMarker = true → (fd.vn v).isConstant = false) :
    fd4.closedAll ∧ fd4.noConstMarkerAll := by
  obtain ⟨h1, h2, h3, h4, h5, h6⟩ := fd.opSetInput_spec o v slot fd4 hv h
  constructor
  · intro j s2 w hw
    by_cases hjs : j = o ∧ s2 = slot
    · obtain ⟨hj, hs⟩ := hjs
      subst hj
      subst hs
      exact (h6 w hw).1
    · rw [h5 j s2 hjs] at hw
      have := hC j s2 w hw
      omega
  · intro j hm s2 w hw
    have hmold : ((fd.op j).opc).isMarker = true := by
      rw [← h4 j]
      exact hm
    by_cases hjs : j = o ∧ s2 = slot
    · obtain ⟨hj, hs⟩ := hjs
      subst hj
      subst hs
      have h6w := h6 w hw
      cases hcw : (fd4.vn w).isConstant with
      | false => rfl
      | true =>
          have hcv := h6w.2 hcw
          rw [hsafe hmold] at hcv
          cases hcv
    · rw [h5 j s2 hjs] at hw
      have hwlt := hC j s2 w hw
      have hold := hM j hmold s2 w hw
      unfold Varnode.isConstant at hold ⊢
      rw [h3 w hwlt]
      exact hold

theorem Funcdata.constCopyCore_opsLength (fd : Funcdata) (size val : Nat) (addr : Address) :
    (fd.constCopyCore size val addr).ops.length = fd.ops.length + 1 := by
  unfold Funcdata.constCopyCore
  simp

theorem Funcdata.constCopyCore_varsLength (fd : Funcdata) (size val : Nat)
    (addr : Address) :
    (fd.constCopyCore size val addr).vars.length = fd.vars.length + 2 := by
  unfold Funcdata.constCopyCore
  simp

theorem Funcdata.constCopyCore_getIn (fd : Funcdata) (size val : Nat) (addr : Address)
    (j s2 : Nat) :
    ((fd.constCopyCore size val addr).op j).getIn s2 = (fd.op j).getIn s2 := by
  unfold Funcdata.constCopyCore
  rw [Funcdata.getIn_opSetOpcode, Funcdata.getIn_newUniqueOut]
  rw [Funcdata.op_newOp]
  split
  · next hj =>
      rw [PcodeOp.getIn_replicate_none _ 1 s2 rfl]
      rw [hj]
      rw [Funcdata.op_oob fd _ (by simp), PcodeOp.getIn_oob _ _ (Nat.zero_le _)]
  · rfl

theorem Funcdata.constCopyCore_opc (fd : Funcdata) (size val : Nat) (addr : Address)
    (j : Nat) (hj : j ≠ fd.ops.length) :
    ((fd.constCopyCore size val addr).op j).opc = (fd.op j).opc := by
  unfold Funcdata.constCopyCore
  rw [Funcdata.opc_opSetOpcode]
  rw [if_neg (by simp; intro h; exact absurd h.symm hj)]
  rw [Funcdata.opc_newUniqueOut]
  rw [Funcdata.op_newOp]
  rw [if_neg (by simpa using hj)]
  rfl

theorem Funcdata.constCopyCore_copyOpc (fd : Funcdata) (size val : Nat) (addr : Address) :
    ((fd.constCopyCore size val addr).op fd.ops.length).opc = OpCode.COPY := by
  unfold Funcdata.constCopyCore
  rw [Funcdata.opc_opSetOpcode]
  rw [if_pos (by simp)]

theorem Funcdata.constCopyCore_vn_lt (fd : Funcdata) (size val : Nat) (addr : Address)
    (w : Nat) (hw : w < fd.vars.length) :
    (fd.constCopyCore size val addr).vn w = fd.vn w := by
  unfold Funcdata.constCopyCore
  rw [Funcdata.vn_opSetOpcode, Funcdata.vn_newUniqueOut]
  rw [if_neg (by simp; omega)]
  rw [Funcdata.vn_newOp, Funcdata.vn_newConstant]
  rw [if_neg (by omega)]

theorem Funcdata.constCopyCore_uniq (fd : Funcdata) (size val : Nat) (addr : Address) :
    ((fd.constCopyCore size val addr).vn
      ((((fd.newConstant size val).fst.newOp 1 addr).fst.newUniqueOut size
        (fd.newConstant size val).fst.ops.length).snd)).space = SpaceType.internal := by
  unfold Funcdata.constCopyCore
  rw [Funcdata.vn_opSetOpcode, Funcdata.vn_newUniqueOut]
  rw [if_pos (by rfl)]

theorem Funcdata.constCopyCore_pres (fd : Funcdata) (size val : Nat) (addr : Address)
    (hC : fd.closedAll) (hM : fd.noConstMarkerAll) :
    (fd.constCopyCore size val addr).closedAll ∧
    (fd.constCopyCore size val addr).noConstMarkerAll := by
  constructor
  · intro j s2 w hw
    rw [Funcdata.constCopyCore_getIn] at hw
    have := hC j s2 w hw
    rw [Funcdata.constCopyCore_varsLength]
    omega
  · intro j hm s2 w hw
    rw [Funcdata.constCopyCore_getIn] at hw
    by_cases hj : j = fd.ops.length
    · subst hj
      rw [Funcdata.constCopyCore_copyOpc] at hm
      cases hm
    · rw [Funcdata.constCopyCore_opc fd size val addr j hj] at hm
      have hwlt := hC j s2 w hw
      have hold := hM j hm s2 w hw
      unfold Varnode.isConstant at hold ⊢
      rw [Funcdata.constCopyCore_vn_lt fd size val addr w hwlt]
      exact hold

theorem Funcdata.copyConstCore_opsLength (fd : Funcdata) (size val : Nat) (addr : Address) :
    (fd.copyConstCore size val addr).ops.length = fd.ops.length + 1 := by
  unfold Funcdata.copyConstCore
  simp

theorem Funcdata.copyConstCore_varsLength (fd : Funcdata) (size val : Nat)
    (addr : Address) :
    (fd.copyConstCore size val addr).vars.length = fd.vars.length + 2 := by
  unfold Funcdata.copyConstCore
  simp

theorem Funcdata.copyConstCore_getIn (fd : Funcdata) (size val : Nat) (addr : Address)
    (j s2 : Nat) :
    ((fd.copyConstCore size val addr).op j).getIn s2 = (fd.op j).getIn s2 := by
  unfold Funcdata.copyConstCore
  rw [Funcdata.op_newConstant, Funcdata.getIn_newUniqueOut, Funcdata.getIn_opSetOpcode]
  rw [Funcdata.op_newOp]
  split
  · next hj =>
      rw [PcodeOp.getIn_replicate_none _ 1 s2 rfl]
      rw [hj]
      rw [Funcdata.op_oob fd _ (by simp), PcodeOp.getIn_oob _ _ (Nat.zero_le _)]
  · rfl

theorem Funcdata.copyConstCore_opc (fd : Funcdata) (size val : Nat) (addr : Address)
    (j : Nat) (hj : j ≠ fd.ops.length) :
    ((fd.copyConstCore size val addr).op j).opc = (fd.op j).opc := by
  unfold Funcdata.copyConstCore
  rw [Funcdata.op_newConstant, Funcdata.opc_newUniqueOut, Funcdata.opc_opSetOpcode]
  rw [if_neg (by simp; intro h; exact absurd h.symm hj)]
  rw [Funcdata.op_newOp]
  rw [if_neg (by simpa using hj)]

theorem Funcdata.copyConstCore_copyOpc (fd : Funcdata) (size val : Nat) (addr : Address) :
    ((fd.copyConstCore size val addr).op fd.ops.length).opc = OpCode.COPY := by
  unfold Funcdata.copyConstCore
  rw [Funcdata.op_newConstant, Funcdata.opc_newUniqueOut, Funcdata.opc_opSetOpcode]
  rw [if_pos (by simp)]

theorem Funcdata.copyConstCore_vn_lt (fd : Funcdata) (size val : Nat) (addr : Address)
    (w : Nat) (hw : w < fd.vars.length) :
    (fd.copyConstCore size val addr).vn w = fd.vn w := by
  unfold Funcdata.copyConstCore
  rw [Funcdata.vn_newConstant]
  rw [if_neg (by simp; omega)]
  rw [Funcdata.vn_newUniqueOut]
  rw [if_neg (by simp; omega)]
  rfl

theorem Funcdata.copyConstCore_uniq (fd : Funcdata) (size val : Nat) (addr : Address) :
    ((fd.copyConstCore size val addr).vn
      ((((fd.newOp 1 addr).fst.opSetOpcode (fd.newOp 1 addr).snd
        OpCode.COPY).newUniqueOut size (fd.newOp 1 addr).snd).snd)).space
      = SpaceType.internal := by
  unfold Funcdata.copyConstCore
  rw [Funcdata.vn_newConstant]
  rw [if_neg (by simp)]
  rw [Funcdata.vn_newUniqueOut]
  rw [if_pos (by rfl)]

theorem Funcdata.copyConstCore_pres (fd : Funcdata) (size val : Nat) (addr : Address)
    (hC : fd.closedAll) (hM : fd.noConstMarkerAll) :
    (fd.copyConstCore size val addr).closedAll ∧
    (fd.copyConstCore size val addr).noConstMarkerAll := by
  constructor
  · intro j s2 w hw
    rw [Funcdata.copyConstCore_getIn] at hw
    have := hC j s2 w hw
    rw [Funcdata.copyConstCore_varsLength]
    omega
  · intro j hm s2 w hw
    rw [Funcdata.copyConstCore_getIn] at hw
    by_cases hj : j = fd.ops.length
    · subst hj
      rw [Funcdata.copyConstCore_copyOpc] at hm
      cases hm
    · rw [Funcdata.copyConstCore_opc fd size val addr j hj] at hm
      have hwlt := hC j s2 w hw
      have hold := hM j hm s2 w hw
      unfold Varnode.isConstant at hold ⊢
      rw [Funcdata.copyConstCore_vn_lt fd size val addr w hwlt]
      exact hold

theorem Funcdata.newConstCopy_pres (fd : Funcdata) (size val : Nat) (addr : Address)
    (pr : Funcdata × Nat × Nat)
    (h : fd.newConstCopy size val addr = Except.ok pr)
    (hC : fd.closedAll) (hM : fd.noConstMarkerAll) :
    pr.fst.closedAll ∧ pr.fst.noConstMarkerAll ∧
    fd.vars.length ≤ pr.fst.vars.length ∧
    pr.snd.snd < pr.fst.vars.length ∧
    (pr.fst.vn pr.snd.snd).isConstant = false := by
  obtain ⟨hcoreC, hcoreM⟩ := fd.constCopyCore_pres size val addr hC hM
  unfold Funcdata.newConstCopy at h
  split at h
  · cases h
  · rename_i fd1 hset
    cases h
    have hv : (fd.newConstant size val).snd <
        (fd.constCopyCore size val addr).vars.length := by
      rw [Funcdata.snd_newConstant, Funcdata.constCopyCore_varsLength]
      omega
    have hsafe : (((fd.constCopyCore size val addr).op
        ((fd.newConstant size val).fst.ops.length)).opc).isMarker = true →
        ((fd.constCopyCore size val addr).vn
          (fd.newConstant size val).snd).isConstant = false := by
      intro hm
      have hco : ((fd.constCopyCore size val addr).op fd.ops.length).opc = OpCode.COPY :=
        fd.constCopyCore_copyOpc size val addr
      rw [show (fd.newConstant size val).fst.ops.length = fd.ops.length from rfl] at hm
      rw [hco] at hm
      cases hm
    obtain ⟨hc1, hm1⟩ := (fd.constCopyCore size val addr).opSetInput_pres _ _ _ fd1
      hv hset hcoreC hcoreM hsafe
    obtain ⟨h1, h2, h3, h4, h5, h6⟩ :=
      (fd.constCopyCore size val addr).opSetInput_spec _ _ _ fd1 hv hset
    have huidx : ((((fd.newConstant size val).fst.newOp 1 addr).fst.newUniqueOut size
        (fd.newConstant size val).fst.ops.length).snd) <
        (fd.constCopyCore size val addr).vars.length := by
      simp [Funcdata.constCopyCore_varsLength]
    refine ⟨hc1, hm1, ?_, ?_, ?_⟩
    · have hcl : fd.vars.length ≤ (fd.constCopyCore size val addr).vars.length := by
        rw [Funcdata.constCopyCore_varsLength]
        omega
      exact le_trans hcl h1
    · exact lt_of_lt_of_le huidx h1
    · unfold Varnode.isConstant
      rw [h3 _ huidx]
      rw [Funcdata.constCopyCore_uniq]
      rfl

theorem Funcdata.newCopyConst_pres (fd : Funcdata) (size val : Nat) (addr : Address)
    (pr : Funcdata × Nat × Nat)
    (h : fd.newCopyConst size val addr = Except.ok pr)
    (hC : fd.closedAll) (hM : fd.noConstMarkerAll) :
    pr.fst.closedAll ∧ pr.fst.noConstMarkerAll ∧
    fd.vars.length ≤ pr.fst.vars.length ∧
    pr.snd.snd < pr.fst.vars.length ∧
    (pr.fst.vn pr.snd.snd).isConstant = false := by
  obtain ⟨hcoreC, hcoreM⟩ := fd.copyConstCore_pres size val addr hC hM
  unfold Funcdata.newCopyConst at h
  split at h
  · cases h
  · rename_i fd1 hset
    cases h
    have hv : ((((fd.newOp 1 addr).fst.opSetOpcode (fd.newOp 1 addr).snd
        OpCode.COPY).newUniqueOut size (fd.newOp 1 addr).snd).fst.newConstant size
        val).snd < (fd.copyConstCore size val addr).vars.length := by
      simp [Funcdata.copyConstCore_varsLength]
    have hsafe : (((fd.copyConstCore size val addr).op
        ((fd.newOp 1 addr).snd)).opc).isMarker = true →
        ((fd.copyConstCore size val addr).vn
          ((((fd.newOp 1 addr).fst.opSetOpcode (fd.newOp 1 addr).snd
            OpCode.COPY).newUniqueOut size (fd.newOp 1 addr).snd).fst.newConstant size
            val).snd).isConstant = false := by
      intro hm
      have hco : ((fd.copyConstCore size val addr).op fd.ops.length).opc = OpCode.COPY :=
        fd.copyConstCore_copyOpc size val addr
      rw [show (fd.newOp 1 addr).snd = fd.ops.length from rfl] at hm
      rw [hco] at hm
      cases hm
    obtain ⟨hc1, hm1⟩ := (fd.copyConstCore size val addr).opSetInput_pres _ _ _ fd1
      hv hset hcoreC hcoreM hsafe
    obtain ⟨h1, h2, h3, h4, h5, h6⟩ :=
      (fd.copyConstCore size val addr).opSetInput_spec _ _ _ fd1 hv hset
    have huidx : ((((fd.newOp 1 addr).fst.opSetOpcode (fd.newOp 1 addr).snd
        OpCode.COPY).newUniqueOut size (fd.newOp 1 addr).snd).snd) <
        (fd.copyConstCore size val addr).vars.length := by
      simp [Funcdata.copyConstCore_varsLength]
    refine ⟨hc1, hm1, ?_, ?_, ?_⟩
    · have hcl : fd.vars.length ≤ (fd.copyConstCore size val addr).vars.length := by
        rw [Funcdata.copyConstCore_varsLength]
        omega
      exact le_trans hcl h1
    · exact lt_of_lt_of_le huidx h1
    · unfold Varnode.isConstant
      rw [h3 _ huidx]
      rw [Funcdata.copyConstCore_uniq]
      rfl

theorem Funcdata.descend2UndefLoop_pres :
    ∀ (l : List Nat) (fd : Funcdata) (vnid size : Nat) (res : Bool)
      (out : Funcdata × Bool),
      fd.closedAll → fd.noConstMarkerAll →
      fd.descend2UndefLoop vnid size res l = Except.ok out →
      out.fst.closedAll ∧ out.fst.noConstMarkerAll := by
  intro l
  induction l with
  | nil =>
      intro fd vnid size res out hC hM h
      cases h
      exact ⟨hC, hM⟩
  | cons o rest ih =>
      intro fd vnid size res out hC hM h
      unfold Funcdata.descend2UndefLoop at h
      split at h
      · exact ih fd vnid size res out hC hM h
      · split at h
        · split at h
          · cases h
          · rename_i pr hncc
            split at h
            · cases h
            · rename_i fd4 hset
              obtain ⟨hprC, hprM, hprlen, hpru, hpruc⟩ :=
                fd.newConstCopy_pres _ _ _ pr hncc hC hM
              have hEC : ∀ b, (pr.fst.opInsertEnd pr.snd.fst b).closedAll := fun b => by
                rw [Funcdata.opInsertEnd_eq]
                exact Funcdata.closedAll_opInsert _ _ _ _ hprC
              have hEM : ∀ b, (pr.fst.opInsertEnd pr.snd.fst b).noConstMarkerAll :=
                fun b => by
                  rw [Funcdata.opInsertEnd_eq]
                  exact Funcdata.noConstMarkerAll_opInsert _ _ _ _ hprM
              obtain ⟨hc4, hm4⟩ := Funcdata.opSetInput_pres _ o pr.snd.snd _ fd4
                (by exact hpru) hset (hEC _) (hEM _) (fun _ => hpruc)
              exact ih fd4 vnid size _ out hc4 hm4 h
        · split at h
          · split at h
            · cases h
            · rename_i pr hncc
              split at h
              · cases h
              · rename_i fd4 hset
                obtain ⟨hprC, hprM, hprlen, hpru, hpruc⟩ :=
                  fd.newConstCopy_pres _ _ _ pr hncc hC hM
                have hEC : (pr.fst.opInsertBefore pr.snd.fst o).closedAll := by
                  rw [Funcdata.opInsertBefore_eq]
                  exact Funcdata.closedAll_opInsert _ _ _ _ hprC
                have hEM : (pr.fst.opInsertBefore pr.snd.fst o).noConstMarkerAll := by
                  rw [Funcdata.opInsertBefore_eq]
                  exact Funcdata.noConstMarkerAll_opInsert _ _ _ _ hprM
                obtain ⟨hc4, hm4⟩ := Funcdata.opSetInput_pres _ o pr.snd.snd _ fd4
                  (by exact hpru) hset hEC hEM (fun _ => hpruc)
                exact ih fd4 vnid size _ out hc4 hm4 h
          · rename_i hnphi hnind
            split at h
            · cases h
            · rename_i fd1 hset
              have hAC : (fd.newConstant size 0xBADDEF).fst.closedAll := by
                intro j s2 w hw
                rw [Funcdata.op_newConstant] at hw
                have := hC j s2 w hw
                simp
                omega
              have hAM : (fd.newConstant size 0xBADDEF).fst.noConstMarkerAll := by
                intro j hm s2 w hw
                rw [Funcdata.op_newConstant] at hw hm
                have hwlt := hC j s2 w hw
                rw [Funcdata.vn_newConstant, if_neg (by omega)]
                exact hM j hm s2 w hw
              have hAv : (fd.newConstant size 0xBADDEF).snd <
                  (fd.newConstant size 0xBADDEF).fst.vars.length := by
                simp
              have hsafe : ((((fd.newConstant size 0xBADDEF).fst.op o).opc).isMarker
                  = true) →
                  (((fd.newConstant size 0xBADDEF).fst.vn
                    (fd.newConstant size 0xBADDEF).snd).isConstant = false) := by
                intro hm
                rw [Funcdata.op_newConstant] at hm
                rw [OpCode.isMarker_iff] at hm
                rcases hm with hm | hm
                · exact absurd hm hnphi
                · exact absurd hm hnind
              obtain ⟨hc1, hm1⟩ := Funcdata.opSetInput_pres _ o
                (fd.newConstant size 0xBADDEF).snd _ fd1 hAv hset hAC hAM hsafe
              exact ih fd1 vnid size _ out hc1 hm1 h

theorem Funcdata.totalReplaceLoop_cons (fd : Funcdata) (vnid size val : Nat)
    (vdef : Option Nat) (cop : Option (Nat × Nat)) (o : Nat) (rest : List Nat) :
    fd.totalReplaceLoop vnid size val vdef cop (o :: rest) =
      (if ((fd.op o).opc).isMarker = true then
        match cop with
        | some pr =>
            match fd.opSetInput o pr.snd ((fd.op o).getSlot vnid) with
            | Except.error e => Except.error e
            | Except.ok fd1 => fd1.totalReplaceLoop vnid size val vdef cop rest
        | none =>
            match vdef with
            | some d =>
                match fd.newCopyConst size val (fd.op d).addr with
                | Except.error e => Except.error e
                | Except.ok pr =>
                    match (pr.fst.opInsertAfter pr.snd.fst d).opSetInput o pr.snd.snd
                        ((fd.op o).getSlot vnid) with
                    | Except.error e => Except.error e
                    | Except.ok fd4 =>
                        fd4.totalReplaceLoop vnid size val vdef
                          (some (pr.snd.fst, pr.snd.snd)) rest
            | none =>
                match fd.newCopyConst size val (fd.block 0).start with
                | Except.error e => Except.error e
                | Except.ok pr =>
                    match (pr.fst.opInsertBegin pr.snd.fst 0).opSetInput o pr.snd.snd
                        ((fd.op o).getSlot vnid) with
                    | Except.error e => Except.error e
                    | Except.ok fd4 =>
                        fd4.totalReplaceLoop vnid size val vdef
                          (some (pr.snd.fst, pr.snd.snd)) rest
      else
        match (fd.newConstant size val).fst.opSetInput o (fd.newConstant size val).snd
            ((fd.op o).getSlot vnid) with
        | Except.error e => Except.error e
        | Except.ok fd1 => fd1.totalReplaceLoop vnid size val vdef cop rest) := rfl

set_option maxHeartbeats 4000000 in
theorem Funcdata.totalReplaceLoop_pres :
    ∀ (l : List Nat) (fd : Funcdata) (vnid size val : Nat) (vdef : Option Nat)
      (cop : Option (Nat × Nat)) (fd2 : Funcdata),
      fd.closedAll → fd.noConstMarkerAll →
      (∀ p, cop = some p →
        p.snd < fd.vars.length ∧ (fd.vn p.snd).isConstant = false) →
      fd.totalReplaceLoop vnid size val vdef cop l = Except.ok fd2 →
      fd2.closedAll ∧ fd2.noConstMarkerAll := by
  intro l
  induction l with
  | nil =>
      intro fd vnid size val vdef cop fd2 hC hM hcop h
      cases h
      exact ⟨hC, hM⟩
  | cons o rest ih =>
      intro fd vnid size val vdef cop fd2 hC hM hcop h
      rw [Funcdata.totalReplaceLoop_cons] at h
      split at h
      · rename_i hmk
        cases cop with
        | some p =>
            have hb : (match fd.opSetInput o p.snd ((fd.op o).getSlot vnid) with
                | Except.error e => Except.error e
                | Except.ok fd1 =>
                    fd1.totalReplaceLoop vnid size val vdef (some p) rest)
                = Except.ok fd2 := h
            clear h
            split at hb
            · cases hb
            · rename_i fd1 hset
              obtain ⟨hplt, hpc⟩ := hcop p rfl
              obtain ⟨hc1, hm1⟩ := fd.opSetInput_pres o p.snd _ fd1 hplt hset hC hM
                (fun _ => hpc)
              obtain ⟨h1, h2, h3, h4, h5, h6⟩ := fd.opSetInput_spec o p.snd _ fd1
                hplt hset
              have hcop1 : ∀ q, (some p : Option (Nat × Nat)) = some q →
                  q.snd < fd1.vars.length ∧ (fd1.vn q.snd).isConstant = false := by
                intro q hq
                cases hq
                refine ⟨lt_of_lt_of_le hplt h1, ?_⟩
                unfold Varnode.isConstant at hpc ⊢
                rw [h3 _ hplt]
                exact hpc
              exact ih fd1 vnid size val vdef (some p) fd2 hc1 hm1 hcop1 hb
        | none =>
            cases vdef with
            | some d =>
                have hb : (match fd.newCopyConst size val (fd.op d).addr with
                    | Except.error e => Except.error e
                    | Except.ok pr =>
                        match (pr.fst.opInsertAfter pr.snd.fst d).opSetInput o
                            pr.snd.snd ((fd.op o).getSlot vnid) with
                        | Except.error e => Except.error e
                        | Except.ok fd4 =>
                            fd4.totalReplaceLoop vnid size val (some d)
                              (some (pr.snd.fst, pr.snd.snd)) rest)
                    = Except.ok fd2 := h
                clear h
                split at hb
                · cases hb
                · rename_i pr hncc
                  obtain ⟨hprC, hprM, hprlen, hpru, hpruc⟩ :=
                    fd.newCopyConst_pres _ _ _ pr hncc hC hM
                  obtain ⟨bl, pos, heq⟩ :=
                    Funcdata.opInsertAfter_frame pr.fst pr.snd.fst d
                  rw [heq] at hb
                  split at hb
                  · cases hb
                  · rename_i fd4 hset
                    obtain ⟨hc4, hm4⟩ := Funcdata.opSetInput_pres _ o pr.snd.snd _
                      fd4 (by exact hpru) hset
                      (Funcdata.closedAll_opInsert _ _ _ _ hprC)
                      (Funcdata.noConstMarkerAll_opInsert _ _ _ _ hprM)
                      (fun _ => hpruc)
                    obtain ⟨h1, h2, h3, h4, h5, h6⟩ :=
                      Funcdata.opSetInput_spec _ o pr.snd.snd _ fd4 (by exact hpru)
                        hset
                    have hcop4 : ∀ q,
                        (some (pr.snd.fst, pr.snd.snd) : Option (Nat × Nat)) = some q →
                        q.snd < fd4.vars.length ∧ (fd4.vn q.snd).isConstant = false := by
                      intro q hq
                      cases hq
                      constructor
                      · show pr.snd.snd < fd4.vars.length
                        exact lt_of_lt_of_le
                          (show pr.snd.snd <
                            (pr.fst.opInsert pr.snd.fst bl pos).vars.length from hpru)
                          h1
                      · show (fd4.vn pr.snd.snd).isConstant = false
                        unfold Varnode.isConstant at hpruc ⊢
                        rw [h3 _ (show pr.snd.snd <
                          (pr.fst.opInsert pr.snd.fst bl pos).vars.length from hpru)]
                        exact hpruc
                    exact ih fd4 vnid size val (some d) _ fd2 hc4 hm4 hcop4 hb
            | none =>
                have hb : (match fd.newCopyConst size val (fd.block 0).start with
                    | Except.error e => Except.error e
                    | Except.ok pr =>
                        match (pr.fst.opInsertBegin pr.snd.fst 0).opSetInput o
                            pr.snd.snd ((fd.op o).getSlot vnid) with
                        | Except.error e => Except.error e
                        | Except.ok fd4 =>
                            fd4.totalReplaceLoop vnid size val none
                              (some (pr.snd.fst, pr.snd.snd)) rest)
                    = Except.ok fd2 := h
                clear h
                split at hb
                · cases hb
                · rename_i pr hncc
                  obtain ⟨hprC, hprM, hprlen, hpru, hpruc⟩ :=
                    fd.newCopyConst_pres _ _ _ pr hncc hC hM
                  rw [Funcdata.opInsertBegin_eq] at hb
                  split at hb
                  · cases hb
                  · rename_i fd4 hset
                    obtain ⟨hc4, hm4⟩ := Funcdata.opSetInput_pres _ o pr.snd.snd _
                      fd4 (by exact hpru) hset
                      (Funcdata.closedAll_opInsert _ _ _ _ hprC)
                      (Funcdata.noConstMarkerAll_opInsert _ _ _ _ hprM)
                      (fun _ => hpruc)
                    obtain ⟨h1, h2, h3, h4, h5, h6⟩ :=
                      Funcdata.opSetInput_spec _ o pr.snd.snd _ fd4 (by exact hpru)
                        hset
                    have hcop4 : ∀ q,
                        (some (pr.snd.fst, pr.snd.snd) : Option (Nat × Nat)) = some q →
                        q.snd < fd4.vars.length ∧ (fd4.vn q.snd).isConstant = false := by
                      intro q hq
                      cases hq
                      constructor
                      · show pr.snd.snd < fd4.vars.length
                        exact lt_of_lt_of_le (by exact hpru) h1
                      · show (fd4.vn pr.snd.snd).isConstant = false
                        unfold Varnode.isConstant at hpruc ⊢
                        rw [h3 _ (by exact hpru)]
                        exact hpruc
                    exact ih fd4 vnid size val none _ fd2 hc4 hm4 hcop4 hb
      · rename_i hnm
        split at h
        · cases h
        · rename_i fd1 hset
          have hAC : (fd.newConstant size val).fst.closedAll := by
            intro j s2 w hw
            rw [Funcdata.op_newConstant] at hw
            have := hC j s2 w hw
            simp
            omega
          have hAM : (fd.newConstant size val).fst.noConstMarkerAll := by
            intro j hm s2 w hw
            rw [Funcdata.op_newConstant] at hw hm
            have hwlt := hC j s2 w hw
            rw [Funcdata.vn_newConstant, if_neg (by omega)]
            exact hM j hm s2 w hw
          have hAv : (fd.newConstant size val).snd <
              (fd.newConstant size val).fst.vars.length := by
            simp
          have hsafe : ((((fd.newConstant size val).fst.op o).opc).isMarker = true) →
              (((fd.newConstant size val).fst.vn
                (fd.newConstant size val).snd).isConstant = false) := by
            intro hm
            rw [Funcdata.op_newConstant] at hm
            exact absurd hm hnm
          obtain ⟨hc1, hm1⟩ := Funcdata.opSetInput_pres _ o
            (fd.newConstant size val).snd _ fd1 hAv hset hAC hAM hsafe
          obtain ⟨h1, h2, h3, h4, h5, h6⟩ := Funcdata.opSetInput_spec _ o
            (fd.newConstant size val).snd _ fd1 hAv hset
          have hcop1 : ∀ q, cop = some q →
              q.snd < fd1.vars.length ∧ (fd1.vn q.snd).isConstant = false := by
            intro q hq
            obtain ⟨hqlt, hqc⟩ := hcop q hq
            have hqlt2 : q.snd < (fd.newConstant size val).fst.vars.length := by
              simp
              omega
            constructor
            · exact lt_of_lt_of_le hqlt2 h1
            · unfold Varnode.isConstant at hqc ⊢
              rw [h3 _ hqlt2]
              rw [Funcdata.vn_newConstant, if_neg (by omega)]
              exact hqc
          exact ih fd1 vnid size val vdef cop fd2 hc1 hm1 hcop1 h

theorem Funcdata.op_newUniqueOut (fd : Funcdata) (s o i : Nat) :
    (fd.newUniqueOut s o).fst.op i =
      if o = i ∧ o < fd.ops.length then
        { fd.op o with output := some fd.vars.length }
      else fd.op i := by
  show ((((fd.newUnique s).fst.updateVn (fd.newUnique s).snd
      (fun v => { v with defOp := some o })).updateOp o
      (fun p => { p with output := some (fd.newUnique s).snd })).op i) = _
  rw [Funcdata.op_updateOp]
  split
  · next hc =>
      rw [if_pos ⟨hc.1, by exact hc.2⟩]
      rfl
  · next hc =>
      rw [if_neg (fun hh => hc ⟨hh.1, by exact hh.2⟩)]
      rfl

theorem Funcdata.constCopyCore_constVn (fd : Funcdata) (size val : Nat)
    (addr : Address) :
    (fd.constCopyCore size val addr).vn fd.vars.length =
      { space := SpaceType.constant, offset := val, size := size } := by
  unfold Funcdata.constCopyCore
  rw [Funcdata.vn_opSetOpcode, Funcdata.vn_newUniqueOut]
  rw [if_neg (by simp)]
  rw [Funcdata.vn_newOp, Funcdata.vn_newConstant]
  rw [if_pos rfl]

theorem Funcdata.constCopyCore_copyInputs (fd : Funcdata) (size val : Nat)
    (addr : Address) :
    ((fd.constCopyCore size val addr).op fd.ops.length).inputs =
      List.replicate 1 none := by
  unfold Funcdata.constCopyCore Funcdata.opSetOpcode
  rw [Funcdata.op_updateOp]
  rw [if_pos ⟨rfl, by simp⟩]
  show ((((fd.newConstant size val).fst.newOp 1 addr).fst.newUniqueOut size
    (fd.newConstant size val).fst.ops.length).fst.op
    (fd.newConstant size val).fst.ops.length).inputs = List.replicate 1 none
  rw [Funcdata.op_newUniqueOut]
  rw [if_pos ⟨rfl, by simp⟩]
  show (((fd.newConstant size val).fst.newOp 1 addr).fst.op
    (fd.newConstant size val).fst.ops.length).inputs = List.replicate 1 none
  rw [Funcdata.op_newOp]
  rw [if_pos rfl]

theorem Funcdata.constCopyCore_output (fd : Funcdata) (size val : Nat)
    (addr : Address) :
    ((fd.constCopyCore size val addr).op fd.ops.length).output =
      some (fd.vars.length + 1) := by
  unfold Funcdata.constCopyCore Funcdata.opSetOpcode
  rw [Funcdata.op_updateOp]
  rw [if_pos ⟨rfl, by simp⟩]
  show ((((fd.newConstant size val).fst.newOp 1 addr).fst.newUniqueOut size
    (fd.newConstant size val).fst.ops.length).fst.op
    (fd.newConstant size val).fst.ops.length).output = some (fd.vars.length + 1)
  rw [Funcdata.op_newUniqueOut]
  rw [if_pos ⟨rfl, by simp⟩]
  show some ((fd.newConstant size val).fst.newOp 1 addr).fst.vars.length =
    some (fd.vars.length + 1)
  simp

theorem Funcdata.constCopyCore_uniqAt (fd : Funcdata) (size val : Nat)
    (addr : Address) :
    ((fd.constCopyCore size val addr).vn (fd.vars.length + 1)).space =
      SpaceType.internal := by
  unfold Funcdata.constCopyCore
  rw [Funcdata.vn_opSetOpcode, Funcdata.vn_newUniqueOut]
  rw [if_pos (by simp)]

theorem Funcdata.copyConstCore_constVn (fd : Funcdata) (size val : Nat)
    (addr : Address) :
    (fd.copyConstCore size val addr).vn (fd.vars.length + 1) =
      { space := SpaceType.constant, offset := val, size := size } := by
  unfold Funcdata.copyConstCore
  rw [Funcdata.vn_newConstant]
  rw [if_pos (by simp)]

theorem Funcdata.copyConstCore_copyInputs (fd : Funcdata) (size val : Nat)
    (addr : Address) :
    ((fd.copyConstCore size val addr).op fd.ops.length).inputs =
      List.replicate 1 none := by
  unfold Funcdata.copyConstCore
  rw [Funcdata.op_newConstant]
  rw [Funcdata.op_newUniqueOut]
  rw [if_pos ⟨rfl, by simp⟩]
  show (((fd.newOp 1 addr).fst.opSetOpcode (fd.newOp 1 addr).snd OpCode.COPY).op
    (fd.newOp 1 addr).snd).inputs = List.replicate 1 none
  unfold Funcdata.opSetOpcode
  rw [Funcdata.op_updateOp]
  rw [if_pos ⟨rfl, by simp⟩]
  show ((fd.newOp 1 addr).fst.op (fd.newOp 1 addr).snd).inputs = List.replicate 1 none
  rw [Funcdata.op_newOp]
  rw [if_pos (show (fd.newOp 1 addr).snd = fd.ops.length from rfl)]

theorem Funcdata.copyConstCore_output (fd : Funcdata) (size val : Nat)
    (addr : Address) :
    ((fd.copyConstCore size val addr).op fd.ops.length).output =
      some fd.vars.length := by
  unfold Funcdata.copyConstCore
  rw [Funcdata.op_newConstant]
  rw [Funcdata.op_newUniqueOut]
  rw [if_pos ⟨rfl, by simp⟩]
  rfl

theorem Funcdata.copyConstCore_uniqAt (fd : Funcdata) (size val : Nat)
    (addr : Address) :
    ((fd.copyConstCore size val addr).vn fd.vars.length).space =
      SpaceType.internal := by
  unfold Funcdata.copyConstCore
  rw [Funcdata.vn_newConstant]
  rw [if_neg (by simp)]
  rw [Funcdata.vn_newUniqueOut]
  rw [if_pos (show fd.vars.length = ((fd.newOp 1 addr).fst.opSetOpcode
    (fd.newOp 1 addr).snd OpCode.COPY).vars.length from rfl)]

theorem Funcdata.newConstCopy_builds (fd : Funcdata) (size val : Nat) (addr : Address)
    (pr : Funcdata × Nat × Nat)
    (h : fd.newConstCopy size val addr = Except.ok pr) :
    pr.snd.fst = fd.ops.length ∧
    pr.snd.snd = fd.vars.length + 1 ∧
    (pr.fst.op fd.ops.length).opc = OpCode.COPY ∧
    (pr.fst.op fd.ops.length).output = some (fd.vars.length + 1) ∧
    (pr.fst.vn (fd.vars.length + 1)).space = SpaceType.internal ∧
    (pr.fst.op fd.ops.length).getIn 0 = some fd.vars.length ∧
    pr.fst.vn fd.vars.length =
      { space := SpaceType.constant, offset := val, size := size,
        descend := [fd.ops.length] } := by
  have hcv : (fd.constCopyCore size val addr).vn fd.vars.length =
      { space := SpaceType.constant, offset := val, size := size } :=
    fd.constCopyCore_constVn size val addr
  have hinp : ((fd.constCopyCore size val addr).op fd.ops.length).inputs =
      List.replicate 1 none := fd.constCopyCore_copyInputs size val addr
  have hg0 : ((fd.constCopyCore size val addr).op fd.ops.length).getIn 0 = none :=
    PcodeOp.getIn_replicate_none _ 1 0 hinp
  have hdup : (fd.constCopyCore size val addr).opSetInputDup fd.vars.length =
      ((fd.constCopyCore size val addr), fd.vars.length) := by
    unfold Funcdata.opSetInputDup
    rw [if_neg]
    intro hcond
    rw [hcv] at hcond
    exact hcond.2.1 rfl
  have hlen : ((fd.constCopyCore size val addr).addDescend fd.vars.length
      fd.ops.length).ops.length = fd.ops.length + 1 := by
    rw [show ((fd.constCopyCore size val addr).addDescend fd.vars.length
      fd.ops.length).ops.length = (fd.constCopyCore size val addr).ops.length from rfl]
    exact fd.constCopyCore_opsLength size val addr
  have hrun : (fd.constCopyCore size val addr).opSetInput
      (fd.newConstant size val).fst.ops.length (fd.newConstant size val).snd 0 =
      Except.ok (((fd.constCopyCore size val addr).addDescend fd.vars.length
        fd.ops.length).updateOp fd.ops.length
        (fun p => { p with inputs := p.inputs.set 0 (some fd.vars.length) })) := by
    rw [show (fd.newConstant size val).fst.ops.length = fd.ops.length from rfl]
    rw [show (fd.newConstant size val).snd = fd.vars.length from rfl]
    unfold Funcdata.opSetInput
    rw [if_neg (by rw [hg0]; simp)]
    have hfsts : ((fd.constCopyCore size val addr).opSetInputDup fd.vars.length).fst =
        fd.constCopyCore size val addr := by rw [hdup]
    have hsnds : ((fd.constCopyCore size val addr).opSetInputDup fd.vars.length).snd =
        fd.vars.length := by rw [hdup]
    rw [hfsts, hsnds, hg0]
    rfl
  unfold Funcdata.newConstCopy at h
  rw [hrun] at h
  have h2 : Except.ok ((((fd.constCopyCore size val addr).addDescend fd.vars.length
      fd.ops.length).updateOp fd.ops.length
      (fun p => { p with inputs := p.inputs.set 0 (some fd.vars.length) })),
      (fd.newConstant size val).fst.ops.length,
      (((fd.newConstant size val).fst.newOp 1 addr).fst.newUniqueOut size
        (fd.newConstant size val).fst.ops.length).snd)
      = (Except.ok pr : Except String (Funcdata × Nat × Nat)) := h
  injection h2 with h3
  subst h3
  refine ⟨rfl, by simp, ?_, ?_, ?_, ?_, ?_⟩
  · rw [Funcdata.op_updateOp]
    rw [if_pos ⟨rfl, by rw [hlen]; omega⟩]
    show ((fd.constCopyCore size val addr).op fd.ops.length).opc = OpCode.COPY
    exact fd.constCopyCore_copyOpc size val addr
  · rw [Funcdata.op_updateOp]
    rw [if_pos ⟨rfl, by rw [hlen]; omega⟩]
    show ((fd.constCopyCore size val addr).op fd.ops.length).output =
      some (fd.vars.length + 1)
    exact fd.constCopyCore_output size val addr
  · show (((fd.constCopyCore size val addr).addDescend fd.vars.length
      fd.ops.length).vn (fd.vars.length + 1)).space = SpaceType.internal
    unfold Funcdata.addDescend
    rw [Funcdata.vn_updateVn]
    rw [if_neg (by omega)]
    exact fd.constCopyCore_uniqAt size val addr
  · rw [Funcdata.op_updateOp]
    rw [if_pos ⟨rfl, by rw [hlen]; omega⟩]
    unfold PcodeOp.getIn
    rw [show (((fd.constCopyCore size val addr).addDescend fd.vars.length
      fd.ops.length).op fd.ops.length).inputs =
      ((fd.constCopyCore size val addr).op fd.ops.length).inputs from rfl]
    rw [hinp]
    rfl
  · show ((fd.constCopyCore size val addr).addDescend fd.vars.length
      fd.ops.length).vn fd.vars.length =
      { space := SpaceType.constant, offset := val, size := size,
        descend := [fd.ops.length] }
    unfold Funcdata.addDescend
    rw [Funcdata.vn_updateVn]
    rw [if_pos ⟨rfl, by rw [Funcdata.constCopyCore_varsLength]; omega⟩]
    rw [hcv]
    rfl

theorem Funcdata.newCopyConst_builds (fd : Funcdata) (size val : Nat) (addr : Address)
    (pr : Funcdata × Nat × Nat)
    (h : fd.newCopyConst size val addr = Except.ok pr) :
    pr.snd.fst = fd.ops.length ∧
    pr.snd.snd = fd.vars.length ∧
    (pr.fst.op fd.ops.length).opc = OpCode.COPY ∧
    (pr.fst.op fd.ops.length).output = some fd.vars.length ∧
    (pr.fst.vn fd.vars.length).space = SpaceType.internal ∧
    (pr.fst.op fd.ops.length).getIn 0 = some (fd.vars.length + 1) ∧
    pr.fst.vn (fd.vars.length + 1) =
      { space := SpaceType.constant, offset := val, size := size,
        descend := [fd.ops.length] } := by
  have hcv : (fd.copyConstCore size val addr).vn (fd.vars.length + 1) =
      { space := SpaceType.constant, offset := val, size := size } :=
    fd.copyConstCore_constVn size val addr
  have hinp : ((fd.copyConstCore size val addr).op fd.ops.length).inputs =
      List.replicate 1 none := fd.copyConstCore_copyInputs size val addr
  have hg0 : ((fd.copyConstCore size val addr).op fd.ops.length).getIn 0 = none :=
    PcodeOp.getIn_replicate_none _ 1 0 hinp
  have hdup : (fd.copyConstCore size val addr).opSetInputDup (fd.vars.length + 1) =
      ((fd.copyConstCore size val addr), fd.vars.length + 1) := by
    unfold Funcdata.opSetInputDup
    rw [if_neg]
    intro hcond
    rw [hcv] at hcond
    exact hcond.2.1 rfl
  have hlen : ((fd.copyConstCore size val addr).addDescend (fd.vars.length + 1)
      fd.ops.length).ops.length = fd.ops.length + 1 := by
    rw [show ((fd.copyConstCore size val addr).addDescend (fd.vars.length + 1)
      fd.ops.length).ops.length = (fd.copyConstCore size val addr).ops.length from rfl]
    exact fd.copyConstCore_opsLength size val addr
  have hrun : (fd.copyConstCore size val addr).opSetInput (fd.newOp 1 addr).snd
      ((((fd.newOp 1 addr).fst.opSetOpcode (fd.newOp 1 addr).snd
        OpCode.COPY).newUniqueOut size (fd.newOp 1 addr).snd).fst.newConstant size
        val).snd 0 =
      Except.ok (((fd.copyConstCore size val addr).addDescend (fd.vars.length + 1)
        fd.ops.length).updateOp fd.ops.length
        (fun p => { p with inputs := p.inputs.set 0 (some (fd.vars.length + 1)) })) := by
    rw [show ((((fd.newOp 1 addr).fst.opSetOpcode (fd.newOp 1 addr).snd
      OpCode.COPY).newUniqueOut size (fd.newOp 1 addr).snd).fst.newConstant size
      val).snd = fd.vars.length + 1 by simp]
    rw [show (fd.newOp 1 addr).snd = fd.ops.length from rfl]
    unfold Funcdata.opSetInput
    rw [if_neg (by rw [hg0]; simp)]
    have hfsts : ((fd.copyConstCore size val addr).opSetInputDup
        (fd.vars.length + 1)).fst = fd.copyConstCore size val addr := by rw [hdup]
    have hsnds : ((fd.copyConstCore size val addr).opSetInputDup
        (fd.vars.length + 1)).snd = fd.vars.length + 1 := by rw [hdup]
    rw [hfsts, hsnds, hg0]
    rfl
  unfold Funcdata.newCopyConst at h
  rw [hrun] at h
  have h2 : Except.ok ((((fd.copyConstCore size val addr).addDescend
      (fd.vars.length + 1) fd.ops.length).updateOp fd.ops.length
      (fun p => { p with inputs := p.inputs.set 0 (some (fd.vars.length + 1)) })),
      (fd.newOp 1 addr).snd,
      (((fd.newOp 1 addr).fst.opSetOpcode (fd.newOp 1 addr).snd
        OpCode.COPY).newUniqueOut size (fd.newOp 1 addr).snd).snd)
      = (Except.ok pr : Except String (Funcdata × Nat × Nat)) := h
  injection h2 with h3
  subst h3
  refine ⟨rfl, by simp, ?_, ?_, ?_, ?_, ?_⟩
  · rw [Funcdata.op_updateOp]
    rw [if_pos ⟨rfl, by rw [hlen]; omega⟩]
    show ((fd.copyConstCore size val addr).op fd.ops.length).opc = OpCode.COPY
    exact fd.copyConstCore_copyOpc size val addr
  · rw [Funcdata.op_updateOp]
    rw [if_pos ⟨rfl, by rw [hlen]; omega⟩]
    show ((fd.copyConstCore size val addr).op fd.ops.length).output =
      some fd.vars.length
    exact fd.copyConstCore_output size val addr
  · show (((fd.copyConstCore size val addr).addDescend (fd.vars.length + 1)
      fd.ops.length).vn fd.vars.length).space = SpaceType.internal
    unfold Funcdata.addDescend
    rw [Funcdata.vn_updateVn]
    rw [if_neg (by omega)]
    exact fd.copyConstCore_uniqAt size val addr
  · rw [Funcdata.op_updateOp]
    rw [if_pos ⟨rfl, by rw [hlen]; omega⟩]
    unfold PcodeOp.getIn
    rw [show (((fd.copyConstCore size val addr).addDescend (fd.vars.length + 1)
      fd.ops.length).op fd.ops.length).inputs =
      ((fd.copyConstCore size val addr).op fd.ops.length).inputs from rfl]
    rw [hinp]
    rfl
  · show ((fd.copyConstCore size val addr).addDescend (fd.vars.length + 1)
      fd.ops.length).vn (fd.vars.length + 1) =
      { space := SpaceType.constant, offset := val, size := size,
        descend := [fd.ops.length] }
    unfold Funcdata.addDescend
    rw [Funcdata.vn_updateVn]
    rw [if_pos ⟨rfl, by rw [Funcdata.copyConstCore_varsLength]; omega⟩]
    rw [hcv]
    rfl

/-- Concrete store for the C10 witness: an unwritten processor varnode read
by a MULTIEQUAL in block 1, whose single predecessor is the empty entry
block 0. -/
def c10WFd : Funcdata :=
  { vars := [{ space := SpaceType.processor, offset := 256, size := 4, descend := [0] }],
    ops := [{ opc := OpCode.MULTIEQUAL, inputs := [some 0], parent := some 1 }],
    blocks := [{ oplist := [], outEdges := [1] },
               { oplist := [0], inEdges := [0] }] }

/-- The result of `descend2Undef` on the C10 witness store. -/
def c10DRun : Funcdata × Bool :=
  match c10WFd.descend2Undef 0 with
  | Except.ok p => p
  | Except.error _ => (c10WFd, false)

/-- The result of `totalReplaceConstant` on the C10 witness store. -/
def c10TRun : Funcdata :=
  match c10WFd.totalReplaceConstant 0 7 with
  | Except.ok f => f
  | Except.error _ => c10WFd

/-- The result of `newConstCopy` on the C10 witness store. -/
def c10NCC : Funcdata × Nat × Nat :=
  match c10WFd.newConstCopy 4 7 default with
  | Except.ok p => p
  | Except.error _ => (c10WFd, 0, 0)

/-- The result of `newCopyConst` on the C10 witness store. -/
def c10NCO : Funcdata × Nat × Nat :=
  match c10WFd.newCopyConst 4 7 default with
  | Except.ok p => p
  | Except.error _ => (c10WFd, 0, 0)

/-- Concrete store refuting the claimed COPY placement of
`totalReplaceConstant`: an unwritten varnode read by an INDIRECT in
block 1; the entry block 0 is empty. -/
def c10CFd : Funcdata :=
  { vars := [{ space := SpaceType.processor, offset := 256, size := 1, descend := [0] }],
    ops := [{ opc := OpCode.INDIRECT, inputs := [some 0], parent := some 1 }],
    blocks := [{ oplist := [], outEdges := [1] },
               { oplist := [0], inEdges := [0] }] }

/-- The result of `totalReplaceConstant` on the C10 counterexample store. -/
def c10CRun : Funcdata :=
  match c10CFd.totalReplaceConstant 0 5 with
  | Except.ok f => f
  | Except.error _ => c10CFd

/-- C10 counterexample: `totalReplaceConstant` does not insert the COPY
immediately before an INDIRECT reader.  The varnode is unwritten, so the
single shared COPY (op 1) is inserted at the beginning of the entry block
(block 0), while the INDIRECT (op 0) sits alone in block 1; only the
unique-space output of the COPY is linked into the INDIRECT slot. -/
theorem totalReplaceConstant_copy_not_before_indirect :
    (c10CFd.op 0).opc = OpCode.INDIRECT ∧
    (c10CFd.block 1).oplist = [0] ∧
    c10CFd.totalReplaceConstant 0 5 = Except.ok c10CRun ∧
    (c10CRun.op 1).opc = OpCode.COPY ∧
    (c10CRun.op 0).getIn 0 = some 1 ∧
    (c10CRun.vn 1).space = SpaceType.internal ∧
    (c10CRun.block 0).oplist = [1] ∧
    (c10CRun.block 1).oplist = [0] := by
  refine ⟨rfl, rfl, rfl, rfl, rfl, rfl, rfl, rfl⟩

/-- C10: the read-replacement routines never link a constant varnode
directly into an input slot of a MULTIEQUAL or INDIRECT operation.  Under
closed input links, if no marker op reads a constant before the edit, none
does after `descend2Undef` or `totalReplaceConstant`; and the COPY builders
the routines use for marker readers (`newConstCopy` for `descend2Undef`,
`newCopyConst` for `totalReplaceConstant`) create a fresh COPY op whose
slot-0 input is the fresh constant of the requested value — with the COPY
its only reader — and whose output is a fresh unique-space varnode, the
varnode the loops then link into the marker's slot. -/
theorem readReplace_const_marker_discipline :
    (∀ (fd : Funcdata) (vnid : Nat) (out : Funcdata × Bool),
      fd.linksClosed → fd.noConstMarker →
      fd.descend2Undef vnid = Except.ok out →
      out.fst.linksClosed ∧ out.fst.noConstMarker) ∧
    (∀ (fd : Funcdata) (vnid val : Nat) (fd2 : Funcdata),
      fd.linksClosed → fd.noConstMarker →
      fd.totalReplaceConstant vnid val = Except.ok fd2 →
      fd2.linksClosed ∧ fd2.noConstMarker) ∧
    (∀ (fd : Funcdata) (size val : Nat) (addr : Address) (pr : Funcdata × Nat × Nat),
      fd.newConstCopy size val addr = Except.ok pr →
      pr.snd.fst = fd.ops.length ∧ pr.snd.snd = fd.vars.length + 1 ∧
      (pr.fst.op fd.ops.length).opc = OpCode.COPY ∧
      (pr.fst.op fd.ops.length).output = some (fd.vars.length + 1) ∧
      (pr.fst.vn (fd.vars.length + 1)).space = SpaceType.internal ∧
      (pr.fst.op fd.ops.length).getIn 0 = some fd.vars.length ∧
      pr.fst.vn fd.vars.length =
        { space := SpaceType.constant, offset := val, size := size,
          descend := [fd.ops.length] }) ∧
    (∀ (fd : Funcdata) (size val : Nat) (addr : Address) (pr : Funcdata × Nat × Nat),
      fd.newCopyConst size val addr = Except.ok pr →
      pr.snd.fst = fd.ops.length ∧ pr.snd.snd = fd.vars.length ∧
      (pr.fst.op fd.ops.length).opc = OpCode.COPY ∧
      (pr.fst.op fd.ops.length).output = some fd.vars.length ∧
      (pr.fst.vn fd.vars.length).space = SpaceType.internal ∧
      (pr.fst.op fd.ops.length).getIn 0 = some (fd.vars.length + 1) ∧
      pr.fst.vn (fd.vars.length + 1) =
        { space := SpaceType.constant, offset := val, size := size,
          descend := [fd.ops.length] }) := by
  refine ⟨?_, ?_, ?_, ?_⟩
  · intro fd vnid out hL hN h
    have hC := (fd.closedAll_iff).mpr hL
    have hM := (fd.noConstMarkerAll_iff).mpr hN
    unfold Funcdata.descend2Undef at h
    obtain ⟨hc, hm⟩ := Funcdata.descend2UndefLoop_pres _ fd vnid _ false out hC hM h
    exact ⟨(out.fst.closedAll_iff).mp hc, (out.fst.noConstMarkerAll_iff).mp hm⟩
  · intro fd vnid val fd2 hL hN h
    have hC := (fd.closedAll_iff).mpr hL
    have hM := (fd.noConstMarkerAll_iff).mpr hN
    unfold Funcdata.totalReplaceConstant at h
    obtain ⟨hc, hm⟩ := Funcdata.totalReplaceLoop_pres _ fd vnid _ val _ none fd2
      hC hM (fun p hp => by cases hp) h
    exact ⟨(fd2.closedAll_iff).mp hc, (fd2.noConstMarkerAll_iff).mp hm⟩
  · exact fun fd size val addr pr h => fd.newConstCopy_builds size val addr pr h
  · exact fun fd size val addr pr h => fd.newCopyConst_builds size val addr pr h

/-- C10 witness: the discipline evaluated on the concrete store. -/
theorem readReplace_const_marker_discipline_witness :
    (c10WFd.descend2Undef 0 = Except.ok c10DRun ∧
      c10DRun.fst.linksClosed ∧ c10DRun.fst.noConstMarker) ∧
    (c10WFd.totalReplaceConstant 0 7 = Except.ok c10TRun ∧
      c10TRun.linksClosed ∧ c10TRun.noConstMarker) ∧
    (c10WFd.newConstCopy 4 7 default = Except.ok c10NCC ∧
      (c10NCC.fst.op 1).opc = OpCode.COPY ∧
      (c10NCC.fst.op 1).getIn 0 = some 1) ∧
    (c10WFd.newCopyConst 4 7 default = Except.ok c10NCO ∧
      (c10NCO.fst.op 1).opc = OpCode.COPY ∧
      (c10NCO.fst.op 1).getIn 0 = some 2) := by
  have hd : c10WFd.descend2Undef 0 = Except.ok c10DRun := rfl
  have ht : c10WFd.totalReplaceConstant 0 7 = Except.ok c10TRun := rfl
  have hn : c10WFd.newConstCopy 4 7 default = Except.ok c10NCC := rfl
  have hm : c10WFd.newCopyConst 4 7 default = Except.ok c10NCO := rfl
  have hD := readReplace_const_marker_discipline.1 c10WFd 0 c10DRun
    (by decide) (by decide) hd
  have hT := readReplace_const_marker_discipline.2.1 c10WFd 0 7 c10TRun
    (by decide) (by decide) ht
  have hN := readReplace_const_marker_discipline.2.2.1 c10WFd 4 7 default c10NCC hn
  have hM := readReplace_const_marker_discipline.2.2.2 c10WFd 4 7 default c10NCO hm
  exact ⟨⟨hd, hD.1, hD.2⟩, ⟨ht, hT.1, hT.2⟩,
    ⟨hn, hN.2.2.1, hN.2.2.2.2.2.1⟩, ⟨hm, hM.2.2.1, hM.2.2.2.2.2.1⟩⟩

/-! ### C3: the `AncestorRealistic` ancestry walk
(`funcdata_varnode.cc:1373-1557`, `funcdata.hh:542-599`) -/

/-- Modelled from the spec: `PcodeOp::isCall` (`op.hh` missing) — CALL and
CALLIND transfer control to a subroutine. -/
def OpCode.isCall : OpCode → Bool
  | OpCode.CALL => true
  | OpCode.CALLIND => true
  | _ => false

/-- The traversal commands of `AncestorRealistic` (`funcdata.hh:572-579`):
extend the path, or backtrack carrying a success, solid-movement, failure
or killed-by-call verdict. -/
inductive AncCommand where
  | enter_node
  | pop_success
  | pop_solid
  | pop_fail
  | pop_failkill
deriving DecidableEq

instance : Inhabited AncCommand := ⟨AncCommand.enter_node⟩

/-- A node of the depth-first ancestor traversal (`AncestorRealistic::State`,
`funcdata.hh:544-570`): the op along the path, the input varnode currently
considered (`vn = op->getIn(slot)`), its slot, and the flag bits
`seen_solid0 = 1`, `seen_solid1 = 2`, `seen_kill = 4`. -/
structure AncState where
  op : Nat := 0
  vn : Nat := 0
  slot : Nat := 0
  flags : Nat := 0
deriving DecidableEq

instance : Inhabited AncState := ⟨{}⟩

/-- `State::State(o, s)`: the considered varnode is `op->getIn(slot)`. -/
def Funcdata.mkAncState (fd : Funcdata) (o s : Nat) : AncState :=
  { op := o, vn := ((fd.op o).getIn s).getD 0, slot := s, flags := 0 }

/-- `State::getSolidSlot`: 0 when `seen_solid0` is set, else 1. -/
def AncState.getSolidSlot (st : AncState) : Nat :=
  if st.flags.testBit 0 then 0 else 1

/-- `State::markSolid`: set `seen_solid0` for slot 0, `seen_solid1`
otherwise. -/
def AncState.markSolid (st : AncState) (slot : Nat) : AncState :=
  { st with flags := st.flags ||| (if slot = 0 then 1 else 2) }

/-- `State::markKill`: set `seen_kill`. -/
def AncState.markKill (st : AncState) : AncState :=
  { st with flags := st.flags ||| 4 }

/-- `State::seenSolid`: one of the solid bits is set. -/
def AncState.seenSolid (st : AncState) : Bool :=
  st.flags.testBit 0 || st.flags.testBit 1

/-- `State::seenKill`: the kill bit is set. -/
def AncState.seenKill (st : AncState) : Bool :=
  st.flags.testBit 2

/-- The traversal machine of `AncestorRealistic`: the store (the walk sets
visit marks on its varnodes), the trial under analysis, the state stack
(top at the end of the list), the marked varnodes, the MULTIEQUAL depth
and the conditional-execution allowance. -/
structure AncWalk where
  fd : Funcdata
  trial : ParamTrial := {}
  stateStack : List AncState := []
  markedVn : List Nat := []
  multiDepth : Nat := 0
  allowFailingPath : Bool := false
deriving DecidableEq

/-- `stateStack.back()`. -/
def AncWalk.top (w : AncWalk) : AncState := (w.stateStack.getLast?).getD default

/-- `stateStack[stateStack.size()-2]`, the state previous to the one being
popped. -/
def AncWalk.prev (w : AncWalk) : AncState :=
  (w.stateStack.get? (w.stateStack.length - 2)).getD default

/-- Write back the top state (the C++ mutates it in place). -/
def AncWalk.setTop (w : AncWalk) (st : AncState) : AncWalk :=
  { w with stateStack := w.stateStack.set (w.stateStack.length - 1) st }

/-- Write back the previous state (the C++ mutates it in place). -/
def AncWalk.setPrev (w : AncWalk) (st : AncState) : AncWalk :=
  { w with stateStack := w.stateStack.set (w.stateStack.length - 2) st }

/-- `stateStack.pop_back()`. -/
def AncWalk.pop (w : AncWalk) : AncWalk :=
  { w with stateStack := w.stateStack.dropLast }

/-- `stateStack.push_back(...)`. -/
def AncWalk.push (w : AncWalk) (st : AncState) : AncWalk :=
  { w with stateStack := w.stateStack ++ [st] }

/-- `AncestorRealistic::mark`: record the varnode and set its mark flag. -/
def AncWalk.mark (w : AncWalk) (v : Nat) : AncWalk :=
  { w with
    markedVn := w.markedVn ++ [v]
    fd := w.fd.updateVn v (fun vn => { vn with mark := true }) }

/-- `AncestorRealistic::checkConditionalExe` (`funcdata_varnode.cc:1373-1398`):
the popped MULTIEQUAL's block must have exactly two in-edges and the
in-block on the solid slot exactly one out-edge (the dominator refinement
is commented out in the source). -/
def Funcdata.checkConditionalExe (fd : Funcdata) (st : AncState) : Bool :=
  if (fd.block ((fd.op st.op).parent.getD 0)).inEdges.length ≠ 2 then false
  else if (fd.block (((fd.block ((fd.op st.op).parent.getD 0)).inEdges.get?
      st.getSolidSlot).getD 0)).outEdges.length ≠ 1 then false
  else true

/-- The minimal COPY/SUBPIECE chain check of `enterNode` (the do-while loop
of `funcdata_varnode.cc:1447-1455`): walk the definition chain of the
copied value, failing on an unmarked unaffected or non-direct-write input;
any other chain end is solid movement.  The fuel only bounds the loop (the
source relies on the chain being acyclic); exhaustion returns `none`. -/
def Funcdata.copyChainCheck (fd : Funcdata) : Nat → Nat → Option AncCommand
  | 0, _ => none
  | fuel+1, o =>
      if (fd.vn (((fd.op o).getIn 0).getD 0)).mark = false ∧
          (fd.vn (((fd.op o).getIn 0).getD 0)).input = true ∧
          ((fd.vn (((fd.op o).getIn 0).getD 0)).unaffected = true ∨
            (fd.vn (((fd.op o).getIn 0).getD 0)).directwrite = false) then
        some AncCommand.pop_fail
      else
        match (fd.vn (((fd.op o).getIn 0).getD 0)).defOp with
        | none => some AncCommand.pop_solid
        | some o2 =>
            if (fd.op o2).opc = OpCode.COPY ∨ (fd.op o2).opc = OpCode.SUBPIECE then
              fd.copyChainCheck fuel o2
            else some AncCommand.pop_solid

/-- `AncestorRealistic::enterNode` (`funcdata_varnode.cc:1403-1466`).  The
iop-space varnode in slot 1 of a non-creation INDIRECT encodes the affecting
op (`PcodeOp::getOpFromConst`) as its offset. -/
def AncWalk.enterNode (w : AncWalk) : Option (AncCommand × AncWalk) :=
  if (w.fd.vn w.top.vn).mark = true then some (AncCommand.pop_success, w)
  else if (w.fd.vn w.top.vn).isWritten = false then
    if (w.fd.vn w.top.vn).input = true then
      if (w.fd.vn w.top.vn).unaffected = true then some (AncCommand.pop_fail, w)
      else if (w.fd.vn w.top.vn).persist = true then some (AncCommand.pop_success, w)
      else if (w.fd.vn w.top.vn).directwrite = false then
        some (AncCommand.pop_fail, w)
      else some (AncCommand.pop_success, w)
    else some (AncCommand.pop_success, w)
  else
    if (w.fd.op ((w.fd.vn w.top.vn).defOp.getD 0)).opc = OpCode.INDIRECT then
      if (w.fd.op ((w.fd.vn w.top.vn).defOp.getD 0)).indirectcreation = true then
        if (w.fd.vn (((w.fd.op ((w.fd.vn w.top.vn).defOp.getD 0)).getIn 0).getD
            0)).indirectzero = true then
          some (AncCommand.pop_failkill,
            { w.mark w.top.vn with trial :=
                { (w.mark w.top.vn).trial with indcreateformed := true } })
        else
          some (AncCommand.pop_success,
            { w.mark w.top.vn with trial :=
                { (w.mark w.top.vn).trial with indcreateformed := true } })
      else
        if ((w.fd.op ((w.fd.vn (((w.fd.op ((w.fd.vn w.top.vn).defOp.getD 0)).getIn
            1).getD 0)).offset)).opc).isCall = true then
          if (w.fd.vn ((w.fd.op ((w.fd.vn w.top.vn).defOp.getD
              0)).output.getD 0)).returnaddress = true then
            some (AncCommand.pop_fail, w.mark w.top.vn)
          else if w.trial.killedbycall = true then
            some (AncCommand.pop_fail, w.mark w.top.vn)
          else
            some (AncCommand.enter_node, (w.mark w.top.vn).push
              (w.fd.mkAncState ((w.fd.vn w.top.vn).defOp.getD 0) 0))
        else
          some (AncCommand.enter_node, (w.mark w.top.vn).push
            (w.fd.mkAncState ((w.fd.vn w.top.vn).defOp.getD 0) 0))
    else if (w.fd.op ((w.fd.vn w.top.vn).defOp.getD 0)).opc = OpCode.SUBPIECE ∨
        (w.fd.op ((w.fd.vn w.top.vn).defOp.getD 0)).opc = OpCode.COPY then
      if (w.fd.vn ((w.fd.op ((w.fd.vn w.top.vn).defOp.getD 0)).output.getD
            0)).space = SpaceType.internal ∨
          ((w.fd.vn ((w.fd.op ((w.fd.vn w.top.vn).defOp.getD 0)).output.getD
              0)).space =
            (w.fd.vn (((w.fd.op ((w.fd.vn w.top.vn).defOp.getD 0)).getIn 0).getD
              0)).space ∧
            (w.fd.vn ((w.fd.op ((w.fd.vn w.top.vn).defOp.getD 0)).output.getD
              0)).offset =
            (w.fd.vn (((w.fd.op ((w.fd.vn w.top.vn).defOp.getD 0)).getIn 0).getD
              0)).offset) ∨
          (w.fd.vn (((w.fd.op ((w.fd.vn w.top.vn).defOp.getD 0)).getIn 0).getD
            0)).incidentalcopy = true then
        some (AncCommand.enter_node, (w.mark w.top.vn).push
          (w.fd.mkAncState ((w.fd.vn w.top.vn).defOp.getD 0) 0))
      else
        match (w.mark w.top.vn).fd.copyChainCheck
            ((w.mark w.top.vn).fd.vars.length + 1)
            ((w.fd.vn w.top.vn).defOp.getD 0) with
        | none => none
        | some c => some (c, w.mark w.top.vn)
    else if (w.fd.op ((w.fd.vn w.top.vn).defOp.getD 0)).opc =
        OpCode.MULTIEQUAL then
      some (AncCommand.enter_node,
        { (w.mark w.top.vn).push
            (w.fd.mkAncState ((w.fd.vn w.top.vn).defOp.getD 0) 0) with
          multiDepth := w.multiDepth + 1 })
    else some (AncCommand.pop_solid, w.mark w.top.vn)

/-- The tail of `uponPop` for a MULTIEQUAL after the sibling report has been
folded into the previous state and the slot advanced: either resolve the
node (all siblings traversed: an overriding solid is a success unless a
kill was also seen, in which case conditional execution is checked when
allowed — slating the trial for retesting — and the node fails otherwise;
a kill without solid propagates `pop_failkill`; neither is a success), or
advance to the next sibling. -/
def AncWalk.uponPopFinish (w1 : AncWalk) (st : AncState) (n : Nat) :
    AncCommand × AncWalk :=
  if st.slot + 1 = n then
    (if w1.prev.seenSolid = true then
       if w1.prev.seenKill = true then
         if w1.allowFailingPath = true then
           if w1.fd.checkConditionalExe { st with slot := st.slot + 1 } = false then
             AncCommand.pop_fail
           else AncCommand.pop_success
         else AncCommand.pop_fail
       else AncCommand.pop_success
     else if w1.prev.seenKill = true then AncCommand.pop_failkill
     else AncCommand.pop_success,
     { w1.pop with
        multiDepth := w1.multiDepth - 1
        trial :=
          if w1.prev.seenSolid = true ∧ w1.prev.seenKill = true ∧
              w1.allowFailingPath = true ∧
              w1.fd.checkConditionalExe { st with slot := st.slot + 1 } = true then
            { w1.trial with condexe := true }
          else w1.trial })
  else
    (AncCommand.enter_node,
      w1.setTop { st with
        slot := st.slot + 1
        vn := ((w1.fd.op st.op).getIn (st.slot + 1)).getD 0 })

/-- `AncestorRealistic::uponPop` (`funcdata_varnode.cc:1468-1512`): at a
MULTIEQUAL iterator a `pop_fail` pops immediately; otherwise a solid report
(at depth one on a two-input phi) or a kill report is folded into the
previous state and the iterator either advances to the next sibling or
resolves. -/
def AncWalk.uponPop (w : AncWalk) (cmd : AncCommand) : AncCommand × AncWalk :=
  if (w.fd.op w.top.op).opc = OpCode.MULTIEQUAL then
    if cmd = AncCommand.pop_fail then
      (AncCommand.pop_fail, { w.pop with multiDepth := w.multiDepth - 1 })
    else
      AncWalk.uponPopFinish
        (if cmd = AncCommand.pop_solid ∧ w.multiDepth = 1 ∧
            (w.fd.op w.top.op).inputs.length = 2 then
          w.setPrev (w.prev.markSolid w.top.slot)
         else if cmd = AncCommand.pop_failkill then w.setPrev (w.prev.markKill)
         else w)
        w.top (w.fd.op w.top.op).inputs.length
  else (cmd, w.pop)

/-- The traversal loop of `AncestorRealistic::execute`
(`funcdata_varnode.cc:1543-1554`), with fuel for the while loop. -/
def AncWalk.run : Nat → AncWalk → AncCommand → Option (AncCommand × AncWalk)
  | 0, _, _ => none
  | fuel+1, w, cmd =>
      if w.stateStack.isEmpty then some (cmd, w)
      else
        match cmd with
        | AncCommand.enter_node =>
            match w.enterNode with
            | none => none
            | some pr => AncWalk.run fuel pr.snd pr.fst
        | c => AncWalk.run fuel (w.uponPop c).snd (w.uponPop c).fst

/-- `AncestorRealistic::execute` (`funcdata_varnode.cc:1521-1557`): an input
varnode is rejected outright unless the trial is slated for
conditional-execution retesting; otherwise the depth-first walk runs from
the call's input slot and the trial is accepted exactly when the final
command is `pop_success` or `pop_solid`. -/
def Funcdata.ancestorExecute (fd : Funcdata) (o slot : Nat) (t : ParamTrial)
    (allowFail : Bool) (fuel : Nat) : Option (Bool × ParamTrial) :=
  if (fd.vn (((fd.op o).getIn slot).getD 0)).input = true ∧ t.condexe = false then
    some (false, t)
  else
    match AncWalk.run fuel
        { fd := fd
          trial := t
          stateStack := [fd.mkAncState o slot]
          allowFailingPath := allowFail } AncCommand.enter_node with
    | none => none
    | some pr =>
        some (decide (pr.fst = AncCommand.pop_success ∨
          pr.fst = AncCommand.pop_solid), pr.snd.trial)

instance : Inhabited AncWalk := ⟨{ fd := {} }⟩

theorem getLast_pair {α : Type} [Inhabited α] (l : List α) (p st : α) :
    ((l ++ [p, st]).getLast?).getD default = st := by
  rw [show l ++ [p, st] = (l ++ [p]) ++ [st] by simp]
  rw [List.getLast?_concat]
  rfl

theorem penult_get {α : Type} [Inhabited α] (l : List α) (p st : α) :
    ((l ++ [p, st]).get? ((l ++ [p, st]).length - 2)).getD default = p := by
  rw [show (l ++ [p, st]).length - 2 = l.length by simp]
  rw [List.get?_eq_getElem?]
  rw [List.getElem?_append_right (le_refl l.length)]
  simp

theorem set_penult {α : Type} : ∀ (l : List α) (p st q : α),
    (l ++ [p, st]).set ((l ++ [p, st]).length - 2) q = l ++ [q, st] := by
  intro l
  induction l with
  | nil => intro p st q; rfl
  | cons a l2 ih =>
      intro p st q
      show (a :: (l2 ++ [p, st])).set ((l2 ++ [p, st]).length + 1 - 2) q =
        a :: (l2 ++ [q, st])
      rw [show (l2 ++ [p, st]).length + 1 - 2 = ((l2 ++ [p, st]).length - 2) + 1
        by simp]
      rw [show (a :: (l2 ++ [p, st])).set (((l2 ++ [p, st]).length - 2) + 1) q =
        a :: ((l2 ++ [p, st]).set ((l2 ++ [p, st]).length - 2) q) from rfl]
      rw [ih p st q]

theorem dropLast_pair {α : Type} (l : List α) (p st : α) :
    (l ++ [p, st]).dropLast = l ++ [p] := by
  rw [show l ++ [p, st] = (l ++ [p]) ++ [st] by simp]
  rw [List.dropLast_concat]

theorem AncWalk.uponPopFinish_resolve (w1 : AncWalk) (l : List AncState)
    (p2 st : AncState) (n : Nat)
    (hstk : w1.stateStack = l ++ [p2, st])
    (hlast : st.slot + 1 = n) :
    (AncWalk.uponPopFinish w1 st n).snd.stateStack = l ++ [p2] ∧
    (AncWalk.uponPopFinish w1 st n).snd.multiDepth = w1.multiDepth - 1 ∧
    (p2.seenKill = true → p2.seenSolid = false →
      (AncWalk.uponPopFinish w1 st n).fst = AncCommand.pop_failkill ∧
      (AncWalk.uponPopFinish w1 st n).snd.trial = w1.trial) ∧
    (p2.seenKill = false →
      (AncWalk.uponPopFinish w1 st n).fst = AncCommand.pop_success ∧
      (AncWalk.uponPopFinish w1 st n).snd.trial = w1.trial) ∧
    (p2.seenKill = true → p2.seenSolid = true →
      ((AncWalk.uponPopFinish w1 st n).fst = AncCommand.pop_success ↔
        w1.allowFailingPath = true ∧
        w1.fd.checkConditionalExe { st with slot := st.slot + 1 } = true) ∧
      ((AncWalk.uponPopFinish w1 st n).fst = AncCommand.pop_success →
        (AncWalk.uponPopFinish w1 st n).snd.trial =
          { w1.trial with condexe := true }) ∧
      ((AncWalk.uponPopFinish w1 st n).fst ≠ AncCommand.pop_success →
        (AncWalk.uponPopFinish w1 st n).fst = AncCommand.pop_fail ∧
        (AncWalk.uponPopFinish w1 st n).snd.trial = w1.trial)) := by
  have hprev : w1.prev = p2 := by
    unfold AncWalk.prev
    rw [hstk]
    exact penult_get l p2 st
  unfold AncWalk.uponPopFinish
  rw [if_pos hlast, hprev]
  refine ⟨?_, ?_, ?_, ?_, ?_⟩
  · show (AncWalk.pop w1).stateStack = l ++ [p2]
    unfold AncWalk.pop
    show w1.stateStack.dropLast = l ++ [p2]
    rw [hstk]
    exact dropLast_pair l p2 st
  · rfl
  · intro hk hs
    rw [hk, hs]
    exact ⟨by simp, by simp⟩
  · intro hk
    rw [hk]
    by_cases hs : p2.seenSolid = true
    · rw [hs]
      exact ⟨by simp, by simp⟩
    · rw [Bool.not_eq_true] at hs
      rw [hs]
      exact ⟨by simp, by simp⟩
  · intro hk hs
    rw [hk, hs]
    by_cases ha : w1.allowFailingPath = true
    · by_cases hx : w1.fd.checkConditionalExe { st with slot := st.slot + 1 } = true
      · rw [ha, hx]
        refine ⟨by simp, ?_, ?_⟩
        · intro h2
          simp
        · intro h2
          exact absurd (by simp) h2
      · rw [Bool.not_eq_true] at hx
        rw [ha, hx]
        refine ⟨by simp [hx], ?_, ?_⟩
        · intro h2
          exact absurd h2 (by simp)
        · intro h2
          exact ⟨by simp, by simp⟩
    · rw [Bool.not_eq_true] at ha
      rw [ha]
      refine ⟨by simp [ha], ?_, ?_⟩
      · intro h2
        exact absurd h2 (by simp)
      · intro h2
        exact ⟨by simp, by simp⟩

theorem AncWalk.uponPop_phi_resolve (w : AncWalk) (l : List AncState)
    (p st : AncState) (cmd : AncCommand) (p2 : AncState)
    (hstk : w.stateStack = l ++ [p, st])
    (hphi : (w.fd.op st.op).opc = OpCode.MULTIEQUAL)
    (hlast : st.slot + 1 = (w.fd.op st.op).inputs.length)
    (hc2 : cmd ≠ AncCommand.pop_fail)
    (hp2 : p2 = (if cmd = AncCommand.pop_solid ∧ w.multiDepth = 1 ∧
        (w.fd.op st.op).inputs.length = 2 then p.markSolid st.slot
      else if cmd = AncCommand.pop_failkill then p.markKill else p)) :
    (w.uponPop cmd).snd.stateStack = l ++ [p2] ∧
    (w.uponPop cmd).snd.multiDepth = w.multiDepth - 1 ∧
    (p2.seenKill = true → p2.seenSolid = false →
      (w.uponPop cmd).fst = AncCommand.pop_failkill ∧
      (w.uponPop cmd).snd.trial = w.trial) ∧
    (p2.seenKill = false →
      (w.uponPop cmd).fst = AncCommand.pop_success ∧
      (w.uponPop cmd).snd.trial = w.trial) ∧
    (p2.seenKill = true → p2.seenSolid = true →
      ((w.uponPop cmd).fst = AncCommand.pop_success ↔
        w.allowFailingPath = true ∧
        w.fd.checkConditionalExe { st with slot := st.slot + 1 } = true) ∧
      ((w.uponPop cmd).fst = AncCommand.pop_success →
        (w.uponPop cmd).snd.trial = { w.trial with condexe := true }) ∧
      ((w.uponPop cmd).fst ≠ AncCommand.pop_success →
        (w.uponPop cmd).fst = AncCommand.pop_fail ∧
        (w.uponPop cmd).snd.trial = w.trial)) := by
  have htop : w.top = st := by
    unfold AncWalk.top
    rw [hstk]
    exact getLast_pair l p st
  have hprev : w.prev = p := by
    unfold AncWalk.prev
    rw [hstk]
    exact penult_get l p st
  unfold AncWalk.uponPop
  rw [htop, hprev]
  rw [if_pos hphi, if_neg hc2]
  have hW1stk : (if cmd = AncCommand.pop_solid ∧ w.multiDepth = 1 ∧
      (w.fd.op st.op).inputs.length = 2 then w.setPrev (p.markSolid st.slot)
    else if cmd = AncCommand.pop_failkill then w.setPrev (p.markKill)
    else w).stateStack = l ++ [p2, st] := by
    rw [hp2]
    by_cases hC1 : cmd = AncCommand.pop_solid ∧ w.multiDepth = 1 ∧
        (w.fd.op st.op).inputs.length = 2
    · rw [if_pos hC1, if_pos hC1]
      unfold AncWalk.setPrev
      show w.stateStack.set (w.stateStack.length - 2) (p.markSolid st.slot) =
        l ++ [p.markSolid st.slot, st]
      rw [hstk]
      exact set_penult l p st (p.markSolid st.slot)
    · rw [if_neg hC1, if_neg hC1]
      by_cases hC2 : cmd = AncCommand.pop_failkill
      · rw [if_pos hC2, if_pos hC2]
        unfold AncWalk.setPrev
        show w.stateStack.set (w.stateStack.length - 2) p.markKill =
          l ++ [p.markKill, st]
        rw [hstk]
        exact set_penult l p st p.markKill
      · rw [if_neg hC2, if_neg hC2]
        exact hstk
  have hres := AncWalk.uponPopFinish_resolve
    (if cmd = AncCommand.pop_solid ∧ w.multiDepth = 1 ∧
        (w.fd.op st.op).inputs.length = 2 then w.setPrev (p.markSolid st.slot)
      else if cmd = AncCommand.pop_failkill then w.setPrev (p.markKill)
      else w) l p2 st ((w.fd.op st.op).inputs.length) hW1stk hlast
  have ht1 : (if cmd = AncCommand.pop_solid ∧ w.multiDepth = 1 ∧
      (w.fd.op st.op).inputs.length = 2 then w.setPrev (p.markSolid st.slot)
    else if cmd = AncCommand.pop_failkill then w.setPrev (p.markKill)
    else w).trial = w.trial := by
    split
    · rfl
    · split
      · rfl
      · rfl
  have hm1 : (if cmd = AncCommand.pop_solid ∧ w.multiDepth = 1 ∧
      (w.fd.op st.op).inputs.length = 2 then w.setPrev (p.markSolid st.slot)
    else if cmd = AncCommand.pop_failkill then w.setPrev (p.markKill)
    else w).multiDepth = w.multiDepth := by
    split
    · rfl
    · split
      · rfl
      · rfl
  have ha1 : (if cmd = AncCommand.pop_solid ∧ w.multiDepth = 1 ∧
      (w.fd.op st.op).inputs.length = 2 then w.setPrev (p.markSolid st.slot)
    else if cmd = AncCommand.pop_failkill then w.setPrev (p.markKill)
    else w).allowFailingPath = w.allowFailingPath := by
    split
    · rfl
    · split
      · rfl
      · rfl
  have hf1 : (if cmd = AncCommand.pop_solid ∧ w.multiDepth = 1 ∧
      (w.fd.op st.op).inputs.length = 2 then w.setPrev (p.markSolid st.slot)
    else if cmd = AncCommand.pop_failkill then w.setPrev (p.markKill)
    else w).fd = w.fd := by
    split
    · rfl
    · split
      · rfl
      · rfl
  rw [ht1, hm1, ha1, hf1] at hres
  exact hres

theorem AncWalk.enterNode_trial (w : AncWalk) (pr : AncCommand × AncWalk)
    (h : w.enterNode = some pr) :
    pr.snd.trial = w.trial ∨
    pr.snd.trial = { w.trial with indcreateformed := true } := by
  unfold AncWalk.enterNode at h
  repeat' split at h
  all_goals first
    | (cases h; exact Or.inl rfl)
    | (cases h; exact Or.inr rfl)
    | cases h

theorem AncWalk.uponPop_trial (w : AncWalk) (cmd : AncCommand) :
    (w.uponPop cmd).snd.trial = w.trial ∨
    (w.uponPop cmd).snd.trial = { w.trial with condexe := true } := by
  unfold AncWalk.uponPop AncWalk.uponPopFinish
  repeat' split
  all_goals first
    | exact Or.inl rfl
    | exact Or.inr rfl

theorem AncWalk.run_condexe :
    ∀ (fuel : Nat) (w : AncWalk) (cmd : AncCommand) (out : AncCommand × AncWalk),
      AncWalk.run fuel w cmd = some out → w.trial.condexe = true →
      out.snd.trial.condexe = true := by
  intro fuel
  induction fuel with
  | zero =>
      intro w cmd out h
      cases h
  | succ n ih =>
      intro w cmd out h hcx
      unfold AncWalk.run at h
      split at h
      · cases h
        exact hcx
      · split at h
        · split at h
          · cases h
          · rename_i pr hen
            rcases AncWalk.enterNode_trial w pr hen with h1 | h1
            · exact ih pr.snd pr.fst out h (by rw [h1]; exact hcx)
            · exact ih pr.snd pr.fst out h (by rw [h1]; exact hcx)
        · rcases AncWalk.uponPop_trial w cmd with h1 | h1
          · exact ih (w.uponPop cmd).snd (w.uponPop cmd).fst out h
              (by rw [h1]; exact hcx)
          · exact ih (w.uponPop cmd).snd (w.uponPop cmd).fst out h (by rw [h1])

/-- Concrete store for the C3 witness: a two-input MULTIEQUAL (op 0). -/
def c3Fd : Funcdata :=
  { vars := [{ space := SpaceType.processor, offset := 0, size := 4 },
             { space := SpaceType.processor, offset := 4, size := 4 }],
    ops := [{ opc := OpCode.MULTIEQUAL, inputs := [some 0, some 1],
              parent := some 0 }],
    blocks := [{ oplist := [0] }] }

/-- C3 witness walk: the MULTIEQUAL iterator is on its last sibling and the
previous state has recorded a kill (`seen_kill`) and no solid movement. -/
def c3W : AncWalk :=
  { fd := c3Fd,
    stateStack := [{ op := 0, vn := 0, slot := 0, flags := 4 },
                   { op := 0, vn := 1, slot := 1, flags := 0 }] }

/-- Concrete store for the C3 witness of the input-reject gate of
`execute`: the tested varnode is an input. -/
def c3FdB : Funcdata :=
  { vars := [{ space := SpaceType.processor, offset := 0, size := 4,
               input := true }],
    ops := [{ opc := OpCode.CALL, inputs := [some 0] }],
    blocks := [{ oplist := [0] }] }

/-- Concrete store for the C3 condexe-monotonicity witness: a free varnode
read by a CALL resolves in one enter/pop round. -/
def c3FdC : Funcdata :=
  { vars := [{ space := SpaceType.processor, offset := 0, size := 4 }],
    ops := [{ opc := OpCode.CALL, inputs := [some 0] }],
    blocks := [{ oplist := [0] }] }

/-- The C3 witness run on a trial already slated for retesting. -/
def c3DOut : AncCommand × AncWalk :=
  (AncWalk.run 5
    { fd := c3FdC
      trial := { condexe := true }
      stateStack := [c3FdC.mkAncState 0 0] } AncCommand.enter_node).getD default

/-- C3: resolution of a fully traversed MULTIEQUAL in the ancestry walk, and
the classification of `execute`.  At a MULTIEQUAL iterator on its final
sibling (any non-fail report), with the sibling's own solid/kill report
folded into the node's record: a recorded kill without solid movement
propagates `pop_failkill`; no recorded kill resolves as `pop_success`
(whether or not solid movement was seen); a kill together with solid
movement succeeds exactly when failing paths are allowed and the
conditional-execution test passes — in which case the trial is slated for
retesting (`condexe`) — and otherwise fails with `pop_fail`.  `execute`
rejects an input varnode outright unless the trial is slated for
retesting, otherwise accepts exactly when the walk's final command is
`pop_success` or `pop_solid`; and the retesting slate is never revoked by
a walk. -/
theorem ancestorRealistic_phi_resolution :
    (∀ (w : AncWalk) (l : List AncState) (p st : AncState) (cmd : AncCommand)
      (p2 : AncState),
      w.stateStack = l ++ [p, st] →
      (w.fd.op st.op).opc = OpCode.MULTIEQUAL →
      st.slot + 1 = (w.fd.op st.op).inputs.length →
      cmd ≠ AncCommand.pop_fail →
      p2 = (if cmd = AncCommand.pop_solid ∧ w.multiDepth = 1 ∧
          (w.fd.op st.op).inputs.length = 2 then p.markSolid st.slot
        else if cmd = AncCommand.pop_failkill then p.markKill else p) →
      (w.uponPop cmd).snd.stateStack = l ++ [p2] ∧
      (w.uponPop cmd).snd.multiDepth = w.multiDepth - 1 ∧
      (p2.seenKill = true → p2.seenSolid = false →
        (w.uponPop cmd).fst = AncCommand.pop_failkill ∧
        (w.uponPop cmd).snd.trial = w.trial) ∧
      (p2.seenKill = false →
        (w.uponPop cmd).fst = AncCommand.pop_success ∧
        (w.uponPop cmd).snd.trial = w.trial) ∧
      (p2.seenKill = true → p2.seenSolid = true →
        ((w.uponPop cmd).fst = AncCommand.pop_success ↔
          w.allowFailingPath = true ∧
          w.fd.checkConditionalExe { st with slot := st.slot + 1 } = true) ∧
        ((w.uponPop cmd).fst = AncCommand.pop_success →
          (w.uponPop cmd).snd.trial = { w.trial with condexe := true }) ∧
        ((w.uponPop cmd).fst ≠ AncCommand.pop_success →
          (w.uponPop cmd).fst = AncCommand.pop_fail ∧
          (w.uponPop cmd).snd.trial = w.trial))) ∧
    (∀ (fd : Funcdata) (o slot : Nat) (t : ParamTrial) (af : Bool) (fuel : Nat),
      (fd.vn (((fd.op o).getIn slot).getD 0)).input = true →
      t.condexe = false →
      fd.ancestorExecute o slot t af fuel = some (false, t)) ∧
    (∀ (fd : Funcdata) (o slot : Nat) (t : ParamTrial) (af : Bool) (fuel : Nat)
      (b : Bool) (t2 : ParamTrial),
      fd.ancestorExecute o slot t af fuel = some (b, t2) →
      ((fd.vn (((fd.op o).getIn slot).getD 0)).input = true ∧ t.condexe = false ∧
        b = false ∧ t2 = t) ∨
      (∃ c w2, AncWalk.run fuel
          { fd := fd
            trial := t
            stateStack := [fd.mkAncState o slot]
            allowFailingPath := af } AncCommand.enter_node = some (c, w2) ∧
        t2 = w2.trial ∧
        (b = true ↔ (c = AncCommand.pop_success ∨ c = AncCommand.pop_solid)))) ∧
    (∀ (fuel : Nat) (w : AncWalk) (cmd : AncCommand) (out : AncCommand × AncWalk),
      AncWalk.run fuel w cmd = some out → w.trial.condexe = true →
      out.snd.trial.condexe = true) := by
  refine ⟨?_, ?_, ?_, AncWalk.run_condexe⟩
  · intro w l p st cmd p2 hstk hphi hlast hc2 hp2
    exact AncWalk.uponPop_phi_resolve w l p st cmd p2 hstk hphi hlast hc2 hp2
  · intro fd o slot t af fuel hin hcx
    unfold Funcdata.ancestorExecute
    rw [if_pos ⟨hin, hcx⟩]
  · intro fd o slot t af fuel b t2 h
    unfold Funcdata.ancestorExecute at h
    split at h
    · rename_i hcond
      cases h
      exact Or.inl ⟨hcond.1, hcond.2, rfl, rfl⟩
    · split at h
      · cases h
      · rename_i pr hrun
        cases h
        refine Or.inr ⟨pr.fst, pr.snd, ?_, rfl, ?_⟩
        · rw [hrun]
        · simp

/-- C3 witness: the resolution and classification at concrete inputs —
the kill-only MULTIEQUAL propagates the kill, the input varnode is
rejected when not slated for retesting, and a slated trial stays slated
through a complete walk. -/
theorem ancestorRealistic_phi_resolution_witness :
    ((c3W.uponPop AncCommand.pop_success).fst = AncCommand.pop_failkill ∧
      (c3W.uponPop AncCommand.pop_success).snd.stateStack =
        [{ op := 0, vn := 0, slot := 0, flags := 4 }]) ∧
    c3FdB.ancestorExecute 0 0 {} false 5 = some (false, {}) ∧
    c3DOut.snd.trial.condexe = true := by
  have hA := ancestorRealistic_phi_resolution.1 c3W []
    { op := 0, vn := 0, slot := 0, flags := 4 }
    { op := 0, vn := 1, slot := 1, flags := 0 } AncCommand.pop_success
    { op := 0, vn := 0, slot := 0, flags := 4 }
    rfl (by decide) (by decide) (by decide) (by decide)
  have hB := ancestorRealistic_phi_resolution.2.1 c3FdB 0 0 {} false 5
    (by decide) (by decide)
  have hrun : AncWalk.run 5
      { fd := c3FdC
        trial := { condexe := true }
        stateStack := [c3FdC.mkAncState 0 0] } AncCommand.enter_node =
      some c3DOut := rfl
  have hD := ancestorRealistic_phi_resolution.2.2.2 5
    { fd := c3FdC
      trial := { condexe := true }
      stateStack := [c3FdC.mkAncState 0 0] } AncCommand.enter_node c3DOut
    hrun (by decide)
  exact ⟨⟨((hA.2.2.1) (by decide) (by decide)).1, hA.1⟩, hB, hD⟩

end GhidraDec
